import Mathlib

/-!
# card-verse: the rules engine of `server/src/game/GameManager.js`

A shallow embedding of the `GameManager` class: deck construction, shuffling,
dealing, game creation, play validation, card play, drawing, UNO call / catch and
the wild-draw-four challenge.  Every action of the source reads the game document,
mutates it and writes it back; here an action is a function from the game state
to either the error it throws or the state it stores.

Conventions of the embedding
* `uuidv4()` is a stream `uuid : Nat → Nat`, the k-th call returning `uuid k`;
* `Math.random()` is a stream `rng : Nat → Nat`; `Math.floor(Math.random() * (i + 1))`
  with the k-th draw is `rng k % (i + 1)`;
* card colours and types are the closed enumerations `CardColor` / `CardType`;
  a card's `number` is optional (`undefined` on non-number cards);
* reading a property of `undefined` (for instance the top of an empty discard
  pile) is the error `Err.typeError`;
* timestamps (`startedAt`, `endedAt`) and the presence fields of a player are
  not modelled; the database round trip is the identity.
-/

namespace CardVerse

/-! ## Data model -/

/-- Card colours, `GameManager.CardColor`. -/
inductive CardColor
  | red | blue | green | yellow | wild
  deriving DecidableEq, Repr, Inhabited

/-- Card types, `GameManager.CardType`. -/
inductive CardType
  | number | skip | reverse | drawTwo | wild | wildDrawFour | blankWild
  deriving DecidableEq, Repr, Inhabited

/-- A card object: `id`, `color`, `type`, optional `number`, `pointValue`. -/
structure Card where
  id : Nat
  color : CardColor
  type : CardType
  number : Option Nat
  pointValue : Nat
  deriving DecidableEq, Repr, Inhabited

/-- A player object of `game.players`. -/
structure Player where
  id : Nat
  hand : List Card
  hasCalledUno : Bool
  deriving DecidableEq, Repr, Inhabited

/-- The `houseRules` object. -/
structure HouseRules where
  stackingEnabled : Bool
  jumpInEnabled : Bool
  forcePlayEnabled : Bool
  winningScore : Nat
  challengeEnabled : Bool
  deriving DecidableEq, Repr, Inhabited

/-- Values of `game.status`. -/
inductive Status
  | playing | finished
  deriving DecidableEq, Repr, Inhabited

/-- Values of `game.direction`. -/
inductive Direction
  | clockwise | counterClockwise
  deriving DecidableEq, Repr, Inhabited

/-- Values of `game.scoreMode`. -/
inductive ScoreMode
  | cumulative | singleRound
  deriving DecidableEq, Repr, Inhabited

/-- The game document.  `playerScores` is the object keyed by player id, kept as
an association list; `currentWildColor = none` is `null`; `winnerId = none` is
an absent field. -/
structure GameState where
  id : Nat
  status : Status
  players : List Player
  currentPlayerIndex : Int
  direction : Direction
  drawPile : List Card
  discardPile : List Card
  currentWildColor : Option CardColor
  cardsToDraw : Nat
  isStackingActive : Bool
  houseRules : HouseRules
  scoreMode : ScoreMode
  playerScores : List (Nat × Nat)
  winnerId : Option Nat
  deriving DecidableEq, Repr, Inhabited

/-- The errors thrown by the engine, one constructor per message of the source,
plus `typeError` for a property read on `undefined`. -/
inductive Err
  /-- 'Player not found' -/
  | playerNotFound
  /-- 'Not your turn' -/
  | notYourTurn
  /-- 'You do not have this card' -/
  | cardNotOwned
  /-- 'Wild Draw Four can only be played when you have no matching color cards' -/
  | illegalWildDrawFour
  /-- 'Invalid stack' -/
  | invalidStack
  /-- 'You must draw cards first' -/
  | mustDrawFirst
  /-- 'Card cannot be played on current discard' -/
  | cardNotPlayable
  /-- 'Must select a color for wild card' -/
  | colorSelectionRequired
  /-- 'Can only call UNO with one card left' -/
  | cannotCallUno
  /-- 'Player has not failed to call UNO' -/
  | noUnoFailure
  /-- 'Challenges are disabled' -/
  | challengeDisabled
  /-- 'No Wild Draw Four to challenge' -/
  | noChallengeable
  /-- A JavaScript TypeError: a property of `undefined` was read. -/
  | typeError
  deriving DecidableEq, Repr, Inhabited

/-- Results of the engine can be compared: equality of `Except` values is decidable. -/
instance instDecidableEqResult {ε α : Type} [DecidableEq ε] [DecidableEq α] :
    DecidableEq (Except ε α)
  | .ok a, .ok b => if h : a = b then isTrue (by rw [h]) else isFalse (fun e => h (by injection e))
  | .error a, .error b =>
    if h : a = b then isTrue (by rw [h]) else isFalse (fun e => h (by injection e))
  | .ok _, .error _ => isFalse (fun e => by cases e)
  | .error _, .ok _ => isFalse (fun e => by cases e)

/-- The error kinds of the specification (section 7). -/
inductive SpecError
  | PlayerNotFound | NotYourTurn | CardNotOwned | IllegalWildDrawFour | MustDrawFirst
  | CardNotPlayable | ColorSelectionRequired | CannotCallUno | NoUnoFailure
  | ChallengeDisabled | NoChallengeable | GameNotFound
  deriving DecidableEq, Repr, Inhabited

/-- The specification's name for each thrown message.  The source has two
messages for a play refused while a penalty is pending ('Invalid stack' and
'You must draw cards first'); the specification calls both MustDrawFirst.
A TypeError has no name in the specification. -/
def Err.specKind : Err → Option SpecError
  | .playerNotFound => some .PlayerNotFound
  | .notYourTurn => some .NotYourTurn
  | .cardNotOwned => some .CardNotOwned
  | .illegalWildDrawFour => some .IllegalWildDrawFour
  | .invalidStack => some .MustDrawFirst
  | .mustDrawFirst => some .MustDrawFirst
  | .cardNotPlayable => some .CardNotPlayable
  | .colorSelectionRequired => some .ColorSelectionRequired
  | .cannotCallUno => some .CannotCallUno
  | .noUnoFailure => some .NoUnoFailure
  | .challengeDisabled => some .ChallengeDisabled
  | .noChallengeable => some .NoChallengeable
  | .typeError => none

/-! ## Deck construction -/

/-- The face of a card before it receives its id: colour, type, number, points. -/
structure Face where
  color : CardColor
  type : CardType
  number : Option Nat
  pointValue : Nat
  deriving DecidableEq, Repr

/-- The two number cards pushed for `i` in the loop `for (i = 1; i <= 9; i++)`. -/
def numberPair (color : CardColor) (i : Nat) : List Face :=
  [⟨color, .number, some i, i⟩, ⟨color, .number, some i, i⟩]

/-- The 25 cards pushed for one colour by the `colors.forEach` body, in push order. -/
def colorFaces (color : CardColor) : List Face :=
  [⟨color, .number, some 0, 0⟩]
    ++ (((List.range 9).map (fun i => numberPair color (i + 1))).flatten)
    ++ [⟨color, .skip, none, 20⟩, ⟨color, .skip, none, 20⟩]
    ++ [⟨color, .reverse, none, 20⟩, ⟨color, .reverse, none, 20⟩]
    ++ [⟨color, .drawTwo, none, 20⟩, ⟨color, .drawTwo, none, 20⟩]

/-- All 112 faces in the order `createDeck` pushes them. -/
def deckFaces : List Face :=
  (([CardColor.red, .blue, .green, .yellow].map colorFaces).flatten)
    ++ List.replicate 4 ⟨.wild, .wild, none, 50⟩
    ++ List.replicate 4 ⟨.wild, .wildDrawFour, none, 50⟩
    ++ List.replicate 4 ⟨.wild, .blankWild, none, 50⟩

/-- Give the faces their ids: the card pushed at position `k + i` gets `uuid (k + i)`. -/
def assignIds (uuid : Nat → Nat) : Nat → List Face → List Card
  | _, [] => []
  | k, f :: fs => ⟨uuid k, f.color, f.type, f.number, f.pointValue⟩ :: assignIds uuid (k + 1) fs

/-- The source's `createDeck()`: the 112-card deck, ids drawn from `uuid` in push order. -/
def createDeck (uuid : Nat → Nat) : List Card :=
  assignIds uuid 0 deckFaces

/-! ## Shuffling and dealing -/

/-- The destructuring swap `[a[i], a[j]] = [a[j], a[i]]`. -/
def swapAt (l : List Card) (i j : Nat) : List Card :=
  match l[i]?, l[j]? with
  | some a, some b => (l.set i b).set j a
  | _, _ => l

/-- The loop `for (i = n - 1; i > 0; i--)` of `shuffleDeck`; `k` counts the
calls of `Math.random()` made so far. -/
def shuffleLoop (rng : Nat → Nat) : Nat → Nat → List Card → List Card
  | 0, _, l => l
  | i + 1, k, l => shuffleLoop rng i (k + 1) (swapAt l (i + 1) (rng k % (i + 2)))

/-- The source's `shuffleDeck(deck)`: Fisher-Yates on a copy of the deck. -/
def shuffleDeck (deck : List Card) (rng : Nat → Nat) : List Card :=
  shuffleLoop rng (deck.length - 1) 0 deck

/-- One step `if (deck.length > 0) hands[j].push(deck.shift())`. -/
def dealOne (hands : List (List Card)) (deck : List Card) (j : Nat) :
    List (List Card) × List Card :=
  match deck with
  | [] => (hands, deck)
  | c :: rest => (hands.set j (hands.getD j [] ++ [c]), rest)

/-- The inner loop over `j` of `dealCards`, with `k` players still to serve. -/
def dealRow : Nat → Nat → List (List Card) → List Card → List (List Card) × List Card
  | 0, _, hands, deck => (hands, deck)
  | k + 1, j, hands, deck =>
    let r := dealOne hands deck j
    dealRow k (j + 1) r.1 r.2

/-- The outer loop over `i` of `dealCards`, with `m` rounds still to deal. -/
def dealRounds (numPlayers : Nat) : Nat → List (List Card) → List Card →
    List (List Card) × List Card
  | 0, hands, deck => (hands, deck)
  | m + 1, hands, deck =>
    let r := dealRow numPlayers 0 hands deck
    dealRounds numPlayers m r.1 r.2

/-- The source's `dealCards(deck, numPlayers, cardsPerPlayer)`; the result is
`(hands, remainingDeck)`. -/
def dealCards (deck : List Card) (numPlayers cardsPerPlayer : Nat) :
    List (List Card) × List Card :=
  dealRounds numPlayers cardsPerPlayer (List.replicate numPlayers []) deck

/-! ## Game creation -/

/-- The `while` loop of `createGame`: the first card whose colour is not wild,
spliced out of the remaining deck. -/
def findFirstDiscard : List Card → Option (Card × List Card)
  | [] => none
  | c :: rest =>
    if c.color ≠ .wild then some (c, rest)
    else match findFirstDiscard rest with
      | some (d, r) => some (d, c :: r)
      | none => none

/-- The first discard and the draw pile left by `createGame`: the loop result,
or `remainingDeck.shift()` when every card is wild; `none` is `undefined`. -/
def pickFirstDiscard (remainingDeck : List Card) : Option (Card × List Card) :=
  match findFirstDiscard remainingDeck with
  | some r => some r
  | none =>
    match remainingDeck with
    | [] => none
    | c :: rest => some (c, rest)

/-- The default `houseRules` of `createGame`. -/
def defaultHouseRules : HouseRules :=
  ⟨false, false, true, 500, true⟩

/-- The source's `createGame(roomId, players, houseRules)`.  `players` lists the
ids of the player objects passed in.  The first `uuid` is the game id, the next
112 are the card ids.  With an empty remaining deck `firstDiscard` is
`undefined` and reading `firstDiscard.type` throws.  (With no players the
source stores `0 % 0 = NaN` as `currentPlayerIndex`; `Int.tmod` gives the
dividend, and no action can tell the two apart, as no player is ever found.) -/
def createGame (uuid : Nat → Nat) (rng : Nat → Nat) (players : List Nat)
    (houseRules : Option HouseRules) : Except Err GameState :=
  let gameId := uuid 0
  let deck := shuffleDeck (createDeck (fun k => uuid (k + 1))) rng
  let dealt := dealCards deck players.length 7
  let updatedPlayers : List Player :=
    players.enum.map (fun ip => ⟨ip.2, dealt.1.getD ip.1 [], false⟩)
  match pickFirstDiscard dealt.2 with
  | none => .error .typeError
  | some (firstDiscard, remainingDeck) =>
    let currentPlayerIndex : Int := if firstDiscard.type = .skip then 1 else 0
    let direction : Direction :=
      if firstDiscard.type = .skip then .clockwise
      else if firstDiscard.type = .reverse then .counterClockwise else .clockwise
    let cardsToDraw : Nat :=
      if firstDiscard.type = .skip then 0
      else if firstDiscard.type = .reverse then 0
      else if firstDiscard.type = .drawTwo then 2 else 0
    .ok {
      id := gameId
      status := .playing
      players := updatedPlayers
      currentPlayerIndex := currentPlayerIndex.tmod updatedPlayers.length
      direction := direction
      drawPile := remainingDeck
      discardPile := [firstDiscard]
      currentWildColor := none
      cardsToDraw := cardsToDraw
      isStackingActive := false
      houseRules := houseRules.getD defaultHouseRules
      scoreMode := .cumulative
      playerScores := []
      winnerId := none }

/-- The remaining deck from which `createGame` picks the first discard: the
deck left by `dealCards` after seven cards per player. -/
def remainingDeckOf (uuid rng : Nat → Nat) (players : List Nat) : List Card :=
  (dealCards (shuffleDeck (createDeck (fun k => uuid (k + 1))) rng) players.length 7).2

/-! ## Play validation -/

/-- The call `game.players.findIndex(p => p.id === playerId)`: the index of the
first player with that id, `-1` when there is none. -/
def findIndex : List Player → Nat → Int
  | [], _ => -1
  | p :: ps, playerId =>
    if p.id = playerId then 0
    else if findIndex ps playerId = -1 then -1 else findIndex ps playerId + 1

/-- The array read `game.players[i]`: `none` is `undefined`. -/
def playerAt (players : List Player) (i : Int) : Option Player :=
  if i < 0 then none else players[i.toNat]?

/-- The top card `game.discardPile[game.discardPile.length - 1]`: `none` is `undefined`. -/
def topCard (game : GameState) : Option Card :=
  game.discardPile.getLast?

/-- The expression `game.currentWildColor || topCard.color`; `none` when it throws
(no wild colour and no top card). -/
def targetColor (game : GameState) : Option CardColor :=
  match game.currentWildColor with
  | some c => some c
  | none => (topCard game).map (·.color)

/-- The `hasMatchingColor` test of the wild-draw-four check:
`hand.some(c => c.color !== 'wild' && c.color === (currentWildColor || topCard.color))`.
The right operand is evaluated at the first non-wild card of the hand only. -/
def hasMatchingColor (game : GameState) (hand : List Card) : Except Err Bool :=
  match targetColor game with
  | some t => .ok (hand.any (fun c => c.color != .wild && c.color == t))
  | none => if hand.any (fun c => c.color != .wild) then .error .typeError else .ok false

/-- The `validStack` expression
`(card.type === 'drawTwo' && topCard.type === 'drawTwo') ||
 (card.type === 'wildDrawFour' && topCard.type === 'wildDrawFour')`. -/
def validStack (game : GameState) (card : Card) : Except Err Bool :=
  if card.type = .drawTwo ∨ card.type = .wildDrawFour then
    match topCard game with
    | none => .error .typeError
    | some t =>
      .ok (decide ((card.type = .drawTwo ∧ t.type = .drawTwo) ∨
        (card.type = .wildDrawFour ∧ t.type = .wildDrawFour)))
  else .ok false

/-- Check (3) of `validatePlay`: wild draw four legality. -/
def checkWildDrawFour (game : GameState) (player : Player) (card : Card) : Except Err Unit :=
  if card.type = .wildDrawFour then
    match hasMatchingColor game player.hand with
    | .error e => .error e
    | .ok true => .error .illegalWildDrawFour
    | .ok false => .ok ()
  else .ok ()

/-- Check (4) of `validatePlay`: the stacking rules. -/
def checkStacking (game : GameState) (card : Card) : Except Err Unit :=
  if game.isStackingActive = true ∧ game.cardsToDraw > 0 then
    if game.houseRules.stackingEnabled = true then
      match validStack game card with
      | .error e => .error e
      | .ok true => .ok ()
      | .ok false => .error .invalidStack
    else .error .mustDrawFirst
  else .ok ()

/-- Check (5) of `validatePlay`: can the card be played on the current discard.
`card.number !== topCard.number` compares two optional numbers, `undefined`
being equal to `undefined`. -/
def checkPlayable (game : GameState) (card : Card) : Except Err Unit :=
  if card.color ≠ .wild then
    match targetColor game with
    | none => .error .typeError
    | some target =>
      if card.color ≠ target then
        match topCard game with
        | none => .error .typeError
        | some t =>
          if card.type ≠ t.type ∧ card.number ≠ t.number then .error .cardNotPlayable
          else .ok ()
      else .ok ()
  else .ok ()

/-- Check (6) of `validatePlay`: colour selection for wild cards;
`selectedColor = none` is a falsy argument. -/
def checkColorSelection (card : Card) (selectedColor : Option CardColor) : Except Err Unit :=
  if card.color = .wild ∧ selectedColor = none ∧ card.type ≠ .blankWild then
    .error .colorSelectionRequired
  else .ok ()

/-- The source's `validatePlay(game, playerId, card, selectedColor)`; `.ok ()` is
`return true`. -/
def validatePlay (game : GameState) (playerId : Nat) (card : Card)
    (selectedColor : Option CardColor) : Except Err Unit :=
  let playerIndex := findIndex game.players playerId
  if playerIndex = -1 then .error .playerNotFound
  else if game.currentPlayerIndex ≠ playerIndex then .error .notYourTurn
  else
    match playerAt game.players playerIndex with
    | none => .error .typeError
    | some player =>
      if player.hand.any (fun c => c.id == card.id) = false then .error .cardNotOwned
      else
        match checkWildDrawFour game player card with
        | .error e => .error e
        | .ok _ =>
          match checkStacking game card with
          | .error e => .error e
          | .ok _ =>
            match checkPlayable game card with
            | .error e => .error e
            | .ok _ => checkColorSelection card selectedColor

/-! ## Playing a card -/

/-- The read `game.playerScores[playerId] || 0`. -/
def scoreOf (scores : List (Nat × Nat)) (playerId : Nat) : Nat :=
  match scores.lookup playerId with
  | some v => v
  | none => 0

/-- The write `game.playerScores[playerId] = v`: replaces the entry of an
existing key, adds the key otherwise. -/
def setScore : List (Nat × Nat) → Nat → Nat → List (Nat × Nat)
  | [], playerId, v => [(playerId, v)]
  | (k, w) :: rest, playerId, v =>
    if k = playerId then (k, v) :: rest else (k, w) :: setScore rest playerId v

/-- The `roundScore` computed by the nested `forEach`: the point values of all
cards in all hands. -/
def roundScore (players : List Player) : Nat :=
  (players.map (fun p => (p.hand.map (·.pointValue)).sum)).sum

/-- The `skipCount` chosen by the `switch (card.type)` of `playCard`. -/
def skipCountOf (card : Card) (seatCount : Nat) : Nat :=
  match card.type with
  | .skip => 1
  | .reverse => if seatCount = 2 then 1 else 0
  | .drawTwo => 1
  | .wildDrawFour => 1
  | _ => 0

/-- The other direction: `direction === 'clockwise' ? 'counterClockwise' : 'clockwise'`. -/
def Direction.flip : Direction → Direction
  | .clockwise => .counterClockwise
  | .counterClockwise => .clockwise

/-- The `game.direction` left by the `switch (card.type)` of `playCard`. -/
def directionAfter (game : GameState) (card : Card) : Direction :=
  match card.type with
  | .reverse => if game.players.length = 2 then game.direction else game.direction.flip
  | _ => game.direction

/-- The `game.cardsToDraw` left by the `switch (card.type)` of `playCard`. -/
def cardsToDrawAfter (game : GameState) (card : Card) : Nat :=
  match card.type with
  | .skip => game.cardsToDraw
  | .reverse => game.cardsToDraw
  | .drawTwo =>
    if game.cardsToDraw > 0 ∧ game.houseRules.stackingEnabled = true
    then game.cardsToDraw + 2 else 2
  | .wildDrawFour =>
    if game.cardsToDraw > 0 ∧ game.houseRules.stackingEnabled = true
    then game.cardsToDraw + 4 else 4
  | _ => 0

/-- The `game.isStackingActive` left by the `switch (card.type)` of `playCard`. -/
def stackingAfter (game : GameState) (card : Card) : Bool :=
  match card.type with
  | .skip => game.isStackingActive
  | .reverse => game.isStackingActive
  | .drawTwo => true
  | .wildDrawFour => true
  | _ => false

/-- The sign `game.direction === 'clockwise' ? 1 : -1`. -/
def dirSign : Direction → Int
  | .clockwise => 1
  | .counterClockwise => -1

/-- The next player of `playCard`; `%` is the JavaScript remainder, `Int.tmod`. -/
def nextPlayerIndex (playerIndex : Int) (direction : Direction) (skipCount : Nat)
    (seatCount : Nat) : Int :=
  if skipCount > 0 then
    (playerIndex + dirSign direction * (1 + (skipCount : Int)) + (seatCount : Int)).tmod seatCount
  else
    (playerIndex + dirSign direction + (seatCount : Int)).tmod seatCount

/-- The game-end block of `playCard`, applied to the game `g` whose players,
piles, penalty and turn are already updated. -/
def checkGameEnd (g : GameState) (playerId : Nat) (updatedHand : List Card) : GameState :=
  if updatedHand.length = 0 then
    if g.scoreMode = .singleRound then
      { g with status := .finished, winnerId := some playerId }
    else
      let scores := setScore g.playerScores playerId
        (scoreOf g.playerScores playerId + roundScore g.players)
      if scoreOf scores playerId ≥ g.houseRules.winningScore then
        { g with playerScores := scores, status := .finished, winnerId := some playerId }
      else
        { g with playerScores := scores }
  else g

/-- The statements of `playCard` that follow the call of `validatePlay`, for the
player object `player` found at `playerIndex`: hand, discard pile, wild colour,
card effect, next player, game end. -/
def applyPlay (game : GameState) (playerId : Nat) (card : Card)
    (selectedColor : Option CardColor) (playerIndex : Int) (player : Player) : GameState :=
  let updatedHand := player.hand.filter (fun c => c.id != card.id)
  let players := game.players.set playerIndex.toNat
    { player with hand := updatedHand, hasCalledUno := decide (updatedHand.length = 1) }
  let skipCount := skipCountOf card game.players.length
  let direction := directionAfter game card
  let g : GameState :=
    { game with
      players := players
      discardPile := game.discardPile ++ [card]
      currentWildColor :=
        if card.color = .wild ∧ selectedColor ≠ none then selectedColor
        else game.currentWildColor
      direction := direction
      cardsToDraw := cardsToDrawAfter game card
      isStackingActive := stackingAfter game card
      currentPlayerIndex :=
        nextPlayerIndex playerIndex direction skipCount game.players.length }
  checkGameEnd g playerId updatedHand

/-- The source's `playCard(gameId, playerId, card, selectedColor)` on the stored
game; `card` is the card object sent by the client. -/
def playCard (game : GameState) (playerId : Nat) (card : Card)
    (selectedColor : Option CardColor) : Except Err GameState :=
  match validatePlay game playerId card selectedColor with
  | .error e => .error e
  | .ok _ =>
    let playerIndex := findIndex game.players playerId
    match playerAt game.players playerIndex with
    | none => .error .typeError
    | some player => .ok (applyPlay game playerId card selectedColor playerIndex player)

/-- The hand of the player that `playerId` designates in `game` (empty when
there is no such player). -/
def handOf (game : GameState) (playerId : Nat) : List Card :=
  match playerAt game.players (findIndex game.players playerId) with
  | some p => p.hand
  | none => []

/-! ## Drawing -/

/-- The `for (i = 0; i < cardsToTake; i++)` loop of `drawCard`, with `n`
iterations left; the state is `(drawPile, discardPile, drawnCards)`.  A
reshuffle uses the random draws from `rng 0` on, and the loop goes on with the
draws after those. -/
def drawLoop : Nat → (Nat → Nat) → List Card → List Card → List Card →
    List Card × List Card × List Card
  | 0, _, drawPile, discardPile, drawn => (drawPile, discardPile, drawn)
  | n + 1, rng, [], discardPile, drawn =>
    if discardPile.length ≤ 1 then ([], discardPile, drawn)
    else
      match discardPile.getLast? with
      | none => ([], discardPile, drawn)
      | some top =>
        let rest := discardPile.dropLast
        let rng2 := fun k => rng (k + (rest.length - 1))
        match shuffleDeck rest rng with
        | [] => drawLoop n rng2 [] [top] drawn
        | c :: pile => drawLoop n rng2 pile [top] (drawn ++ [c])
  | n + 1, rng, c :: pile, discardPile, drawn =>
    drawLoop n rng pile discardPile (drawn ++ [c])

/-- The next seat of `drawCard`: one step in the current direction. -/
def nextSeat (playerIndex : Int) (direction : Direction) (seatCount : Nat) : Int :=
  (playerIndex + dirSign direction + (seatCount : Int)).tmod seatCount

/-- The source's `drawCard(gameId, playerId)` on the stored game. -/
def drawCard (game : GameState) (playerId : Nat) (rng : Nat → Nat) : Except Err GameState :=
  let playerIndex := findIndex game.players playerId
  if playerIndex ≠ game.currentPlayerIndex then .error .notYourTurn
  else
    match playerAt game.players playerIndex with
    | none => .error .typeError
    | some player =>
      let cardsToTake := if game.cardsToDraw > 0 then game.cardsToDraw else 1
      let r := drawLoop cardsToTake rng game.drawPile game.discardPile []
      .ok { game with
        drawPile := r.1
        discardPile := r.2.1
        players := game.players.set playerIndex.toNat
          { player with hand := player.hand ++ r.2.2, hasCalledUno := false }
        currentPlayerIndex := nextSeat playerIndex game.direction game.players.length
        cardsToDraw := 0
        isStackingActive := false }

/-! ## UNO call, UNO catch, challenge -/

/-- The source's `callUno(gameId, playerId)` on the stored game. -/
def callUno (game : GameState) (playerId : Nat) : Except Err GameState :=
  let playerIndex := findIndex game.players playerId
  if playerIndex = -1 then .error .playerNotFound
  else
    match playerAt game.players playerIndex with
    | none => .error .typeError
    | some player =>
      if player.hand.length ≠ 1 then .error .cannotCallUno
      else .ok { game with
        players := game.players.set playerIndex.toNat { player with hasCalledUno := true } }

/-- The penalty loop `for (i = 0; i < count; i++) { if (drawPile.length === 0) break;
drawnCards.push(drawPile.shift()) }`; the result is `(drawPile, drawnCards)`. -/
def penaltyLoop : Nat → List Card → List Card → List Card × List Card
  | 0, drawPile, drawn => (drawPile, drawn)
  | _ + 1, [], drawn => ([], drawn)
  | n + 1, c :: pile, drawn => penaltyLoop n pile (drawn ++ [c])

/-- The source's `catchUnoFailure(gameId, targetPlayerId)` on the stored game. -/
def catchUnoFailure (game : GameState) (targetPlayerId : Nat) : Except Err GameState :=
  let playerIndex := findIndex game.players targetPlayerId
  if playerIndex = -1 then .error .playerNotFound
  else
    match playerAt game.players playerIndex with
    | none => .error .typeError
    | some player =>
      if player.hand.length ≠ 1 ∨ player.hasCalledUno = true then .error .noUnoFailure
      else
        let r := penaltyLoop 2 game.drawPile []
        .ok { game with
          drawPile := r.1
          players := game.players.set playerIndex.toNat
            { player with hand := player.hand ++ r.2 } }

/-- The source's `_applyCardPenalty(gameId, playerId, cardCount)` on the stored
game; an unknown player gets the game back unchanged. -/
def _applyCardPenalty (game : GameState) (playerId : Nat) (cardCount : Nat) :
    Except Err GameState :=
  let playerIndex := findIndex game.players playerId
  if playerIndex = -1 then .ok game
  else
    match playerAt game.players playerIndex with
    | none => .error .typeError
    | some player =>
      let r := penaltyLoop cardCount game.drawPile []
      .ok { game with
        drawPile := r.1
        players := game.players.set playerIndex.toNat
          { player with hand := player.hand ++ r.2 } }

/-- The backward scan of `challengeWildDrawFour` for the last wild draw four of
the discard pile. -/
def lastWildDrawFour (discardPile : List Card) : Option Card :=
  discardPile.reverse.find? (fun c => c.type == .wildDrawFour)

/-- The source's `challengeWildDrawFour(gameId, challengerId, isChallenging)` on
the stored game; `playedById` stays `null`, so both branches penalise the
challenger. -/
def challengeWildDrawFour (game : GameState) (challengerId : Nat) (isChallenging : Bool) :
    Except Err GameState :=
  if game.houseRules.challengeEnabled = false then .error .challengeDisabled
  else
    match lastWildDrawFour game.discardPile with
    | none => .error .noChallengeable
    | some _ =>
      if isChallenging = false then _applyCardPenalty game challengerId 4
      else _applyCardPenalty game challengerId 4

/-! ## Reachable states -/

/-- One accepted action of the engine. -/
inductive Step : GameState → GameState → Prop
  | play (g g2 : GameState) (playerId : Nat) (card : Card) (selectedColor : Option CardColor) :
      playCard g playerId card selectedColor = .ok g2 → Step g g2
  | draw (g g2 : GameState) (playerId : Nat) (rng : Nat → Nat) :
      drawCard g playerId rng = .ok g2 → Step g g2
  | uno (g g2 : GameState) (playerId : Nat) :
      callUno g playerId = .ok g2 → Step g g2
  | catchUno (g g2 : GameState) (targetPlayerId : Nat) :
      catchUnoFailure g targetPlayerId = .ok g2 → Step g g2
  | challenge (g g2 : GameState) (challengerId : Nat) (isChallenging : Bool) :
      challengeWildDrawFour g challengerId isChallenging = .ok g2 → Step g g2

/-- The states reached from `g0` by any sequence of accepted actions. -/
def Reachable (g0 g : GameState) : Prop :=
  Relation.ReflTransGen Step g0 g

/-! ## Concurrent submissions

Every action of the source is an `async` function: it reads the game document
(`await gameRef.get()`), works on its own copy, and writes the copy back
(`await gameRef.update(game)`); an action that throws writes nothing.  Between
the read and the write of one invocation another invocation can run.  (The
later `rtdb ... set(game)` writes a second store that no action reads.) -/

/-- An action submitted to the engine, with its arguments. -/
inductive Action
  | play (playerId : Nat) (card : Card) (selectedColor : Option CardColor)
  | draw (playerId : Nat) (rng : Nat → Nat)
  | uno (playerId : Nat)
  | catchUno (targetPlayerId : Nat)
  | challenge (challengerId : Nat) (isChallenging : Bool)

/-- What an action does to the game it is given, as a function: the game it
stores or the error it throws. -/
def Action.run : Action → GameState → Except Err GameState
  | .play playerId card selectedColor, g => playCard g playerId card selectedColor
  | .draw playerId rng, g => drawCard g playerId rng
  | .uno playerId, g => callUno g playerId
  | .catchUno targetPlayerId, g => catchUnoFailure g targetPlayerId
  | .challenge challengerId isChallenging, g =>
    challengeWildDrawFour g challengerId isChallenging

/-- The write `gameRef.update(game)`: every field present in `game` replaces
the stored one.  `winnerId` is the one field that can be absent from `game`, and
an absent field leaves the stored one. -/
def updateDoc (doc game : GameState) : GameState :=
  { game with
    winnerId :=
      match game.winnerId with
      | some w => some w
      | none => doc.winnerId }

/-- How far an invocation has come: submitted; past the checks of
`challengeWildDrawFour` on its first read (that action reads the document a
second time in `_applyCardPenalty`); holding the copy `game` it has read and
will work on; returned or thrown. -/
inductive Progress
  | submitted
  | checked
  | hasRead (game : GameState)
  | done
  deriving DecidableEq

/-- The two checks that `challengeWildDrawFour` makes on its first read. -/
def challengePasses (g : GameState) : Bool :=
  g.houseRules.challengeEnabled && (lastWildDrawFour g.discardPile).isSome

/-- One step of an invocation of the action `a` against the stored document
`doc`: the next `await` of the source.  The result is the stored document and
the progress after the step. -/
def advance (a : Action) (doc : GameState) : Progress → GameState × Progress
  | .submitted =>
    match a with
    | .challenge _ _ => if challengePasses doc then (doc, .checked) else (doc, .done)
    | _ => (doc, .hasRead doc)
  | .checked => (doc, .hasRead doc)
  | .hasRead game =>
    match a with
    | .challenge challengerId _ =>
      if findIndex game.players challengerId = -1 then (doc, .done)
      else
        match _applyCardPenalty game challengerId 4 with
        | .ok g2 => (updateDoc doc g2, .done)
        | .error _ => (doc, .done)
    | _ =>
      match a.run game with
      | .ok g2 => (updateDoc doc g2, .done)
      | .error _ => (doc, .done)
  | .done => (doc, .done)

/-- Two invocations against one stored document. -/
structure Race where
  doc : GameState
  first : Progress
  second : Progress
  deriving DecidableEq

/-- Which of the two invocations takes the next step. -/
inductive Who
  | first | second
  deriving DecidableEq

/-- The race of the actions `a` (first) and `b` (second) under a schedule: the
invocation named by each entry takes its next step. -/
def runSchedule (a b : Action) : List Who → Race → Race
  | [], r => r
  | .first :: rest, r =>
    runSchedule a b rest
      { r with doc := (advance a r.doc r.first).1, first := (advance a r.doc r.first).2 }
  | .second :: rest, r =>
    runSchedule a b rest
      { r with doc := (advance b r.doc r.second).1, second := (advance b r.doc r.second).2 }

/-! ## The cards of a game -/

/-- All cards held by a game: draw pile, discard pile, then the hands in seat order. -/
def allCards (g : GameState) : List Card :=
  g.drawPile ++ g.discardPile ++ (g.players.map (·.hand)).flatten

/-- The ids of all cards held by a game. -/
def allIds (g : GameState) : List Nat :=
  (allCards g).map (·.id)

/-- The ids of a list of cards, as a multiset. -/
def idm (l : List Card) : Multiset Nat :=
  ((l.map (·.id) : List Nat) : Multiset Nat)

/-- The ids of the cards of a game, as a multiset: the piles plus every hand. -/
def census (g : GameState) : Multiset Nat :=
  idm g.drawPile + idm g.discardPile + (g.players.map (fun p => idm p.hand)).sum

/-- The face of a card: the card without its id. -/
def Card.face (c : Card) : Face :=
  ⟨c.color, c.type, c.number, c.pointValue⟩

/-! ## Example games -/

/-- A red skip, as `createDeck` builds it. -/
def redSkip : Card := ⟨19, .red, .skip, none, 20⟩

/-- A red reverse. -/
def redReverse : Card := ⟨21, .red, .reverse, none, 20⟩

/-- A red draw two. -/
def redDrawTwo : Card := ⟨23, .red, .drawTwo, none, 20⟩

/-- A blue draw two. -/
def blueDrawTwo : Card := ⟨48, .blue, .drawTwo, none, 20⟩

/-- A red five. -/
def redFive : Card := ⟨9, .red, .number, some 5, 5⟩

/-- A red seven. -/
def redSeven : Card := ⟨13, .red, .number, some 7, 7⟩

/-- A blue reverse. -/
def blueReverse : Card := ⟨46, .blue, .reverse, none, 20⟩

/-- A blue three. -/
def blueThree : Card := ⟨30, .blue, .number, some 3, 3⟩

/-- A green nine. -/
def greenNine : Card := ⟨67, .green, .number, some 9, 9⟩

/-- A yellow one. -/
def yellowOne : Card := ⟨76, .yellow, .number, some 1, 1⟩

/-- A wild draw four. -/
def wildDrawFourCard : Card := ⟨104, .wild, .wildDrawFour, none, 50⟩

/-- A two-player game in progress: player 1 (seat 0) to move, a blue reverse on
top of the discard pile, no wild colour bound, no pending penalty. -/
def twoPlayerGame : GameState :=
  { id := 0
    status := .playing
    players := [⟨1, [redSkip, redFive], false⟩, ⟨2, [greenNine, yellowOne], false⟩]
    currentPlayerIndex := 0
    direction := .clockwise
    drawPile := [redSeven, blueThree]
    discardPile := [blueReverse]
    currentWildColor := none
    cardsToDraw := 0
    isStackingActive := false
    houseRules := defaultHouseRules
    scoreMode := .cumulative
    playerScores := []
    winnerId := none }

/-- A one-player game: player 1 holds a red reverse and a red five, a red
seven is on top of the discard pile. -/
def onePlayerGame : GameState :=
  { twoPlayerGame with
    players := [⟨1, [redReverse, redFive], false⟩]
    drawPile := [blueThree]
    discardPile := [redSeven] }

/-- The state an action stores: the new game when the action is accepted, the
game as it was when the action throws. -/
def stored (g : GameState) (r : Except Err GameState) : GameState :=
  match r with
  | .ok g2 => g2
  | .error _ => g

/-- A two-player game with stacking enabled: player 1 holds two draw twos, a
red seven is on top of the discard pile. -/
def stackingGame : GameState :=
  { twoPlayerGame with
    players := [⟨1, [redDrawTwo, blueDrawTwo, redFive], false⟩, ⟨2, [greenNine, yellowOne], false⟩]
    discardPile := [redSeven]
    drawPile := [blueThree, redSkip, redReverse, blueReverse]
    houseRules := { defaultHouseRules with stackingEnabled := true } }

/-- A two-player game with a pending penalty of two cards: a red draw two is on
top of the discard pile and stacking is enabled. -/
def penaltyGame : GameState :=
  { stackingGame with
    players := [⟨1, [blueDrawTwo, redFive], false⟩, ⟨2, [greenNine, yellowOne], false⟩]
    discardPile := [redSeven, redDrawTwo]
    cardsToDraw := 2
    isStackingActive := true }

/-- A two-player game in which player 1 holds a wild draw four and a blue three,
with a blue reverse on top of the discard pile. -/
def wildGame : GameState :=
  { twoPlayerGame with
    players := [⟨1, [wildDrawFourCard, blueThree], false⟩, ⟨2, [greenNine, yellowOne], false⟩]
    drawPile := [redSeven, redFive] }

/-- A finished game: the two-player game with status finished and player 2 the winner. -/
def finishedGame : GameState :=
  { twoPlayerGame with status := .finished, winnerId := some 2 }

/-- A random source for `shuffleDeck` on 112 cards: every step of the loop picks
`j = i`, except the step `i = 24`, which picks `j = 14`.  The shuffled deck is
the created deck with the cards at positions 14 and 24 exchanged, so that after
fourteen cards are dealt to two players the next card is a red draw two. -/
def openingDrawTwoRng : Nat → Nat :=
  fun k => if k = 87 then 14 else 111 - k

/-- The id source that numbers the calls of `uuidv4()`: the k-th id is `k`. -/
def countingUuid : Nat → Nat :=
  fun k => k

/-- A two-player game in which player 1 holds a single blue three and the
opponent holds cards worth 20 + 9 + 7 + 1 = 37 points. -/
def lastCardGame : GameState :=
  { twoPlayerGame with
    players := [⟨1, [blueThree], true⟩, ⟨2, [redSkip, greenNine, redSeven, yellowOne], false⟩]
    drawPile := [redFive, redReverse] }

/-- The game stored after player 1 plays the blue three in `lastCardGame`. -/
def lastCardPlayed : GameState :=
  stored lastCardGame (playCard lastCardGame 1 blueThree none)

/-- The game created for players 1 and 2 with ids numbered by call and the
shuffle of `openingDrawTwoRng`: the first discard is a red draw two. -/
def openingGame : GameState :=
  stored default (createGame countingUuid openingDrawTwoRng [1, 2] none)

/-- The game stored after player 1 draws in `openingGame`. -/
def openingDrawn : GameState :=
  stored openingGame (drawCard openingGame 1 (fun _ => 0))

/-- A blue five. -/
def blueFive : Card := ⟨34, .blue, .number, some 5, 5⟩

/-- A two-player game in which player 1 holds two cards, a blue three and a red
five, with a blue reverse on top of the discard pile. -/
def unoGame : GameState :=
  { twoPlayerGame with
    players := [⟨1, [blueThree, redFive], false⟩, ⟨2, [greenNine, yellowOne], false⟩]
    drawPile := [redSeven, redSkip, redReverse] }

/-- The game stored after player 1 plays the blue three in `unoGame`, holding
one card afterwards. -/
def unoPlayed : GameState :=
  stored unoGame (playCard unoGame 1 blueThree none)

/-- A two-player game in which player 1 holds one card and has not called UNO. -/
def uncalledGame : GameState :=
  { twoPlayerGame with
    players := [⟨1, [blueThree], false⟩, ⟨2, [greenNine, yellowOne], false⟩]
    drawPile := [redSeven, redFive, redSkip] }

/-- The game `uncalledGame` with an empty draw pile. -/
def emptyPileGame : GameState :=
  { uncalledGame with drawPile := [] }

/-- A two-player game with a wild draw four on top of the discard pile, red
being the bound wild colour, and three cards in the draw pile. -/
def challengeGame : GameState :=
  { twoPlayerGame with
    discardPile := [blueReverse, wildDrawFourCard]
    currentWildColor := some .red
    drawPile := [redSeven, blueThree, redReverse] }

/-- A two-player game in which red is the bound wild colour, a red five is on
top of the discard pile and player 1 holds a blue five. -/
def boundColorGame : GameState :=
  { twoPlayerGame with
    players := [⟨1, [blueFive, redSeven], false⟩, ⟨2, [greenNine, yellowOne], false⟩]
    discardPile := [wildDrawFourCard, redFive]
    currentWildColor := some .red
    drawPile := [blueThree, redSkip] }

/-- A card object carrying the id of the red five and the face of a blue three. -/
def forgedBlueThree : Card := ⟨9, .blue, .number, some 3, 3⟩

/-- A two-player game in which player 1 is to move and player 2 holds a single
card. -/
def raceGame : GameState :=
  { twoPlayerGame with
    players := [⟨1, [blueThree, redFive], false⟩, ⟨2, [greenNine], false⟩]
    drawPile := [redSeven, redSkip] }

/-- The state that two actions leave when the second is submitted after the
first has returned. -/
def inSequence (a b : Action) (g : GameState) : GameState :=
  stored (stored g (a.run g)) (b.run (stored g (a.run g)))

/-- Player 1, whose turn it is, draws a card. -/
def raceDraw : Action := .draw 1 (fun _ => 0)

/-- Player 2 calls UNO. -/
def raceUno : Action := .uno 2

/-- The document stored in `raceGame` when the draw of player 1 and the UNO call
of player 2 both read the game before either writes it, the draw writing
first. -/
def racedDoc : GameState :=
  (runSchedule raceDraw raceUno [.first, .second, .first, .second]
    ⟨raceGame, .submitted, .submitted⟩).doc

/-! ## Basic facts about player lookup and validation -/

theorem findIndex_ge (ps : List Player) (pid : Nat) : -1 ≤ findIndex ps pid := by
  induction ps with
  | nil => simp [findIndex]
  | cons p ps ih =>
    simp only [findIndex]
    split_ifs <;> omega

theorem findIndex_found (ps : List Player) (pid : Nat) (h : findIndex ps pid ≠ -1) :
    0 ≤ findIndex ps pid ∧ findIndex ps pid < ps.length ∧
      ∃ p, ps[(findIndex ps pid).toNat]? = some p ∧ p.id = pid := by
  induction ps with
  | nil => simp [findIndex] at h
  | cons p ps ih =>
    simp only [findIndex] at h ⊢
    by_cases hp : p.id = pid
    · simp [hp]
    · simp only [hp, if_false] at h ⊢
      by_cases hn : findIndex ps pid = -1
      · simp [hn] at h
      · simp only [hn, if_false] at h ⊢
        obtain ⟨h0, h1, q, hq, hqid⟩ := ih hn
        refine ⟨by omega, by simp only [List.length_cons]; push_cast; omega, q, ?_, hqid⟩
        have : (findIndex ps pid + 1).toNat = (findIndex ps pid).toNat + 1 := by omega
        rw [this]; simpa using hq

theorem playerAt_found (ps : List Player) (pid : Nat) (h : findIndex ps pid ≠ -1) :
    ∃ p, playerAt ps (findIndex ps pid) = some p ∧ p.id = pid := by
  obtain ⟨h0, _, p, hp, hid⟩ := findIndex_found ps pid h
  exact ⟨p, by simp [playerAt, hp, not_lt.mpr h0], hid⟩

theorem validatePlay_ok {g : GameState} {pid : Nat} {card : Card} {sel : Option CardColor}
    (h : validatePlay g pid card sel = .ok ()) :
    findIndex g.players pid ≠ -1 ∧ g.currentPlayerIndex = findIndex g.players pid ∧
    ∃ player, playerAt g.players (findIndex g.players pid) = some player ∧
      player.hand.any (fun c => c.id == card.id) = true ∧
      checkWildDrawFour g player card = .ok () ∧ checkStacking g card = .ok () ∧
      checkPlayable g card = .ok () ∧ checkColorSelection card sel = .ok () := by
  unfold validatePlay at h
  simp only at h
  split_ifs at h with h1 h2
  split at h
  · cases h
  · rename_i player hp
    split_ifs at h with h3
    split at h
    · cases h
    · split at h
      · cases h
      · split at h
        · cases h
        · rename_i a b c
          refine ⟨h1, by simpa using h2, player, hp, by simpa using h3, ?_, ?_, ?_, h⟩ <;> assumption

theorem playCard_ok {g g2 : GameState} {pid : Nat} {card : Card} {sel : Option CardColor}
    (h : playCard g pid card sel = .ok g2) :
    validatePlay g pid card sel = .ok () ∧
    ∃ player, playerAt g.players (findIndex g.players pid) = some player ∧
      g2 = applyPlay g pid card sel (findIndex g.players pid) player := by
  unfold playCard at h
  split at h
  · cases h
  · rename_i u hv
    simp only at h
    split at h
    · cases h
    · rename_i player hp
      refine ⟨hv, player, hp, ?_⟩
      injection h with h
      exact h.symm

theorem checkGameEnd_currentPlayerIndex (g : GameState) (pid : Nat) (hand : List Card) :
    (checkGameEnd g pid hand).currentPlayerIndex = g.currentPlayerIndex := by
  simp only [checkGameEnd]; split_ifs <;> rfl

theorem checkGameEnd_direction (g : GameState) (pid : Nat) (hand : List Card) :
    (checkGameEnd g pid hand).direction = g.direction := by
  simp only [checkGameEnd]; split_ifs <;> rfl

theorem checkGameEnd_cardsToDraw (g : GameState) (pid : Nat) (hand : List Card) :
    (checkGameEnd g pid hand).cardsToDraw = g.cardsToDraw := by
  simp only [checkGameEnd]; split_ifs <;> rfl

theorem checkGameEnd_isStackingActive (g : GameState) (pid : Nat) (hand : List Card) :
    (checkGameEnd g pid hand).isStackingActive = g.isStackingActive := by
  simp only [checkGameEnd]; split_ifs <;> rfl

theorem checkGameEnd_players (g : GameState) (pid : Nat) (hand : List Card) :
    (checkGameEnd g pid hand).players = g.players := by
  simp only [checkGameEnd]; split_ifs <;> rfl

theorem checkGameEnd_drawPile (g : GameState) (pid : Nat) (hand : List Card) :
    (checkGameEnd g pid hand).drawPile = g.drawPile := by
  simp only [checkGameEnd]; split_ifs <;> rfl

theorem checkGameEnd_discardPile (g : GameState) (pid : Nat) (hand : List Card) :
    (checkGameEnd g pid hand).discardPile = g.discardPile := by
  simp only [checkGameEnd]; split_ifs <;> rfl

theorem checkGameEnd_houseRules (g : GameState) (pid : Nat) (hand : List Card) :
    (checkGameEnd g pid hand).houseRules = g.houseRules := by
  simp only [checkGameEnd]; split_ifs <;> rfl

theorem checkGameEnd_scoreMode (g : GameState) (pid : Nat) (hand : List Card) :
    (checkGameEnd g pid hand).scoreMode = g.scoreMode := by
  simp only [checkGameEnd]; split_ifs <;> rfl

theorem checkGameEnd_currentWildColor (g : GameState) (pid : Nat) (hand : List Card) :
    (checkGameEnd g pid hand).currentWildColor = g.currentWildColor := by
  simp only [checkGameEnd]; split_ifs <;> rfl

/-- JavaScript remainder against the mathematical one in `nextPlayerIndex`. -/
theorem tmod_seat (p d : Int) (n : Nat) (hp0 : 0 ≤ p) (hpn : p < n) (hd : -2 ≤ d) :
    (p + d + (n : Int)).tmod n = (p + d) % (n : Int) := by
  have hn : (0 : Int) < n := by omega
  by_cases h1 : (n : Int) = 1
  · have hp : p = 0 := by omega
    subst hp
    rw [h1]
    simp [Int.tmod_one]
  · have hnn : 0 ≤ p + d + n := by omega
    rw [Int.tmod_eq_emod hnn (by omega)]
    simp

theorem dirSign_ge (d : Direction) : -1 ≤ dirSign d ∧ dirSign d ≤ 1 := by
  cases d <;> simp [dirSign]

theorem validatePlay_unfold (g : GameState) (pid : Nat) (card : Card) (sel : Option CardColor)
    (player : Player) (h1 : findIndex g.players pid ≠ -1)
    (h2 : g.currentPlayerIndex = findIndex g.players pid)
    (hp : playerAt g.players (findIndex g.players pid) = some player)
    (h3 : player.hand.any (fun c => c.id == card.id) = true) :
    validatePlay g pid card sel =
      match checkWildDrawFour g player card with
      | .error e => .error e
      | .ok _ =>
        match checkStacking g card with
        | .error e => .error e
        | .ok _ =>
          match checkPlayable g card with
          | .error e => .error e
          | .ok _ => checkColorSelection card sel := by
  unfold validatePlay
  simp only [h1, h2, hp, h3, if_false, ne_eq, not_true_eq_false]
  rfl

theorem checkPlayable_ok_iff (g : GameState) (card : Card) (t : Card) (target : CardColor)
    (ht : topCard g = some t) (htc : targetColor g = some target) (hw : card.color ≠ .wild) :
    checkPlayable g card = .ok () ↔
      (card.color = target ∨ card.type = t.type ∨ card.number = t.number) := by
  unfold checkPlayable
  simp only [hw, ne_eq, not_false_eq_true, if_true, htc, ht]
  by_cases hc : card.color = target
  · simp [hc]
  · by_cases hty : card.type = t.type
    · simp [hc, hty]
    · by_cases hn : card.number = t.number
      · simp [hc, hty, hn]
      · simp [hc, hty, hn]

/-- C2 (evaluation at the failing input): a red skip played on a blue reverse, with
no wild colour bound, is accepted by `validatePlay`, although its colour differs
from the target colour, its type differs from the top card's type and neither
card is a number card.  Both cards have no `number`, and `undefined !== undefined`
is false, so the rejecting conjunction of check (5) fails. -/
theorem validatePlay_accepts_skip_on_reverse :
    topCard twoPlayerGame = some blueReverse ∧ targetColor twoPlayerGame = some .blue ∧
    redSkip.color ≠ .wild ∧ redSkip.color ≠ .blue ∧ redSkip.type ≠ blueReverse.type ∧
    ¬ (redSkip.type = .number ∧ blueReverse.type = .number ∧
        redSkip.number = blueReverse.number) ∧
    validatePlay twoPlayerGame 1 redSkip none = .ok () := by
  decide

theorem playCard_effects {g g2 : GameState} {pid : Nat} {card : Card} {sel : Option CardColor}
    (h : playCard g pid card sel = .ok g2) :
    g2.cardsToDraw = cardsToDrawAfter g card ∧ g2.isStackingActive = stackingAfter g card ∧
    g2.direction = directionAfter g card ∧ g2.houseRules = g.houseRules ∧
    g2.currentPlayerIndex = nextPlayerIndex (findIndex g.players pid) (directionAfter g card)
      (skipCountOf card g.players.length) g.players.length := by
  obtain ⟨_, player, _, rfl⟩ := playCard_ok h
  simp only [applyPlay, checkGameEnd_cardsToDraw, checkGameEnd_isStackingActive,
    checkGameEnd_direction, checkGameEnd_houseRules, checkGameEnd_currentPlayerIndex]
  simp

/-- C3 (counterexample): in a one-player game, which has not more than two seats,
an accepted reverse flips the direction from clockwise to counter-clockwise. -/
theorem playCard_reverse_one_player_flips :
    onePlayerGame.players.length = 1 ∧ redReverse.type = .reverse ∧
    onePlayerGame.direction = .clockwise ∧
    ∃ g2, playCard onePlayerGame 1 redReverse none = .ok g2 ∧
      g2.direction = .counterClockwise :=
  ⟨rfl, rfl, rfl, stored onePlayerGame (playCard onePlayerGame 1 redReverse none),
    by decide, by decide⟩

/-- C3 (amended): for every accepted play the number of seats is at least 1; the
direction is flipped exactly when a reverse is played with a seat count other
than 2, and is unchanged otherwise; the new `currentPlayerIndex` is
`(current + dirSign * (1 + skipCount)) mod seatCount`, where `dirSign` is taken
from the direction after the play and `skipCount` is 1 for skip, drawTwo,
wildDrawFour and for reverse with two seats, and 0 otherwise.  In a four-player
clockwise game a number play advances the seat by 1 mod 4 and a skip by 2; in a
two-player game a reverse leaves seat and direction unchanged. -/
theorem playCard_turn_update (g g2 : GameState) (pid : Nat) (card : Card)
    (sel : Option CardColor) (h : playCard g pid card sel = .ok g2) :
    1 ≤ g.players.length ∧
    g2.direction =
      (if card.type = .reverse ∧ g.players.length ≠ 2 then g.direction.flip else g.direction) ∧
    g2.currentPlayerIndex =
      (g.currentPlayerIndex + dirSign g2.direction *
        (1 + (if card.type = .skip ∨ card.type = .drawTwo ∨ card.type = .wildDrawFour ∨
                (card.type = .reverse ∧ g.players.length = 2) then 1 else 0)))
        % (g.players.length : Int) ∧
    (g.players.length = 4 → g.direction = .clockwise → card.type = .number →
      g2.currentPlayerIndex = (g.currentPlayerIndex + 1) % 4) ∧
    (g.players.length = 4 → g.direction = .clockwise → card.type = .skip →
      g2.currentPlayerIndex = (g.currentPlayerIndex + 2) % 4) ∧
    (g.players.length = 2 → card.type = .reverse →
      g2.currentPlayerIndex = g.currentPlayerIndex ∧ g2.direction = g.direction) := by
  obtain ⟨hv, _⟩ := playCard_ok h
  obtain ⟨hf, hcur, _⟩ := validatePlay_ok hv
  obtain ⟨h0, hlt, _⟩ := findIndex_found _ _ hf
  obtain ⟨_, _, hdir, _, hnext⟩ := playCard_effects h
  have hn : 1 ≤ g.players.length := by omega
  have hdir2 : g2.direction =
      (if card.type = .reverse ∧ g.players.length ≠ 2 then g.direction.flip else g.direction) := by
    rw [hdir]; unfold directionAfter
    cases hty : card.type <;> simp
  have hsk : (skipCountOf card g.players.length : Int) =
      (if card.type = .skip ∨ card.type = .drawTwo ∨ card.type = .wildDrawFour ∨
                (card.type = .reverse ∧ g.players.length = 2) then 1 else 0) := by
    unfold skipCountOf
    cases hty : card.type <;> simp
  have hidx : g2.currentPlayerIndex =
      (g.currentPlayerIndex + dirSign g2.direction *
        (1 + (skipCountOf card g.players.length : Int))) % (g.players.length : Int) := by
    rw [hnext, hdir, hcur]
    have hs := dirSign_ge (directionAfter g card)
    unfold nextPlayerIndex
    have hk : skipCountOf card g.players.length ≤ 1 := by
      unfold skipCountOf
      cases card.type <;> simp
      split_ifs <;> omega
    by_cases hpos : skipCountOf card g.players.length > 0
    · have h1 : skipCountOf card g.players.length = 1 := by omega
      simp only [hpos, if_true, h1]
      apply tmod_seat _ _ _ h0 hlt
      push_cast
      omega
    · have h1 : skipCountOf card g.players.length = 0 := by omega
      simp only [h1, gt_iff_lt, lt_self_iff_false, if_false]
      have := tmod_seat (findIndex g.players pid) (dirSign (directionAfter g card))
        g.players.length h0 hlt (by omega)
      simpa using this
  refine ⟨hn, hdir2, ?_, ?_, ?_, ?_⟩
  · rw [hidx, hsk]
  · intro h4 hcw hty
    rw [hidx, hsk, hdir2]
    simp [hty, hcw, h4, dirSign]
  · intro h4 hcw hty
    rw [hidx, hsk, hdir2]
    simp [hty, hcw, h4, dirSign]
  · intro h2 hty
    refine ⟨?_, by rw [hdir2]; simp [hty, h2]⟩
    rw [hidx, hsk, hcur]
    simp only [hty, h2, and_self, or_true, if_true]
    have hs := dirSign_ge g2.direction
    rw [h2] at hlt
    have : dirSign g2.direction = 1 ∨ dirSign g2.direction = -1 := by
      cases g2.direction <;> simp [dirSign]
    push_cast at hlt ⊢
    rcases this with hd | hd <;> rw [hd] <;> omega

theorem playCard_turn_update_witness :
    playCard twoPlayerGame 1 redSkip none =
      .ok (stored twoPlayerGame (playCard twoPlayerGame 1 redSkip none)) ∧
    1 ≤ twoPlayerGame.players.length ∧
    (stored twoPlayerGame (playCard twoPlayerGame 1 redSkip none)).direction =
      (if redSkip.type = .reverse ∧ twoPlayerGame.players.length ≠ 2
        then twoPlayerGame.direction.flip else twoPlayerGame.direction) :=
  ⟨by decide,
    (playCard_turn_update twoPlayerGame
      (stored twoPlayerGame (playCard twoPlayerGame 1 redSkip none)) 1 redSkip none
      (by decide)).1,
    (playCard_turn_update twoPlayerGame
      (stored twoPlayerGame (playCard twoPlayerGame 1 redSkip none)) 1 redSkip none
      (by decide)).2.1⟩

theorem checkStacking_ok_iff (g : GameState) (card t : Card)
    (hact : g.isStackingActive = true) (hpen : g.cardsToDraw > 0)
    (hen : g.houseRules.stackingEnabled = true) (ht : topCard g = some t) :
    (checkStacking g card = .ok () ↔
      ((card.type = .drawTwo ∧ t.type = .drawTwo) ∨
        (card.type = .wildDrawFour ∧ t.type = .wildDrawFour))) ∧
    (¬ ((card.type = .drawTwo ∧ t.type = .drawTwo) ∨
        (card.type = .wildDrawFour ∧ t.type = .wildDrawFour)) →
      checkStacking g card = .error .invalidStack) := by
  unfold checkStacking validStack
  simp only [hact, hpen, hen, ht, and_self, if_true]
  by_cases h1 : card.type = .drawTwo
  · by_cases h2 : t.type = .drawTwo <;> simp [h1, h2]
  · by_cases h3 : card.type = .wildDrawFour
    · by_cases h4 : t.type = .wildDrawFour <;> simp [h3, h4]
    · simp [h1, h3]

/-- C4: stacking check (4) of `validatePlay`.  In a state with
`isStackingActive`, `cardsToDraw > 0` and a top discard card, for a play that
passes checks (1)-(3): without `stackingEnabled` the play fails with
'You must draw cards first' (MustDrawFirst) whatever the card; with
`stackingEnabled` the check passes iff the card is a drawTwo on a drawTwo or a
wildDrawFour on a wildDrawFour, and otherwise `validatePlay` fails with an error
('Invalid stack') of kind MustDrawFirst. -/
theorem validatePlay_stacking_check (g : GameState) (pid : Nat) (card : Card)
    (sel : Option CardColor) (player : Player) (t : Card)
    (hact : g.isStackingActive = true) (hpen : g.cardsToDraw > 0)
    (h1 : findIndex g.players pid ≠ -1)
    (h1b : g.currentPlayerIndex = findIndex g.players pid)
    (hp : playerAt g.players (findIndex g.players pid) = some player)
    (h2 : player.hand.any (fun c => c.id == card.id) = true)
    (h3 : checkWildDrawFour g player card = .ok ())
    (ht : topCard g = some t) :
    (g.houseRules.stackingEnabled = false →
      checkStacking g card = .error .mustDrawFirst ∧
      validatePlay g pid card sel = .error .mustDrawFirst ∧
      Err.specKind .mustDrawFirst = some .MustDrawFirst) ∧
    (g.houseRules.stackingEnabled = true →
      (checkStacking g card = .ok () ↔
        ((card.type = .drawTwo ∧ t.type = .drawTwo) ∨
          (card.type = .wildDrawFour ∧ t.type = .wildDrawFour))) ∧
      (¬ ((card.type = .drawTwo ∧ t.type = .drawTwo) ∨
          (card.type = .wildDrawFour ∧ t.type = .wildDrawFour)) →
        ∃ e, validatePlay g pid card sel = .error e ∧ checkStacking g card = .error e ∧
          e.specKind = some .MustDrawFirst)) := by
  have hv := validatePlay_unfold g pid card sel player h1 h1b hp h2
  rw [h3] at hv
  constructor
  · intro hen
    have hc : checkStacking g card = .error .mustDrawFirst := by
      unfold checkStacking
      simp [hact, hpen, hen]
    refine ⟨hc, ?_, rfl⟩
    rw [hv, hc]
  · intro hen
    obtain ⟨hiff, hno⟩ := checkStacking_ok_iff g card t hact hpen hen ht
    refine ⟨hiff, fun hn => ⟨.invalidStack, ?_, hno hn, rfl⟩⟩
    rw [hv, hno hn]

theorem validatePlay_stacking_check_witness :
    (checkStacking penaltyGame blueDrawTwo = .ok () ↔
      ((blueDrawTwo.type = .drawTwo ∧ redDrawTwo.type = .drawTwo) ∨
        (blueDrawTwo.type = .wildDrawFour ∧ redDrawTwo.type = .wildDrawFour))) :=
  ((validatePlay_stacking_check penaltyGame 1 blueDrawTwo none
      ⟨1, [blueDrawTwo, redFive], false⟩ redDrawTwo (by decide) (by decide) (by decide)
      (by decide) (by decide) (by decide) (by decide) (by decide)).2 (by decide)).1

theorem playCard_penalty_cases {g g2 : GameState} {pid : Nat} {card : Card}
    {sel : Option CardColor} (h : playCard g pid card sel = .ok g2) :
    (card.type = .drawTwo →
      g2.cardsToDraw = (if g.cardsToDraw > 0 ∧ g.houseRules.stackingEnabled = true
        then g.cardsToDraw + 2 else 2) ∧ g2.isStackingActive = true) ∧
    (card.type = .wildDrawFour →
      g2.cardsToDraw = (if g.cardsToDraw > 0 ∧ g.houseRules.stackingEnabled = true
        then g.cardsToDraw + 4 else 4) ∧ g2.isStackingActive = true) ∧
    (card.type = .skip ∨ card.type = .reverse →
      g2.cardsToDraw = g.cardsToDraw ∧ g2.isStackingActive = g.isStackingActive) ∧
    (card.type = .number ∨ card.type = .wild ∨ card.type = .blankWild →
      g2.cardsToDraw = 0 ∧ g2.isStackingActive = false) := by
  obtain ⟨hc, hs, _, _, _⟩ := playCard_effects h
  rw [hc, hs]
  unfold cardsToDrawAfter stackingAfter
  cases card.type <;> simp

/-- C5: penalty update of `playCard`.  For every accepted play: a drawTwo sets
`cardsToDraw` to `cardsToDraw + 2` when the previous value is positive and
stacking is enabled, and to 2 otherwise (wildDrawFour likewise with 4), and both
set `isStackingActive`; skip and reverse leave both fields unchanged; number,
wild and blankWild set `cardsToDraw = 0` and `isStackingActive = false`.  With
stacking enabled, two consecutive accepted drawTwo plays starting from
`cardsToDraw = 0` take `cardsToDraw` to 2 and then to 4. -/
theorem playCard_penalty_update (g g2 : GameState) (pid : Nat) (card : Card)
    (sel : Option CardColor) (h : playCard g pid card sel = .ok g2) :
    (card.type = .drawTwo →
      g2.cardsToDraw = (if g.cardsToDraw > 0 ∧ g.houseRules.stackingEnabled = true
        then g.cardsToDraw + 2 else 2) ∧ g2.isStackingActive = true) ∧
    (card.type = .wildDrawFour →
      g2.cardsToDraw = (if g.cardsToDraw > 0 ∧ g.houseRules.stackingEnabled = true
        then g.cardsToDraw + 4 else 4) ∧ g2.isStackingActive = true) ∧
    (card.type = .skip ∨ card.type = .reverse →
      g2.cardsToDraw = g.cardsToDraw ∧ g2.isStackingActive = g.isStackingActive) ∧
    (card.type = .number ∨ card.type = .wild ∨ card.type = .blankWild →
      g2.cardsToDraw = 0 ∧ g2.isStackingActive = false) ∧
    (∀ (g3 : GameState) (pid2 : Nat) (card2 : Card) (sel2 : Option CardColor),
      g.houseRules.stackingEnabled = true → g.cardsToDraw = 0 →
      card.type = .drawTwo → card2.type = .drawTwo →
      playCard g2 pid2 card2 sel2 = .ok g3 →
      g2.cardsToDraw = 2 ∧ g3.cardsToDraw = 4) := by
  obtain ⟨hd, hw, hs, hn⟩ := playCard_penalty_cases h
  refine ⟨hd, hw, hs, hn, ?_⟩
  intro g3 pid2 card2 sel2 hen h0 hty hty2 h2
  have hr : g2.houseRules = g.houseRules := (playCard_effects h).2.2.2.1
  have e2 : g2.cardsToDraw = 2 := by
    rw [(hd hty).1]; simp [h0]
  have e3 := ((playCard_penalty_cases h2).1 hty2).1
  rw [e2, hr] at e3
  exact ⟨e2, by rw [e3]; simp [hen]⟩

theorem playCard_penalty_update_witness :
    playCard stackingGame 1 redDrawTwo none =
      .ok (stored stackingGame (playCard stackingGame 1 redDrawTwo none)) ∧
    playCard (stored stackingGame (playCard stackingGame 1 redDrawTwo none)) 1 blueDrawTwo none =
      .ok (stored stackingGame
        (playCard (stored stackingGame (playCard stackingGame 1 redDrawTwo none))
          1 blueDrawTwo none)) ∧
    (stored stackingGame (playCard stackingGame 1 redDrawTwo none)).cardsToDraw = 2 ∧
    (stored stackingGame
        (playCard (stored stackingGame (playCard stackingGame 1 redDrawTwo none))
          1 blueDrawTwo none)).cardsToDraw = 4 :=
  ⟨by decide, by decide,
    (playCard_penalty_update stackingGame
      (stored stackingGame (playCard stackingGame 1 redDrawTwo none)) 1 redDrawTwo none
      (by decide)).2.2.2.2 _ 1 blueDrawTwo none (by decide) (by decide) (by decide) (by decide)
      (by decide)⟩

theorem checkWildDrawFour_illegal_iff (g : GameState) (player : Player) (card : Card)
    (target : CardColor) (htc : targetColor g = some target) :
    checkWildDrawFour g player card = .error .illegalWildDrawFour ↔
      (card.type = .wildDrawFour ∧ ∃ c ∈ player.hand, c.color ≠ .wild ∧ c.color = target) := by
  unfold checkWildDrawFour hasMatchingColor
  simp only [htc]
  by_cases hty : card.type = .wildDrawFour
  · simp only [hty, if_true, true_and]
    by_cases hany : (player.hand.any (fun c => c.color != .wild && c.color == target)) = true
    · simp only [hany, true_iff]
      simpa using hany
    · have : (player.hand.any (fun c => c.color != .wild && c.color == target)) = false := by
        simpa using hany
      simp only [this, false_iff]
      simp at hany
      simpa using hany
  · simp [hty]

theorem checkStacking_error (g : GameState) (card : Card) (e : Err)
    (h : checkStacking g card = .error e) :
    e = .invalidStack ∨ e = .mustDrawFirst ∨ e = .typeError := by
  unfold checkStacking validStack at h
  cases ht : topCard g <;> simp only [ht] at h <;> split_ifs at h <;> simp_all
  all_goals (split at h <;> simp_all)

theorem checkPlayable_error (g : GameState) (card : Card) (e : Err)
    (h : checkPlayable g card = .error e) :
    e = .cardNotPlayable ∨ e = .typeError := by
  unfold checkPlayable at h
  cases ht : topCard g <;> cases htc : targetColor g <;> simp only [ht, htc] at h <;>
    split_ifs at h <;> simp_all

theorem checkColorSelection_error (card : Card) (sel : Option CardColor) (e : Err)
    (h : checkColorSelection card sel = .error e) : e = .colorSelectionRequired := by
  unfold checkColorSelection at h
  split_ifs at h
  simp_all

theorem checkWildDrawFour_other (g : GameState) (player : Player) (card : Card)
    (hty : card.type ≠ .wildDrawFour) : checkWildDrawFour g player card = .ok () := by
  unfold checkWildDrawFour
  simp [hty]

/-- C6: wild-draw-four legality, check (3) of `validatePlay`.  When the player is
the current player and owns the card, and the effective target colour is
`target`: a wildDrawFour fails with IllegalWildDrawFour iff the hand contains a
non-wild card of colour `target`; a card of any other type never yields
IllegalWildDrawFour. -/
theorem validatePlay_wildDrawFour_check (g : GameState) (pid : Nat) (card : Card)
    (sel : Option CardColor) (player : Player) (target : CardColor)
    (h1 : findIndex g.players pid ≠ -1)
    (h1b : g.currentPlayerIndex = findIndex g.players pid)
    (hp : playerAt g.players (findIndex g.players pid) = some player)
    (h2 : player.hand.any (fun c => c.id == card.id) = true)
    (htc : targetColor g = some target) :
    (card.type = .wildDrawFour →
      (validatePlay g pid card sel = .error .illegalWildDrawFour ↔
        ∃ c ∈ player.hand, c.color ≠ .wild ∧ c.color = target)) ∧
    (card.type ≠ .wildDrawFour →
      validatePlay g pid card sel ≠ .error .illegalWildDrawFour) := by
  have hv := validatePlay_unfold g pid card sel player h1 h1b hp h2
  have key : validatePlay g pid card sel = .error .illegalWildDrawFour ↔
      checkWildDrawFour g player card = .error .illegalWildDrawFour := by
    rw [hv]
    cases h3 : checkWildDrawFour g player card with
    | error e => simp
    | ok u =>
      simp only [reduceCtorEq, iff_false]
      cases h4 : checkStacking g card with
      | error e =>
        simp only
        rcases checkStacking_error g card e h4 with rfl | rfl | rfl <;> simp
      | ok u =>
        simp only
        cases h5 : checkPlayable g card with
        | error e =>
          simp only
          rcases checkPlayable_error g card e h5 with rfl | rfl <;> simp
        | ok u =>
          simp only
          intro h6
          have := checkColorSelection_error card sel _ h6
          simp at this
  constructor
  · intro hty
    rw [key, checkWildDrawFour_illegal_iff g player card target htc]
    simp [hty]
  · intro hty
    rw [Ne, key, checkWildDrawFour_other g player card hty]
    simp

theorem validatePlay_wildDrawFour_check_witness :
    (validatePlay wildGame 1 wildDrawFourCard (some .red) = .error .illegalWildDrawFour ↔
        ∃ c ∈ [wildDrawFourCard, blueThree], c.color ≠ .wild ∧ c.color = .blue) :=
  (validatePlay_wildDrawFour_check wildGame 1 wildDrawFourCard (some .red)
    ⟨1, [wildDrawFourCard, blueThree], false⟩ .blue (by decide) (by decide) (by decide)
    (by decide) (by decide)).1 (by decide)

/-- C7 (counterexample): on a game with status finished, `drawCard` by the
current player is accepted and stores a different state. -/
theorem drawCard_accepted_on_finished_game :
    finishedGame.status = .finished ∧
    ∃ g2, drawCard finishedGame 1 (fun _ => 0) = .ok g2 ∧ g2 ≠ finishedGame :=
  ⟨rfl, stored finishedGame (drawCard finishedGame 1 (fun _ => 0)), by decide, by decide⟩

theorem checkGameEnd_status (g : GameState) (pid : Nat) (hand : List Card) :
    (checkGameEnd g pid hand).status = .finished ∨
      (checkGameEnd g pid hand).status = g.status := by
  simp only [checkGameEnd]; split_ifs <;> simp

theorem drawCard_ok {g g2 : GameState} {pid : Nat} {rng : Nat → Nat}
    (h : drawCard g pid rng = .ok g2) :
    findIndex g.players pid = g.currentPlayerIndex ∧
    ∃ player, playerAt g.players (findIndex g.players pid) = some player ∧
      g2 = { g with
        drawPile := (drawLoop (if g.cardsToDraw > 0 then g.cardsToDraw else 1) rng
          g.drawPile g.discardPile []).1
        discardPile := (drawLoop (if g.cardsToDraw > 0 then g.cardsToDraw else 1) rng
          g.drawPile g.discardPile []).2.1
        players := g.players.set (findIndex g.players pid).toNat
          { player with
            hand := player.hand ++ (drawLoop (if g.cardsToDraw > 0 then g.cardsToDraw else 1)
              rng g.drawPile g.discardPile []).2.2
            hasCalledUno := false }
        currentPlayerIndex := nextSeat (findIndex g.players pid) g.direction g.players.length
        cardsToDraw := 0
        isStackingActive := false } := by
  unfold drawCard at h
  by_cases hc : findIndex g.players pid = g.currentPlayerIndex
  · simp only [hc, ne_eq, not_true_eq_false, if_false] at h
    cases hp : playerAt g.players g.currentPlayerIndex with
    | none => simp [hp] at h
    | some player =>
      simp only [hp] at h
      injection h with h
      exact ⟨hc, player, by rw [hc, hp], by rw [← h, hc]⟩
  · simp [hc] at h

theorem callUno_ok {g g2 : GameState} {pid : Nat} (h : callUno g pid = .ok g2) :
    findIndex g.players pid ≠ -1 ∧
    ∃ player, playerAt g.players (findIndex g.players pid) = some player ∧
      player.hand.length = 1 ∧
      g2 = { g with
        players := g.players.set (findIndex g.players pid).toNat
          { player with hasCalledUno := true } } := by
  unfold callUno at h
  by_cases hc : findIndex g.players pid = -1
  · simp [hc] at h
  · simp only [hc, if_false] at h
    cases hp : playerAt g.players (findIndex g.players pid) with
    | none => simp [hp] at h
    | some player =>
      simp only [hp] at h
      by_cases hl : player.hand.length = 1
      · simp only [hl, ne_eq, not_true_eq_false, if_false] at h
        injection h with h
        exact ⟨hc, player, rfl, hl, h.symm⟩
      · simp [hl] at h

theorem catchUnoFailure_ok {g g2 : GameState} {pid : Nat}
    (h : catchUnoFailure g pid = .ok g2) :
    findIndex g.players pid ≠ -1 ∧
    ∃ player, playerAt g.players (findIndex g.players pid) = some player ∧
      player.hand.length = 1 ∧ player.hasCalledUno = false ∧
      g2 = { g with
        drawPile := (penaltyLoop 2 g.drawPile []).1
        players := g.players.set (findIndex g.players pid).toNat
          { player with hand := player.hand ++ (penaltyLoop 2 g.drawPile []).2 } } := by
  unfold catchUnoFailure at h
  by_cases hc : findIndex g.players pid = -1
  · simp [hc] at h
  · simp only [hc, if_false] at h
    cases hp : playerAt g.players (findIndex g.players pid) with
    | none => simp [hp] at h
    | some player =>
      simp only [hp] at h
      by_cases hl : player.hand.length ≠ 1 ∨ player.hasCalledUno = true
      · simp [hl] at h
      · simp only [hl, if_false] at h
        injection h with h
        refine ⟨hc, player, rfl, ?_, ?_, h.symm⟩
        · by_contra hne; exact hl (Or.inl hne)
        · cases hu : player.hasCalledUno
          · rfl
          · exact absurd (Or.inr hu) hl

theorem _applyCardPenalty_ok {g g2 : GameState} {pid n : Nat}
    (h : _applyCardPenalty g pid n = .ok g2) :
    (findIndex g.players pid = -1 ∧ g2 = g) ∨
    (findIndex g.players pid ≠ -1 ∧
      ∃ player, playerAt g.players (findIndex g.players pid) = some player ∧
      g2 = { g with
        drawPile := (penaltyLoop n g.drawPile []).1
        players := g.players.set (findIndex g.players pid).toNat
          { player with hand := player.hand ++ (penaltyLoop n g.drawPile []).2 } }) := by
  unfold _applyCardPenalty at h
  by_cases hc : findIndex g.players pid = -1
  · simp only [hc, if_true] at h
    injection h with h
    exact Or.inl ⟨hc, h.symm⟩
  · simp only [hc, if_false] at h
    cases hp : playerAt g.players (findIndex g.players pid) with
    | none => simp [hp] at h
    | some player =>
      simp only [hp] at h
      injection h with h
      exact Or.inr ⟨hc, player, rfl, h.symm⟩

theorem challengeWildDrawFour_ok {g g2 : GameState} {pid : Nat} {isCh : Bool}
    (h : challengeWildDrawFour g pid isCh = .ok g2) :
    g.houseRules.challengeEnabled = true ∧
    (∃ c, lastWildDrawFour g.discardPile = some c) ∧
    _applyCardPenalty g pid 4 = .ok g2 := by
  unfold challengeWildDrawFour at h
  cases he : g.houseRules.challengeEnabled with
  | false => simp [he] at h
  | true =>
    simp only [he, Bool.true_eq_false, if_false] at h
    cases hl : lastWildDrawFour g.discardPile with
    | none => simp [hl] at h
    | some c =>
      simp only [hl] at h
      refine ⟨rfl, ⟨c, rfl⟩, ?_⟩
      split_ifs at h <;> exact h

theorem _applyCardPenalty_status {g g2 : GameState} {pid n : Nat}
    (h : _applyCardPenalty g pid n = .ok g2) : g2.status = g.status := by
  rcases _applyCardPenalty_ok h with ⟨_, rfl⟩ | ⟨_, _, _, rfl⟩ <;> rfl

theorem Step_status {g g2 : GameState} (h : Step g g2) :
    g2.status = .finished ∨ g2.status = g.status := by
  cases h with
  | play pid card sel h =>
    obtain ⟨_, player, _, rfl⟩ := playCard_ok h
    simp only [applyPlay]
    exact checkGameEnd_status _ _ _
  | draw pid rng h =>
    obtain ⟨_, _, _, rfl⟩ := drawCard_ok h
    exact Or.inr rfl
  | uno pid h =>
    obtain ⟨_, _, _, _, rfl⟩ := callUno_ok h
    exact Or.inr rfl
  | catchUno pid h =>
    obtain ⟨_, _, _, _, _, rfl⟩ := catchUnoFailure_ok h
    exact Or.inr rfl
  | challenge pid isCh h =>
    exact Or.inr (_applyCardPenalty_status (challengeWildDrawFour_ok h).2.2)

/-- C7 (amended): a finished game stays finished: every accepted playCard,
drawCard, callUno, catchUnoFailure or challengeWildDrawFour on a game with
status finished stores a game with status finished. -/
theorem finished_stays_finished (g g2 : GameState) (hfin : g.status = .finished)
    (hstep : Step g g2) : g2.status = .finished := by
  rcases Step_status hstep with h | h
  · exact h
  · rw [h, hfin]

theorem finished_stays_finished_witness :
    finishedGame.status = .finished ∧
    (stored finishedGame (drawCard finishedGame 1 (fun _ => 0))).status = .finished :=
  ⟨rfl, finished_stays_finished finishedGame _ rfl
    (Step.draw _ _ 1 (fun _ => 0) (by decide))⟩

set_option maxRecDepth 100000 in
/-- C8 (evaluation at the failing input): `createGame` for two players, with a
shuffle that leaves a red draw two as first discard, stores `cardsToDraw = 2`
together with `isStackingActive = false`. -/
theorem createGame_opening_drawTwo :
    ∃ g, createGame countingUuid openingDrawTwoRng [1, 2] none = .ok g ∧
      g.discardPile = [⟨25, .red, .drawTwo, none, 20⟩] ∧
      g.cardsToDraw = 2 ∧ g.isStackingActive = false :=
  ⟨stored default (createGame countingUuid openingDrawTwoRng [1, 2] none),
    by decide, by decide, by decide, by decide⟩

theorem pendingPenalty_step {g g2 : GameState} (h : Step g g2)
    (hinv : g.cardsToDraw > 0 → g.isStackingActive = true) :
    g2.cardsToDraw > 0 → g2.isStackingActive = true := by
  cases h with
  | play pid card sel h =>
    obtain ⟨hc, hs, _⟩ := playCard_effects h
    rw [hc, hs]
    unfold cardsToDrawAfter stackingAfter
    cases card.type <;> simp <;> exact hinv
  | draw pid rng h =>
    obtain ⟨_, _, _, rfl⟩ := drawCard_ok h
    simp
  | uno pid h =>
    obtain ⟨_, _, _, _, rfl⟩ := callUno_ok h
    exact hinv
  | catchUno pid h =>
    obtain ⟨_, _, _, _, _, rfl⟩ := catchUnoFailure_ok h
    exact hinv
  | challenge pid isCh h =>
    rcases _applyCardPenalty_ok (challengeWildDrawFour_ok h).2.2 with
      ⟨_, rfl⟩ | ⟨_, _, _, rfl⟩ <;> exact hinv

theorem scoreOf_setScore_self (scores : List (Nat × Nat)) (pid v : Nat) :
    scoreOf (setScore scores pid v) pid = v := by
  induction scores with
  | nil => simp [setScore, scoreOf, List.lookup]
  | cons kv rest ih =>
    obtain ⟨k, w⟩ := kv
    unfold setScore
    by_cases hk : k = pid
    · simp [hk, scoreOf, List.lookup]
    · have hb : (pid == k) = false := by simpa using fun h => hk h.symm
      simp only [hk, if_false]
      unfold scoreOf at ih ⊢
      simp only [List.lookup, hb]
      exact ih

theorem scoreOf_setScore_other (scores : List (Nat × Nat)) (pid q v : Nat) (hq : q ≠ pid) :
    scoreOf (setScore scores pid v) q = scoreOf scores q := by
  induction scores with
  | nil =>
    have hb : (q == pid) = false := by simpa using hq
    simp [setScore, scoreOf, List.lookup, hb]
  | cons kv rest ih =>
    obtain ⟨k, w⟩ := kv
    unfold setScore
    by_cases hk : k = pid
    · have hb : (q == k) = false := by simpa [hk] using hq
      simp [hk, scoreOf, List.lookup, hb]
      simp [← hk, hb]
    · simp only [hk, if_false]
      unfold scoreOf at ih ⊢
      by_cases hqk : (q == k) = true
      · simp [List.lookup, hqk]
      · have hb : (q == k) = false := by simpa using hqk
        simp only [List.lookup, hb]
        exact ih

theorem findIndex_congr (ps qs : List Player) (pid : Nat)
    (h : ps.map (·.id) = qs.map (·.id)) : findIndex ps pid = findIndex qs pid := by
  induction ps generalizing qs with
  | nil =>
    cases qs with
    | nil => rfl
    | cons q qs => simp at h
  | cons p ps ih =>
    cases qs with
    | nil => simp at h
    | cons q qs =>
      simp only [List.map_cons, List.cons.injEq] at h
      simp only [findIndex, h.1, ih qs h.2]

theorem map_id_set (ps : List Player) (i : Nat) (p q : Player)
    (hp : ps[i]? = some p) (hid : q.id = p.id) :
    (ps.set i q).map (·.id) = ps.map (·.id) := by
  induction ps generalizing i with
  | nil => simp
  | cons x xs ih =>
    cases i with
    | zero =>
      simp at hp
      simp [hid, hp]
    | succ i =>
      simp at hp
      simp [ih i hp]

theorem playerAt_eq {ps : List Player} {i : Int} {p : Player} (h : playerAt ps i = some p) :
    0 ≤ i ∧ ps[i.toNat]? = some p := by
  unfold playerAt at h
  split_ifs at h with hi
  exact ⟨by omega, h⟩

theorem playerAt_set (ps : List Player) (i : Int) (p q : Player)
    (hp : playerAt ps i = some p) : playerAt (ps.set i.toNat q) i = some q := by
  obtain ⟨h0, hget⟩ := playerAt_eq hp
  unfold playerAt
  simp only [not_lt.mpr h0, if_false]
  have hlt : i.toNat < ps.length := by
    by_contra hge
    rw [List.getElem?_eq_none (by omega)] at hget
    cases hget
  simp [List.getElem?_set, hlt]

theorem handOf_set (g g2 : GameState) (pid : Nat) (p q : Player)
    (hp : playerAt g.players (findIndex g.players pid) = some p) (hid : q.id = p.id)
    (hg2 : g2.players = g.players.set (findIndex g.players pid).toNat q) :
    handOf g2 pid = q.hand := by
  unfold handOf
  have hmap : g2.players.map (·.id) = g.players.map (·.id) := by
    rw [hg2]
    exact map_id_set _ _ p q (playerAt_eq hp).2 hid
  rw [findIndex_congr _ _ pid hmap, hg2, playerAt_set _ _ p q hp]

theorem checkGameEnd_cases (g : GameState) (pid : Nat) (hand : List Card) :
    (hand ≠ [] → checkGameEnd g pid hand = g) ∧
    (hand = [] → g.scoreMode = .singleRound →
      checkGameEnd g pid hand = { g with status := .finished, winnerId := some pid }) ∧
    (hand = [] → g.scoreMode = .cumulative →
      ∃ scores, scores = setScore g.playerScores pid
          (scoreOf g.playerScores pid + roundScore g.players) ∧
        (scoreOf scores pid ≥ g.houseRules.winningScore →
          checkGameEnd g pid hand =
            { g with playerScores := scores, status := .finished, winnerId := some pid }) ∧
        (scoreOf scores pid < g.houseRules.winningScore →
          checkGameEnd g pid hand = { g with playerScores := scores })) := by
  refine ⟨?_, ?_, ?_⟩
  · intro h
    have : hand.length ≠ 0 := by simpa using h
    simp [checkGameEnd, this]
  · intro h hs
    simp [checkGameEnd, h, hs]
  · intro h hs
    refine ⟨_, rfl, ?_, ?_⟩
    · intro hw
      simp only [checkGameEnd, h, hs]
      simp [hw]
    · intro hw
      simp only [checkGameEnd, h, hs]
      simp [not_le.mpr hw]

/-- C9: end-of-round scoring in `playCard`.  For every accepted play: if it
empties the acting player's hand in cumulative mode, that player's score grows
by exactly the point values of all cards left in all hands (an absent score
counting as 0), no other player's score changes, status is finished with
`winnerId = playerId` when the new total reaches `winningScore` and status and
winner are left as they were otherwise, so that in a playing game status becomes
finished with `winnerId = playerId` iff the new total is at least `winningScore`;
in singleRound mode status becomes finished with `winnerId = playerId`
unconditionally; a play that does not empty the hand changes neither scores,
status nor winner. -/
theorem playCard_scoring (g g2 : GameState) (pid : Nat) (card : Card)
    (sel : Option CardColor) (h : playCard g pid card sel = .ok g2) :
    (handOf g2 pid = [] → g.scoreMode = .cumulative →
      scoreOf g2.playerScores pid = scoreOf g.playerScores pid + roundScore g2.players ∧
      (∀ q, q ≠ pid → scoreOf g2.playerScores q = scoreOf g.playerScores q) ∧
      (scoreOf g2.playerScores pid ≥ g.houseRules.winningScore →
        g2.status = .finished ∧ g2.winnerId = some pid) ∧
      (scoreOf g2.playerScores pid < g.houseRules.winningScore →
        g2.status = g.status ∧ g2.winnerId = g.winnerId) ∧
      (g.status = .playing →
        ((g2.status = .finished ∧ g2.winnerId = some pid) ↔
          scoreOf g2.playerScores pid ≥ g.houseRules.winningScore))) ∧
    (handOf g2 pid = [] → g.scoreMode = .singleRound →
      g2.status = .finished ∧ g2.winnerId = some pid ∧ g2.playerScores = g.playerScores) ∧
    (handOf g2 pid ≠ [] →
      g2.playerScores = g.playerScores ∧ g2.status = g.status ∧ g2.winnerId = g.winnerId) := by
  obtain ⟨hv, player, hp, hg2⟩ := playCard_ok h
  obtain ⟨hf, _, _⟩ := validatePlay_ok hv
  obtain ⟨p2, hp2, hid⟩ := playerAt_found _ _ hf
  rw [hp] at hp2
  injection hp2 with hp2
  subst hp2
  have hhand : handOf g2 pid = player.hand.filter (fun c => c.id != card.id) := by
    apply handOf_set g g2 pid player
      { player with
        hand := player.hand.filter (fun c => c.id != card.id)
        hasCalledUno := decide ((player.hand.filter (fun c => c.id != card.id)).length = 1) }
      hp rfl
    rw [hg2]
    simp only [applyPlay, checkGameEnd_players]
  rw [hhand]
  generalize hU : player.hand.filter (fun c => c.id != card.id) = updatedHand at *
  simp only [applyPlay, hU] at hg2
  generalize hG : ({ g with
      players := g.players.set (findIndex g.players pid).toNat
        { player with hand := updatedHand, hasCalledUno := decide (updatedHand.length = 1) }
      discardPile := g.discardPile ++ [card]
      currentWildColor :=
        if card.color = .wild ∧ sel ≠ none then sel else g.currentWildColor
      direction := directionAfter g card
      cardsToDraw := cardsToDrawAfter g card
      isStackingActive := stackingAfter g card
      currentPlayerIndex := nextPlayerIndex (findIndex g.players pid) (directionAfter g card)
        (skipCountOf card g.players.length) g.players.length } : GameState) = gm at hg2
  have hms : gm.scoreMode = g.scoreMode := by rw [← hG]
  have hmsc : gm.playerScores = g.playerScores := by rw [← hG]
  have hmst : gm.status = g.status := by rw [← hG]
  have hmw : gm.winnerId = g.winnerId := by rw [← hG]
  have hmh : gm.houseRules = g.houseRules := by rw [← hG]
  have hmp : g2.players = gm.players := by rw [hg2, checkGameEnd_players]
  obtain ⟨hne, hsingle, hcum⟩ := checkGameEnd_cases gm pid updatedHand
  refine ⟨?_, ?_, ?_⟩
  · intro he hs
    obtain ⟨scores, hsc, hwin, hlose⟩ := hcum he (by rw [hms, hs])
    have hscore : g2.playerScores = scores := by
      rcases Nat.lt_or_ge (scoreOf scores pid) gm.houseRules.winningScore with hlt | hge
      · rw [hg2, hlose hlt]
      · rw [hg2, hwin hge]
    have htot : scoreOf scores pid = scoreOf g.playerScores pid + roundScore g2.players := by
      rw [hsc, scoreOf_setScore_self, hmsc, hmp]
    have hW : scoreOf g2.playerScores pid ≥ g.houseRules.winningScore →
        g2.status = .finished ∧ g2.winnerId = some pid := by
      intro hge
      rw [hscore, ← hmh] at hge
      rw [hg2, hwin hge]
      exact ⟨rfl, rfl⟩
    have hL : scoreOf g2.playerScores pid < g.houseRules.winningScore →
        g2.status = g.status ∧ g2.winnerId = g.winnerId := by
      intro hlt
      rw [hscore, ← hmh] at hlt
      rw [hg2, hlose hlt]
      exact ⟨hmst, hmw⟩
    refine ⟨by rw [hscore, htot], ?_, hW, hL, ?_⟩
    · intro q hq
      rw [hscore, hsc, scoreOf_setScore_other _ _ _ _ hq, hmsc]
    · intro hplay
      constructor
      · intro hfin
        by_contra hlt
        have := (hL (not_le.mp hlt)).1
        rw [hfin.1, hplay] at this
        cases this
      · exact hW
  · intro he hs
    rw [hg2, hsingle he (by rw [hms, hs])]
    exact ⟨rfl, rfl, hmsc⟩
  · intro hne2
    rw [hg2, hne hne2]
    exact ⟨hmsc, hmst, hmw⟩

theorem playCard_scoring_witness :
    playCard lastCardGame 1 blueThree none = .ok lastCardPlayed ∧
    handOf lastCardPlayed 1 = [] ∧ lastCardGame.scoreMode = .cumulative ∧
    roundScore lastCardPlayed.players = 37 ∧
    scoreOf lastCardPlayed.playerScores 1 =
      scoreOf lastCardGame.playerScores 1 + roundScore lastCardPlayed.players :=
  ⟨by decide, by decide, rfl, by decide,
    ((playCard_scoring lastCardGame lastCardPlayed 1 blueThree none (by decide)).1
      (by decide) rfl).1⟩

/-! ## Shuffling is a permutation -/

theorem set_perm_cons (xs : List Card) (j : Nat) (b x : Card) (h : xs[j]? = some b) :
    (b :: xs.set j x).Perm (x :: xs) := by
  induction xs generalizing j with
  | nil => simp at h
  | cons y ys ih =>
    cases j with
    | zero =>
      simp at h
      subst h
      simp only [List.set_cons_zero]
      exact List.Perm.swap _ _ _
    | succ j =>
      simp at h
      simp only [List.set_cons_succ]
      exact (List.Perm.swap _ _ _).trans
        (((ih j h).cons y).trans (List.Perm.swap _ _ _))

theorem swapAt_perm (l : List Card) (i j : Nat) : (swapAt l i j).Perm l := by
  unfold swapAt
  split
  · rename_i a b ha hb
    induction l generalizing i j with
    | nil => simp at ha
    | cons x xs ih =>
      cases i with
      | zero =>
        cases j with
        | zero =>
          simp at ha hb
          subst ha
          simp
        | succ j =>
          simp at ha hb
          subst ha
          simp only [List.set_cons_zero, List.set_cons_succ]
          exact set_perm_cons xs j b _ hb
      | succ i =>
        cases j with
        | zero =>
          simp at ha hb
          subst hb
          simp only [List.set_cons_zero, List.set_cons_succ]
          exact set_perm_cons xs i a _ ha
        | succ j =>
          simp at ha hb
          simp only [List.set_cons_succ]
          exact (ih i j ha hb).cons x
  · exact List.Perm.refl _

theorem shuffleLoop_perm (rng : Nat → Nat) (i k : Nat) (l : List Card) :
    (shuffleLoop rng i k l).Perm l := by
  induction i generalizing k l with
  | zero => exact List.Perm.refl _
  | succ i ih =>
    unfold shuffleLoop
    exact (ih _ _).trans (swapAt_perm _ _ _)

theorem shuffleDeck_perm (deck : List Card) (rng : Nat → Nat) :
    (shuffleDeck deck rng).Perm deck :=
  shuffleLoop_perm _ _ _ _

/-! ## The draw loop -/

theorem drawLoop_simple (rng : Nat → Nat) (n : Nat) (dp disc drawn : List Card)
    (h : n ≤ dp.length ∨ disc.length ≤ 1) :
    drawLoop n rng dp disc drawn = (dp.drop n, disc, drawn ++ dp.take n) := by
  induction n generalizing dp drawn with
  | zero => simp [drawLoop]
  | succ n ih =>
    cases dp with
    | nil =>
      have hd : disc.length ≤ 1 := by
        rcases h with h | h
        · simp at h
        · exact h
      simp [drawLoop, hd]
    | cons c pile =>
      unfold drawLoop
      rw [ih pile (drawn ++ [c]) (by
        rcases h with h | h
        · left; simpa using h
        · right; exact h)]
      simp

theorem drawLoop_reshuffle (rng : Nat → Nat) (n : Nat) (dp disc drawn : List Card)
    (top : Card) (hn : dp.length < n) (hd : 2 ≤ disc.length)
    (htop : disc.getLast? = some top) :
    drawLoop n rng dp disc drawn =
      ((shuffleDeck disc.dropLast rng).drop (n - dp.length), [top],
        drawn ++ dp ++ (shuffleDeck disc.dropLast rng).take (n - dp.length)) := by
  induction n generalizing dp drawn with
  | zero => simp at hn
  | succ n ih =>
    cases dp with
    | nil =>
      unfold drawLoop
      have hd2 : ¬ disc.length ≤ 1 := by omega
      simp only [hd2, if_false, htop]
      cases hs : shuffleDeck disc.dropLast rng with
      | nil =>
        have := (shuffleDeck_perm disc.dropLast rng).length_eq
        rw [hs] at this
        simp at this
        omega
      | cons c pile =>
        simp only
        rw [drawLoop_simple _ _ _ _ _ (Or.inr (by simp))]
        simp
    | cons c pile =>
      unfold drawLoop
      rw [ih pile (drawn ++ [c]) (by simpa using hn)]
      simp

theorem handOf_eq {g : GameState} {pid : Nat} {p : Player}
    (hp : playerAt g.players (findIndex g.players pid) = some p) : handOf g pid = p.hand := by
  unfold handOf
  rw [hp]

/-- C10: draw count and exhaustion.  For the current player `drawCard` never
fails; it appends to the player's hand exactly
`min count (|drawPile| + (|discardPile| - 1))` cards (truncated subtraction),
where `count` is `cardsToDraw` if positive and 1 otherwise; the top of the
discard pile is the same before and after; when the draw pile has fewer than
`count` cards and the discard pile at least 2, the cards below the top of the
discard pile, in some order, are put behind the draw pile (drawn cards followed
by the new draw pile are the old draw pile followed by them) and the discard
pile is reduced to its top card; otherwise the drawn cards followed by the new
draw pile are the old draw pile, and the discard pile is unchanged. -/
theorem drawCard_count (g : GameState) (pid : Nat) (rng : Nat → Nat)
    (h1 : findIndex g.players pid ≠ -1)
    (h2 : findIndex g.players pid = g.currentPlayerIndex) :
    ∃ g2 added, drawCard g pid rng = .ok g2 ∧
      handOf g2 pid = handOf g pid ++ added ∧
      added.length = min (if g.cardsToDraw > 0 then g.cardsToDraw else 1)
        (g.drawPile.length + (g.discardPile.length - 1)) ∧
      g2.discardPile.getLast? = g.discardPile.getLast? ∧
      (g.drawPile.length < (if g.cardsToDraw > 0 then g.cardsToDraw else 1) →
        2 ≤ g.discardPile.length →
        ∃ shuffled, shuffled.Perm g.discardPile.dropLast ∧
          added ++ g2.drawPile = g.drawPile ++ shuffled ∧
          g2.discardPile = g.discardPile.drop (g.discardPile.length - 1)) ∧
      ((if g.cardsToDraw > 0 then g.cardsToDraw else 1) ≤ g.drawPile.length ∨
          g.discardPile.length ≤ 1 →
        added ++ g2.drawPile = g.drawPile ∧ g2.discardPile = g.discardPile) := by
  obtain ⟨player, hp, hid⟩ := playerAt_found _ _ h1
  generalize hcount : (if g.cardsToDraw > 0 then g.cardsToDraw else 1) = count
  have hdraw : drawCard g pid rng = .ok { g with
        drawPile := (drawLoop count rng g.drawPile g.discardPile []).1
        discardPile := (drawLoop count rng g.drawPile g.discardPile []).2.1
        players := g.players.set (findIndex g.players pid).toNat
          { player with
            hand := player.hand ++ (drawLoop count rng g.drawPile g.discardPile []).2.2
            hasCalledUno := false }
        currentPlayerIndex := nextSeat (findIndex g.players pid) g.direction g.players.length
        cardsToDraw := 0
        isStackingActive := false } := by
    unfold drawCard
    simp only [h2, ne_eq, not_true_eq_false, if_false]
    rw [← h2, hp]
    simp only [hcount]
  refine ⟨_, (drawLoop count rng g.drawPile g.discardPile []).2.2, hdraw, ?_, ?_⟩
  · rw [handOf_eq hp]
    exact handOf_set g _ pid player
      { player with
        hand := player.hand ++ (drawLoop count rng g.drawPile g.discardPile []).2.2
        hasCalledUno := false } hp rfl rfl
  · by_cases hsimple : count ≤ g.drawPile.length ∨ g.discardPile.length ≤ 1
    · rw [drawLoop_simple rng count _ _ _ hsimple]
      refine ⟨?_, rfl, ?_, ?_⟩
      · simp only [List.nil_append, List.length_take]
        rcases hsimple with h | h <;> omega
      · intro hlt hge
        rcases hsimple with h | h <;> omega
      · intro _
        simp
    · have hlt : g.drawPile.length < count := by omega
      have hge : 2 ≤ g.discardPile.length := by omega
      obtain ⟨top, htop⟩ : ∃ top, g.discardPile.getLast? = some top := by
        cases hl : g.discardPile.getLast? with
        | none =>
          rw [List.getLast?_eq_none_iff] at hl
          rw [hl] at hge
          simp at hge
        | some t => exact ⟨t, rfl⟩
      rw [drawLoop_reshuffle rng count _ _ _ top hlt hge htop]
      have hlen := (shuffleDeck_perm g.discardPile.dropLast rng).length_eq
      simp only [List.length_dropLast] at hlen
      refine ⟨?_, ?_, ?_, ?_⟩
      · simp only [List.nil_append, List.length_append, List.length_take, hlen]
        omega
      · simp [htop]
      · intro _ _
        refine ⟨shuffleDeck g.discardPile.dropLast rng, shuffleDeck_perm _ _, ?_, ?_⟩
        · simp
        · have hsplit := List.dropLast_append_getLast? top (by simpa using htop)
          have : g.discardPile.drop (g.discardPile.length - 1) = [top] := by
            conv_lhs => rw [← hsplit]
            rw [List.drop_append_of_le_length (by simp)]
            simp
          rw [this]
      · intro h
        exact absurd h hsimple

theorem drawCard_count_witness :
    ∃ g2 added, drawCard penaltyGame 1 (fun _ => 0) = .ok g2 ∧
      handOf g2 1 = handOf penaltyGame 1 ++ added ∧
      added.length = min (if penaltyGame.cardsToDraw > 0 then penaltyGame.cardsToDraw else 1)
        (penaltyGame.drawPile.length + (penaltyGame.discardPile.length - 1)) :=
  match drawCard_count penaltyGame 1 (fun _ => 0) (by decide) (by decide) with
  | ⟨g2, added, h, hh, hl, _⟩ => ⟨g2, added, h, hh, hl⟩

/-! ## Card conservation -/

theorem idm_nil : idm [] = 0 := rfl

theorem idm_append (a b : List Card) : idm (a ++ b) = idm a + idm b := by
  simp [idm]

theorem idm_cons (c : Card) (l : List Card) : idm (c :: l) = {c.id} + idm l := by
  simp [idm]

theorem idm_perm {a b : List Card} (h : a.Perm b) : idm a = idm b := by
  unfold idm
  exact Multiset.coe_eq_coe.mpr (h.map _)

theorem idm_card (l : List Card) : Multiset.card (idm l) = l.length := by
  simp [idm]

theorem idm_flatten (hs : List (List Card)) : idm hs.flatten = (hs.map idm).sum := by
  induction hs with
  | nil => rfl
  | cons h hs ih => simp [idm_append, ih]

theorem census_eq (g : GameState) : census g = ((allIds g : List Nat) : Multiset Nat) := by
  unfold census allIds allCards
  change _ = idm _
  rw [idm_append, idm_append, idm_flatten]
  simp [List.map_map, Function.comp_def]

theorem sum_map_set {α : Type} (f : α → Multiset Nat) (l : List α) (i : Nat) (a b : α)
    (h : l[i]? = some a) : ((l.set i b).map f).sum + f a = (l.map f).sum + f b := by
  induction l generalizing i with
  | nil => simp at h
  | cons x xs ih =>
    cases i with
    | zero =>
      simp at h
      subst h
      simp only [List.set_cons_zero, List.map_cons, List.sum_cons]
      abel
    | succ i =>
      simp at h
      simp only [List.set_cons_succ, List.map_cons, List.sum_cons]
      rw [add_assoc, ih i h, add_assoc]

theorem census_card (g : GameState) :
    Multiset.card (census g) =
      g.drawPile.length + g.discardPile.length + (g.players.map (·.hand.length)).sum := by
  unfold census
  simp only [Multiset.card_add, idm_card]
  congr 1
  induction g.players with
  | nil => simp
  | cons p ps ih => simp [idm_card, ih]

/-- Replacing the player at the seat of `pid`: the census changes by the hand. -/
theorem census_set_player (g g2 : GameState) (i : Int) (p q : Player)
    (hp : playerAt g.players i = some p)
    (hg2 : g2.players = g.players.set i.toNat q) :
    (g2.players.map (fun p => idm p.hand)).sum + idm p.hand =
      (g.players.map (fun p => idm p.hand)).sum + idm q.hand := by
  rw [hg2]
  exact sum_map_set (fun p => idm p.hand) _ _ p q (playerAt_eq hp).2

theorem idm_filter_played (hand : List Card) (cid : Nat)
    (hnd : (idm hand).Nodup) (hmem : hand.any (fun c => c.id == cid) = true) :
    idm (hand.filter (fun c => c.id != cid)) + {cid} = idm hand := by
  induction hand with
  | nil => simp at hmem
  | cons c cs ih =>
    rw [idm_cons] at hnd ⊢
    have hnd2 : (idm cs).Nodup := Multiset.nodup_of_le (Multiset.le_add_left _ _) hnd
    have hnotin : c.id ∉ idm cs := by
      intro hin
      have := Multiset.nodup_iff_count_le_one.mp hnd c.id
      rw [Multiset.count_add, Multiset.count_singleton_self] at this
      have := Multiset.count_pos.mpr hin
      omega
    by_cases hc : c.id = cid
    · have hfilter : cs.filter (fun c => c.id != cid) = cs := by
        rw [List.filter_eq_self]
        intro d hd
        have hdin : d.id ∈ idm cs := by
          unfold idm
          simp only [Multiset.mem_coe, List.mem_map]
          exact ⟨d, hd, rfl⟩
        simp only [bne_iff_ne, ne_eq]
        intro hdc
        exact hnotin (by rw [hc, ← hdc]; exact hdin)
      simp only [List.filter, hc, bne_self_eq_false]
      rw [hfilter, add_comm]
    · have hmem2 : cs.any (fun c => c.id == cid) = true := by
        simp only [List.any_cons, Bool.or_eq_true, beq_iff_eq] at hmem
        rcases hmem with h | h
        · exact absurd h hc
        · exact h
      have hb : (c.id != cid) = true := by simpa using hc
      simp only [List.filter, hb]
      rw [idm_cons, add_assoc, ih hnd2 hmem2]

theorem hand_le_census (g : GameState) (i : Int) (p : Player)
    (hp : playerAt g.players i = some p) : idm p.hand ≤ census g := by
  have h := sum_map_set (fun p => idm p.hand) g.players i.toNat p
    { p with hand := [] } (playerAt_eq hp).2
  simp only [idm_nil, add_zero] at h
  unfold census
  rw [← h]
  exact le_trans (Multiset.le_add_left _ _) (Multiset.le_add_left _ _)

theorem drawLoop_census (n : Nat) (rng : Nat → Nat) (dp disc drawn : List Card) :
    idm (drawLoop n rng dp disc drawn).1 + idm (drawLoop n rng dp disc drawn).2.1 +
        idm (drawLoop n rng dp disc drawn).2.2 = idm dp + idm disc + idm drawn := by
  by_cases hsimple : n ≤ dp.length ∨ disc.length ≤ 1
  · rw [drawLoop_simple rng n dp disc drawn hsimple]
    simp only [idm_append]
    conv_rhs => rw [← List.take_append_drop n dp, idm_append]
    abel
  · have hlt : dp.length < n := by omega
    have hge : 2 ≤ disc.length := by omega
    obtain ⟨top, htop⟩ : ∃ top, disc.getLast? = some top := by
      cases hl : disc.getLast? with
      | none =>
        rw [List.getLast?_eq_none_iff] at hl
        rw [hl] at hge
        simp at hge
      | some t => exact ⟨t, rfl⟩
    rw [drawLoop_reshuffle rng n dp disc drawn top hlt hge htop]
    have hsplit := List.dropLast_append_getLast? top (by simpa using htop)
    have hsh := idm_perm (shuffleDeck_perm disc.dropLast rng)
    simp only [idm_append]
    conv_rhs => rw [← hsplit, idm_append, ← hsh,
      ← List.take_append_drop (n - dp.length) (shuffleDeck disc.dropLast rng), idm_append]
    abel

theorem penaltyLoop_eq (n : Nat) (dp drawn : List Card) :
    penaltyLoop n dp drawn = (dp.drop n, drawn ++ dp.take n) := by
  induction n generalizing dp drawn with
  | zero => simp [penaltyLoop]
  | succ n ih =>
    cases dp with
    | nil => simp [penaltyLoop]
    | cons c pile =>
      unfold penaltyLoop
      rw [ih]
      simp

theorem penaltyLoop_census (n : Nat) (dp : List Card) :
    idm (penaltyLoop n dp []).1 + idm (penaltyLoop n dp []).2 = idm dp := by
  rw [penaltyLoop_eq]
  simp only [List.nil_append]
  conv_rhs => rw [← List.take_append_drop n dp, idm_append]
  abel

theorem _applyCardPenalty_census {g g2 : GameState} {pid n : Nat}
    (h : _applyCardPenalty g pid n = .ok g2) : census g2 = census g := by
  rcases _applyCardPenalty_ok h with ⟨_, rfl⟩ | ⟨_, player, hp, hg2⟩
  · rfl
  · have hset := census_set_player g g2 _ player
      { player with hand := player.hand ++ (penaltyLoop n g.drawPile []).2 } hp
      (by rw [hg2])
    have hpen := penaltyLoop_census n g.drawPile
    simp only [idm_append] at hset
    have hd : g2.drawPile = (penaltyLoop n g.drawPile []).1 := by rw [hg2]
    have hdisc : g2.discardPile = g.discardPile := by rw [hg2]
    unfold census
    rw [hd, hdisc]
    apply add_right_cancel (b := idm player.hand)
    calc idm (penaltyLoop n g.drawPile []).1 + idm g.discardPile +
            (g2.players.map (fun p => idm p.hand)).sum + idm player.hand
        = idm (penaltyLoop n g.drawPile []).1 + idm g.discardPile +
            ((g2.players.map (fun p => idm p.hand)).sum + idm player.hand) := by abel
      _ = idm (penaltyLoop n g.drawPile []).1 + idm g.discardPile +
            ((g.players.map (fun p => idm p.hand)).sum +
              (idm player.hand + idm (penaltyLoop n g.drawPile []).2)) := by rw [hset]
      _ = (idm (penaltyLoop n g.drawPile []).1 + idm (penaltyLoop n g.drawPile []).2) +
            idm g.discardPile + (g.players.map (fun p => idm p.hand)).sum +
              idm player.hand := by abel
      _ = idm g.drawPile + idm g.discardPile +
            (g.players.map (fun p => idm p.hand)).sum + idm player.hand := by rw [hpen]

theorem Step_census {g g2 : GameState} (h : Step g g2) (hnd : (census g).Nodup) :
    census g2 = census g := by
  cases h with
  | play pid card sel h =>
    obtain ⟨hv, player, hp, hg2⟩ := playCard_ok h
    obtain ⟨_, _, p2, hp2, hhas, _⟩ := validatePlay_ok hv
    rw [hp] at hp2
    injection hp2 with hp2
    subst hp2
    have hplayers : g2.players = g.players.set (findIndex g.players pid).toNat
        { player with
          hand := player.hand.filter (fun c => c.id != card.id)
          hasCalledUno :=
            decide ((player.hand.filter (fun c => c.id != card.id)).length = 1) } := by
      rw [hg2]; simp only [applyPlay, checkGameEnd_players]
    have hd : g2.drawPile = g.drawPile := by
      rw [hg2]; simp only [applyPlay, checkGameEnd_drawPile]
    have hdisc : g2.discardPile = g.discardPile ++ [card] := by
      rw [hg2]; simp only [applyPlay, checkGameEnd_discardPile]
    have hset := census_set_player g g2 _ player _ hp hplayers
    have hfil := idm_filter_played player.hand card.id
      (Multiset.nodup_of_le (hand_le_census g _ player hp) hnd) hhas
    simp only at hset
    unfold census
    rw [hd, hdisc, idm_append, idm_cons, idm_nil, add_zero]
    apply add_right_cancel (b := idm player.hand)
    calc idm g.drawPile + (idm g.discardPile + {card.id}) +
            (g2.players.map (fun p => idm p.hand)).sum + idm player.hand
        = idm g.drawPile + (idm g.discardPile + {card.id}) +
            ((g2.players.map (fun p => idm p.hand)).sum + idm player.hand) := by abel
      _ = idm g.drawPile + (idm g.discardPile + {card.id}) +
            ((g.players.map (fun p => idm p.hand)).sum +
              idm (player.hand.filter (fun c => c.id != card.id))) := by rw [hset]
      _ = idm g.drawPile + idm g.discardPile + (g.players.map (fun p => idm p.hand)).sum +
            (idm (player.hand.filter (fun c => c.id != card.id)) + {card.id}) := by abel
      _ = idm g.drawPile + idm g.discardPile + (g.players.map (fun p => idm p.hand)).sum +
            idm player.hand := by rw [hfil]
  | draw pid rng h =>
    obtain ⟨_, player, hp, hg2⟩ := drawCard_ok h
    generalize hcount : (if g.cardsToDraw > 0 then g.cardsToDraw else 1) = count at hg2
    have hset := census_set_player g g2 _ player
      { player with
        hand := player.hand ++ (drawLoop count rng g.drawPile g.discardPile []).2.2
        hasCalledUno := false } hp (by rw [hg2])
    have hloop := drawLoop_census count rng g.drawPile g.discardPile []
    simp only [idm_append, idm_nil, add_zero] at hset hloop
    have hd : g2.drawPile = (drawLoop count rng g.drawPile g.discardPile []).1 := by rw [hg2]
    have hdisc : g2.discardPile = (drawLoop count rng g.drawPile g.discardPile []).2.1 := by
      rw [hg2]
    unfold census
    rw [hd, hdisc]
    apply add_right_cancel (b := idm player.hand)
    calc idm (drawLoop count rng g.drawPile g.discardPile []).1 +
            idm (drawLoop count rng g.drawPile g.discardPile []).2.1 +
            (g2.players.map (fun p => idm p.hand)).sum + idm player.hand
        = idm (drawLoop count rng g.drawPile g.discardPile []).1 +
            idm (drawLoop count rng g.drawPile g.discardPile []).2.1 +
            ((g2.players.map (fun p => idm p.hand)).sum + idm player.hand) := by abel
      _ = idm (drawLoop count rng g.drawPile g.discardPile []).1 +
            idm (drawLoop count rng g.drawPile g.discardPile []).2.1 +
            ((g.players.map (fun p => idm p.hand)).sum + (idm player.hand +
              idm (drawLoop count rng g.drawPile g.discardPile []).2.2)) := by rw [hset]
      _ = (idm (drawLoop count rng g.drawPile g.discardPile []).1 +
            idm (drawLoop count rng g.drawPile g.discardPile []).2.1 +
            idm (drawLoop count rng g.drawPile g.discardPile []).2.2) +
            (g.players.map (fun p => idm p.hand)).sum + idm player.hand := by abel
      _ = idm g.drawPile + idm g.discardPile + (g.players.map (fun p => idm p.hand)).sum +
            idm player.hand := by rw [hloop]
  | uno pid h =>
    obtain ⟨_, player, hp, _, hg2⟩ := callUno_ok h
    have hset := census_set_player g g2 _ player { player with hasCalledUno := true } hp
      (by rw [hg2])
    simp only at hset
    have hd : g2.drawPile = g.drawPile := by rw [hg2]
    have hdisc : g2.discardPile = g.discardPile := by rw [hg2]
    unfold census
    rw [hd, hdisc, add_right_cancel hset]
  | catchUno pid h =>
    obtain ⟨_, player, hp, _, _, hg2⟩ := catchUnoFailure_ok h
    have hset := census_set_player g g2 _ player
      { player with hand := player.hand ++ (penaltyLoop 2 g.drawPile []).2 } hp
      (by rw [hg2])
    have hpen := penaltyLoop_census 2 g.drawPile
    simp only [idm_append] at hset
    have hd : g2.drawPile = (penaltyLoop 2 g.drawPile []).1 := by rw [hg2]
    have hdisc : g2.discardPile = g.discardPile := by rw [hg2]
    unfold census
    rw [hd, hdisc]
    apply add_right_cancel (b := idm player.hand)
    calc idm (penaltyLoop 2 g.drawPile []).1 + idm g.discardPile +
            (g2.players.map (fun p => idm p.hand)).sum + idm player.hand
        = idm (penaltyLoop 2 g.drawPile []).1 + idm g.discardPile +
            ((g2.players.map (fun p => idm p.hand)).sum + idm player.hand) := by abel
      _ = idm (penaltyLoop 2 g.drawPile []).1 + idm g.discardPile +
            ((g.players.map (fun p => idm p.hand)).sum +
              (idm player.hand + idm (penaltyLoop 2 g.drawPile []).2)) := by rw [hset]
      _ = (idm (penaltyLoop 2 g.drawPile []).1 + idm (penaltyLoop 2 g.drawPile []).2) +
            idm g.discardPile + (g.players.map (fun p => idm p.hand)).sum +
              idm player.hand := by abel
      _ = idm g.drawPile + idm g.discardPile +
            (g.players.map (fun p => idm p.hand)).sum + idm player.hand := by rw [hpen]
  | challenge pid isCh h =>
    exact _applyCardPenalty_census (challengeWildDrawFour_ok h).2.2

theorem Reachable_census {g0 g : GameState} (h : Reachable g0 g) (hnd : (census g0).Nodup) :
    census g = census g0 := by
  induction h with
  | refl => rfl
  | tail _ hstep ih => rw [Step_census hstep (by rw [ih]; exact hnd), ih]

theorem dealOne_census (hs : List (List Card)) (deck : List Card) (j : Nat)
    (hj : j < hs.length) :
    ((dealOne hs deck j).1.map idm).sum + idm (dealOne hs deck j).2 =
        (hs.map idm).sum + idm deck ∧
      (dealOne hs deck j).1.length = hs.length := by
  cases deck with
  | nil => simp [dealOne]
  | cons c rest =>
    simp only [dealOne, List.length_set, and_true]
    have hget : hs[j]? = some (hs.getD j []) := by
      rw [List.getD_eq_getElem?_getD, List.getElem?_eq_getElem hj]
      simp
    have h := sum_map_set idm hs j (hs.getD j []) (hs.getD j [] ++ [c]) hget
    rw [idm_append, idm_cons, idm_nil, add_zero] at h
    rw [idm_cons]
    apply add_right_cancel (b := idm (hs.getD j []))
    calc ((hs.set j (hs.getD j [] ++ [c])).map idm).sum + idm rest + idm (hs.getD j [])
        = ((hs.set j (hs.getD j [] ++ [c])).map idm).sum + idm (hs.getD j []) + idm rest := by
          abel
      _ = (hs.map idm).sum + (idm (hs.getD j []) + {c.id}) + idm rest := by rw [h]
      _ = (hs.map idm).sum + ({c.id} + idm rest) + idm (hs.getD j []) := by abel

theorem dealRow_census (k j : Nat) (hs : List (List Card)) (deck : List Card)
    (hj : j + k ≤ hs.length) :
    ((dealRow k j hs deck).1.map idm).sum + idm (dealRow k j hs deck).2 =
        (hs.map idm).sum + idm deck ∧
      (dealRow k j hs deck).1.length = hs.length := by
  induction k generalizing j hs deck with
  | zero => simp [dealRow]
  | succ k ih =>
    obtain ⟨h1, h2⟩ := dealOne_census hs deck j (by omega)
    obtain ⟨h3, h4⟩ := ih (j + 1) (dealOne hs deck j).1 (dealOne hs deck j).2 (by omega)
    simp only [dealRow]
    exact ⟨by rw [h3, h1], by rw [h4, h2]⟩

theorem dealRounds_census (n m : Nat) (hs : List (List Card)) (deck : List Card)
    (hn : n ≤ hs.length) :
    ((dealRounds n m hs deck).1.map idm).sum + idm (dealRounds n m hs deck).2 =
        (hs.map idm).sum + idm deck ∧
      (dealRounds n m hs deck).1.length = hs.length := by
  induction m generalizing hs deck with
  | zero => simp [dealRounds]
  | succ m ih =>
    obtain ⟨h1, h2⟩ := dealRow_census n 0 hs deck (by omega)
    obtain ⟨h3, h4⟩ := ih (dealRow n 0 hs deck).1 (dealRow n 0 hs deck).2 (by omega)
    simp only [dealRounds]
    exact ⟨by rw [h3, h1], by rw [h4, h2]⟩

theorem dealCards_census (deck : List Card) (n m : Nat) :
    ((dealCards deck n m).1.map idm).sum + idm (dealCards deck n m).2 = idm deck ∧
      (dealCards deck n m).1.length = n := by
  obtain ⟨h1, h2⟩ := dealRounds_census n m (List.replicate n []) deck (by simp)
  unfold dealCards
  refine ⟨?_, by simpa using h2⟩
  rw [h1]
  have : ((List.replicate n ([] : List Card)).map idm).sum = 0 := by
    induction n with
    | zero => rfl
    | succ n ih => simp [List.replicate_succ, idm_nil, ih]
  rw [this, zero_add]

theorem enumFrom_hands (players : List Nat) (hs : List (List Card)) (k : Nat)
    (hk : k + players.length ≤ hs.length) :
    ((players.enumFrom k).map
        (fun ip => (⟨ip.2, hs.getD ip.1 [], false⟩ : Player))).map (fun p => idm p.hand) =
      ((hs.drop k).take players.length).map idm := by
  induction players generalizing k with
  | nil => simp
  | cons p ps ih =>
    simp only [List.length_cons] at hk
    have hlt : k < hs.length := by omega
    rw [List.drop_eq_getElem_cons hlt]
    simp only [List.enumFrom_cons, List.map_cons, List.length_cons, List.take_succ_cons]
    rw [ih (k + 1) (by omega)]
    congr 2
    rw [List.getD_eq_getElem?_getD, List.getElem?_eq_getElem hlt]
    simp

theorem findFirstDiscard_census (l : List Card) (d : Card) (r : List Card)
    (h : findFirstDiscard l = some (d, r)) : idm l = {d.id} + idm r := by
  induction l generalizing r with
  | nil => simp [findFirstDiscard] at h
  | cons c rest ih =>
    unfold findFirstDiscard at h
    by_cases hc : c.color ≠ .wild
    · rw [if_pos hc] at h
      injection h with h
      injection h with h1 h2
      subst h1; subst h2
      exact idm_cons _ _
    · rw [if_neg hc] at h
      cases hf : findFirstDiscard rest with
      | none => simp [hf] at h
      | some dr =>
        obtain ⟨d2, r2⟩ := dr
        simp only [hf] at h
        injection h with h
        injection h with h1 h2
        subst h1; subst h2
        rw [idm_cons, idm_cons, ih r2 hf]
        abel

theorem pickFirstDiscard_census (l : List Card) (d : Card) (r : List Card)
    (h : pickFirstDiscard l = some (d, r)) : idm l = {d.id} + idm r := by
  unfold pickFirstDiscard at h
  cases hf : findFirstDiscard l with
  | some dr =>
    simp only [hf] at h
    injection h with h
    subst h
    exact findFirstDiscard_census l d r hf
  | none =>
    simp only [hf] at h
    cases l with
    | nil => simp at h
    | cons c rest =>
      simp only at h
      injection h with h
      injection h with h1 h2
      subst h1; subst h2
      exact idm_cons _ _

theorem createGame_census (uuid rng : Nat → Nat) (players : List Nat)
    (rules : Option HouseRules) (g0 : GameState)
    (h : createGame uuid rng players rules = .ok g0) :
    census g0 = idm (createDeck (fun k => uuid (k + 1))) := by
  unfold createGame at h
  simp only at h
  generalize hdeck : shuffleDeck (createDeck (fun k => uuid (k + 1))) rng = deck at h
  have hperm : idm deck = idm (createDeck (fun k => uuid (k + 1))) := by
    rw [← hdeck]; exact idm_perm (shuffleDeck_perm _ _)
  obtain ⟨hdeal, hlen⟩ := dealCards_census deck players.length 7
  cases hpick : pickFirstDiscard (dealCards deck players.length 7).2 with
  | none => simp [hpick] at h
  | some dr =>
    obtain ⟨d, r⟩ := dr
    simp only [hpick] at h
    replace h := Except.ok.inj h
    have hfirst := pickFirstDiscard_census _ d r hpick
    have hhands := enumFrom_hands players (dealCards deck players.length 7).1 0
      (by rw [hlen]; omega)
    rw [List.drop_zero, List.take_of_length_le (by rw [hlen])] at hhands
    rw [← hperm, ← hdeal, hfirst, ← h]
    unfold census
    simp only [List.enum]
    rw [hhands, idm_cons, idm_nil]
    abel

theorem assignIds_ids (u : Nat → Nat) (k : Nat) (fs : List Face) :
    (assignIds u k fs).map (·.id) = (List.range' k fs.length).map u := by
  induction fs generalizing k with
  | nil => rfl
  | cons f fs ih =>
    simp only [assignIds, List.map_cons, List.length_cons, List.range'_succ, ih]

theorem deckFaces_length : deckFaces.length = 112 := by
  rfl

theorem createDeck_nodup (u : Nat → Nat) (hu : Function.Injective u) :
    (idm (createDeck u)).Nodup ∧ Multiset.card (idm (createDeck u)) = 112 := by
  unfold idm createDeck
  rw [assignIds_ids]
  refine ⟨?_, by simp [deckFaces_length]⟩
  rw [Multiset.coe_nodup]
  exact (List.nodup_range' _ _).map hu

/-- C1: card conservation.  When `uuidv4()` never repeats an id, in every state
reachable from a successfully created game by accepted playCard, drawCard,
callUno, catchUnoFailure and challengeWildDrawFour actions the draw pile, the
discard pile and the hands hold 112 cards together, and their ids are exactly
the ids of the created deck, each occurring once. -/
theorem card_conservation (uuid rng : Nat → Nat) (players : List Nat)
    (rules : Option HouseRules) (g0 g : GameState) (hu : Function.Injective uuid)
    (hc : createGame uuid rng players rules = .ok g0) (hr : Reachable g0 g) :
    g.drawPile.length + g.discardPile.length + (g.players.map (·.hand.length)).sum = 112 ∧
    (allIds g).Perm ((createDeck (fun k => uuid (k + 1))).map (·.id)) ∧
    (allIds g).Nodup := by
  have hinj : Function.Injective (fun k => uuid (k + 1)) := fun a b h => by
    have := hu h
    omega
  obtain ⟨hnd, hcard⟩ := createDeck_nodup _ hinj
  have h0 := createGame_census uuid rng players rules g0 hc
  have hg := Reachable_census hr (by rw [h0]; exact hnd)
  rw [h0] at hg
  refine ⟨?_, ?_, ?_⟩
  · rw [← census_card, hg, hcard]
  · rw [census_eq] at hg
    exact Multiset.coe_eq_coe.mp hg
  · rw [← Multiset.coe_nodup, ← census_eq, hg]
    exact hnd

set_option maxRecDepth 100000 in
theorem card_conservation_witness :
    Function.Injective countingUuid ∧
    createGame countingUuid openingDrawTwoRng [1, 2] none = .ok openingGame ∧
    Reachable openingGame openingDrawn ∧
    openingDrawn.drawPile.length + openingDrawn.discardPile.length +
      (openingDrawn.players.map (·.hand.length)).sum = 112 :=
  ⟨fun _ _ h => h, by decide,
    Relation.ReflTransGen.single (Step.draw _ _ 1 (fun _ => 0) (by decide)),
    (card_conservation countingUuid openingDrawTwoRng [1, 2] none openingGame openingDrawn
      (fun _ _ h => h) (by decide)
      (Relation.ReflTransGen.single (Step.draw _ _ 1 (fun _ => 0) (by decide)))).1⟩

/-! ## Drawing: post-state and seat index -/

theorem players_set_other (ps : List Player) (idx : Int) (q : Player) (i : Nat)
    (h0 : 0 ≤ idx) (hi : (i : Int) ≠ idx) : (ps.set idx.toNat q)[i]? = ps[i]? := by
  apply List.getElem?_set_ne
  intro h
  apply hi
  omega

theorem playerAt_lt {ps : List Player} {i : Int} {p : Player} (h : playerAt ps i = some p) :
    0 ≤ i ∧ i < ps.length := by
  obtain ⟨h0, hget⟩ := playerAt_eq h
  refine ⟨h0, ?_⟩
  have hlt : i.toNat < ps.length := by
    by_contra hge
    rw [List.getElem?_eq_none (by omega)] at hget
    cases hget
  omega

/-- C11: draw post-state.  `drawCard` fails with 'Not your turn' iff the index of
`playerId` among the players is not `currentPlayerIndex`; on success the new
`currentPlayerIndex` is `(current + dirSign) mod seatCount` in the current
direction whatever `cardsToDraw` was, `cardsToDraw = 0`,
`isStackingActive = false`, the drawing player's `hasCalledUno` is false, and
direction, wild colour, scores, status, winner, house rules and every other
player (so every other hand) are unchanged. -/
theorem drawCard_post_state (g g2 : GameState) (pid : Nat) (rng : Nat → Nat) :
    (drawCard g pid rng = .error .notYourTurn ↔
      findIndex g.players pid ≠ g.currentPlayerIndex) ∧
    (drawCard g pid rng = .ok g2 →
      g2.currentPlayerIndex =
        (g.currentPlayerIndex + dirSign g.direction) % (g.players.length : Int) ∧
      g2.cardsToDraw = 0 ∧ g2.isStackingActive = false ∧
      (∃ p2, playerAt g2.players g.currentPlayerIndex = some p2 ∧ p2.id = pid ∧
        p2.hasCalledUno = false) ∧
      g2.direction = g.direction ∧ g2.currentWildColor = g.currentWildColor ∧
      g2.playerScores = g.playerScores ∧ g2.status = g.status ∧
      g2.winnerId = g.winnerId ∧ g2.houseRules = g.houseRules ∧
      g2.players.length = g.players.length ∧
      (∀ i : Nat, (i : Int) ≠ g.currentPlayerIndex → g2.players[i]? = g.players[i]?)) := by
  constructor
  · unfold drawCard
    by_cases hc : findIndex g.players pid = g.currentPlayerIndex
    · simp only [hc, ne_eq, not_true_eq_false, if_false, iff_false]
      cases playerAt g.players g.currentPlayerIndex <;> simp
    · simp [hc]
  · intro h
    obtain ⟨hcur, player, hp, hg2⟩ := drawCard_ok h
    obtain ⟨h0, hlt⟩ := playerAt_lt hp
    have hne : findIndex g.players pid ≠ -1 := by omega
    obtain ⟨p3, hp3, hid⟩ := playerAt_found _ _ hne
    rw [hp] at hp3
    injection hp3 with hp3
    subst hp3
    rw [hg2]
    refine ⟨?_, rfl, rfl, ?_, rfl, rfl, rfl, rfl, rfl, rfl, by simp, ?_⟩
    · simp only [nextSeat]
      rw [← hcur]
      exact tmod_seat _ _ _ h0 hlt (by have := dirSign_ge g.direction; omega)
    · refine ⟨{ player with
          hand := player.hand ++ (drawLoop (if g.cardsToDraw > 0 then g.cardsToDraw else 1)
            rng g.drawPile g.discardPile []).2.2
          hasCalledUno := false }, ?_, hid, rfl⟩
      simp only
      rw [← hcur]
      exact playerAt_set _ _ player _ hp
    · intro i hi
      simp only
      exact players_set_other _ _ _ _ h0 (by rw [hcur]; exact hi)

theorem drawCard_post_state_witness :
    drawCard twoPlayerGame 1 (fun _ => 0) =
      .ok (stored twoPlayerGame (drawCard twoPlayerGame 1 (fun _ => 0))) ∧
    (stored twoPlayerGame (drawCard twoPlayerGame 1 (fun _ => 0))).currentPlayerIndex =
      (twoPlayerGame.currentPlayerIndex + dirSign twoPlayerGame.direction) %
        (twoPlayerGame.players.length : Int) ∧
    (stored twoPlayerGame (drawCard twoPlayerGame 1 (fun _ => 0))).cardsToDraw = 0 :=
  ⟨by decide,
    ((drawCard_post_state twoPlayerGame
      (stored twoPlayerGame (drawCard twoPlayerGame 1 (fun _ => 0))) 1 (fun _ => 0)).2
      (by decide)).1,
    ((drawCard_post_state twoPlayerGame
      (stored twoPlayerGame (drawCard twoPlayerGame 1 (fun _ => 0))) 1 (fun _ => 0)).2
      (by decide)).2.1⟩

theorem seat_emod_range (x : Int) (n : Nat) (hn : 0 < n) :
    0 ≤ x % (n : Int) ∧ x % (n : Int) < n :=
  ⟨Int.emod_nonneg _ (by omega), Int.emod_lt_of_pos _ (by omega)⟩

theorem nextPlayerIndex_range (p : Int) (d : Direction) (k n : Nat)
    (h0 : 0 ≤ p) (hlt : p < n) (hk : k ≤ 1) :
    0 ≤ nextPlayerIndex p d k n ∧ nextPlayerIndex p d k n < n := by
  have hs := dirSign_ge d
  unfold nextPlayerIndex
  by_cases hpos : k > 0
  · have h1 : k = 1 := by omega
    simp only [hpos, if_true, h1]
    rw [tmod_seat _ _ _ h0 hlt (by push_cast; omega)]
    exact seat_emod_range _ _ (by omega)
  · simp only [hpos, if_false]
    rw [tmod_seat _ _ _ h0 hlt (by omega)]
    exact seat_emod_range _ _ (by omega)

theorem skipCountOf_le (card : Card) (n : Nat) : skipCountOf card n ≤ 1 := by
  unfold skipCountOf
  cases card.type <;> simp
  split_ifs <;> omega

theorem Step_seat {g g2 : GameState} (h : Step g g2)
    (hinv : 0 ≤ g.currentPlayerIndex ∧ g.currentPlayerIndex < g.players.length) :
    0 ≤ g2.currentPlayerIndex ∧ g2.currentPlayerIndex < g2.players.length := by
  cases h with
  | play pid card sel h =>
    obtain ⟨_, player, hp, hg2⟩ := playCard_ok h
    obtain ⟨h0, hlt⟩ := playerAt_lt hp
    have hnext := (playCard_effects h).2.2.2.2
    have hlen : g2.players.length = g.players.length := by
      rw [hg2]
      simp only [applyPlay, checkGameEnd_players, List.length_set]
    rw [hnext, hlen]
    exact nextPlayerIndex_range _ _ _ _ h0 hlt (skipCountOf_le _ _)
  | draw pid rng h =>
    obtain ⟨_, player, hp, hg2⟩ := drawCard_ok h
    obtain ⟨h0, hlt⟩ := playerAt_lt hp
    rw [hg2]
    simp only [List.length_set, nextSeat]
    rw [tmod_seat _ _ _ h0 hlt (by have := dirSign_ge g.direction; omega)]
    exact seat_emod_range _ _ (by omega)
  | uno pid h =>
    obtain ⟨_, _, _, _, rfl⟩ := callUno_ok h
    simpa using hinv
  | catchUno pid h =>
    obtain ⟨_, _, _, _, _, rfl⟩ := catchUnoFailure_ok h
    simpa using hinv
  | challenge pid isCh h =>
    rcases _applyCardPenalty_ok (challengeWildDrawFour_ok h).2.2 with
      ⟨_, rfl⟩ | ⟨_, _, _, rfl⟩
    · exact hinv
    · simpa using hinv

theorem createGame_seat (uuid rng : Nat → Nat) (players : List Nat)
    (rules : Option HouseRules) (g0 : GameState) (hne : players ≠ [])
    (h : createGame uuid rng players rules = .ok g0) :
    g0.players.length = players.length ∧
    0 ≤ g0.currentPlayerIndex ∧ g0.currentPlayerIndex < g0.players.length := by
  unfold createGame at h
  simp only at h
  split at h
  · cases h
  · replace h := Except.ok.inj h
    have hpos : 0 < players.length := List.length_pos.mpr hne
    rw [← h]
    simp only [List.length_map, List.enum_length, true_and]
    split_ifs
    · rw [Int.tmod_eq_emod (by omega) (by omega)]
      exact seat_emod_range _ _ hpos
    · rw [Int.tmod_eq_emod (by omega) (by omega)]
      exact seat_emod_range _ _ hpos

/-- C12: seat-index invariant.  For a game created with a non-empty player list,
in the created state and in every state reached from it by accepted actions
(playCard and drawCard, and also callUno, catchUnoFailure and
challengeWildDrawFour, which leave the seat alone),
`0 <= currentPlayerIndex < number of players`. -/
theorem seat_index_invariant (uuid rng : Nat → Nat) (players : List Nat)
    (rules : Option HouseRules) (g0 g : GameState) (hne : players ≠ [])
    (hc : createGame uuid rng players rules = .ok g0) (hr : Reachable g0 g) :
    0 ≤ g.currentPlayerIndex ∧ g.currentPlayerIndex < g.players.length := by
  induction hr with
  | refl => exact (createGame_seat uuid rng players rules g0 hne hc).2
  | tail _ hstep ih => exact Step_seat hstep ih

set_option maxRecDepth 100000 in
theorem seat_index_invariant_witness :
    ([1, 2] : List Nat) ≠ [] ∧
    createGame countingUuid openingDrawTwoRng [1, 2] none = .ok openingGame ∧
    Reachable openingGame openingDrawn ∧
    0 ≤ openingDrawn.currentPlayerIndex ∧
    openingDrawn.currentPlayerIndex < openingDrawn.players.length :=
  ⟨by decide, by decide,
    Relation.ReflTransGen.single (Step.draw _ _ 1 (fun _ => 0) (by decide)),
    seat_index_invariant countingUuid openingDrawTwoRng [1, 2] none openingGame openingDrawn
      (by decide) (by decide)
      (Relation.ReflTransGen.single (Step.draw _ _ 1 (fun _ => 0) (by decide)))⟩

/-! ## UNO call and catch -/

theorem applyPlay_player (g g2 : GameState) (pid : Nat) (card : Card)
    (sel : Option CardColor) (h : playCard g pid card sel = .ok g2) :
    findIndex g2.players pid = findIndex g.players pid ∧
    ∃ player, playerAt g.players (findIndex g.players pid) = some player ∧
      playerAt g2.players (findIndex g.players pid) = some
        { player with
          hand := player.hand.filter (fun c => c.id != card.id)
          hasCalledUno :=
            decide ((player.hand.filter (fun c => c.id != card.id)).length = 1) } := by
  obtain ⟨_, player, hp, hg2⟩ := playCard_ok h
  have hplayers : g2.players = g.players.set (findIndex g.players pid).toNat
      { player with
        hand := player.hand.filter (fun c => c.id != card.id)
        hasCalledUno :=
          decide ((player.hand.filter (fun c => c.id != card.id)).length = 1) } := by
    rw [hg2]; simp only [applyPlay, checkGameEnd_players]
  constructor
  · apply findIndex_congr
    rw [hplayers]
    exact map_id_set _ _ player _ (playerAt_eq hp).2 rfl
  · refine ⟨player, hp, ?_⟩
    rw [hplayers]
    exact playerAt_set _ _ player _ hp

/-- After an accepted play that leaves the player exactly one card, the player
counts as having called UNO, and a catch on that player is refused. -/
theorem catchUnoFailure_after_play (g g2 : GameState) (pid : Nat) (card : Card)
    (sel : Option CardColor) (h : playCard g pid card sel = .ok g2)
    (hone : (handOf g2 pid).length = 1) :
    catchUnoFailure g2 pid = .error .noUnoFailure := by
  obtain ⟨hv, _⟩ := playCard_ok h
  obtain ⟨hf, _⟩ := validatePlay_ok hv
  obtain ⟨hidx, player, hp, hp2⟩ := applyPlay_player g g2 pid card sel h
  have hhand : handOf g2 pid = player.hand.filter (fun c => c.id != card.id) := by
    unfold handOf
    rw [hidx, hp2]
  rw [hhand] at hone
  unfold catchUnoFailure
  simp only [hidx, hf, if_false, hp2, hone, decide_True, ne_eq, not_true_eq_false, or_true,
    if_true]

/-- C13 (evaluation at the failing input): player 1 plays a blue three on a blue
reverse and is left with exactly one card, without any call of `callUno`; the
draw pile holds three cards; `catchUnoFailure` on player 1 in the stored game
fails with 'Player has not failed to call UNO', because `playCard` stored
`hasCalledUno = true` for the hand of length 1. -/
theorem catchUnoFailure_refused_after_play :
    playCard unoGame 1 blueThree none = .ok unoPlayed ∧
    (handOf unoGame 1).length = 2 ∧ (handOf unoPlayed 1).length = 1 ∧
    unoPlayed.drawPile.length = 3 ∧
    catchUnoFailure unoPlayed 1 = .error .noUnoFailure := by
  decide

/-- C14 (counterexample): with an empty draw pile a successful `catchUnoFailure`
on player 1 stores the same game, and the repeated catch on player 1 succeeds
again instead of failing with NoUnoFailure. -/
theorem catchUnoFailure_repeats_on_empty_pile :
    ∃ g2, catchUnoFailure emptyPileGame 1 = .ok g2 ∧ catchUnoFailure g2 1 = .ok g2 :=
  ⟨stored emptyPileGame (catchUnoFailure emptyPileGame 1), by decide, by decide⟩

theorem players_set_self (ps : List Player) (i : Nat) (p : Player) (h : ps[i]? = some p) :
    ps.set i p = ps := by
  induction ps generalizing i with
  | nil => rfl
  | cons x xs ih =>
    cases i with
    | zero =>
      simp at h
      simp [h]
    | succ i =>
      simp at h
      simp [ih i h]

theorem penalty_player (g g2 : GameState) (pid : Nat) (player q : Player)
    (hp : playerAt g.players (findIndex g.players pid) = some player)
    (hid : q.id = player.id)
    (hg2 : g2.players = g.players.set (findIndex g.players pid).toNat q) :
    findIndex g2.players pid = findIndex g.players pid ∧
    playerAt g2.players (findIndex g.players pid) = some q := by
  constructor
  · apply findIndex_congr
    rw [hg2]
    exact map_id_set _ _ player q (playerAt_eq hp).2 hid
  · rw [hg2]
    exact playerAt_set _ _ player q hp

/-- C14 (amended): when `catchUnoFailure` on a player succeeds in a state with a
non-empty draw pile, the immediately repeated catch on the same player in the
resulting state fails with 'Player has not failed to call UNO' (NoUnoFailure);
with an empty draw pile the successful catch leaves the game as it was and the
repeated catch succeeds again. -/
theorem catchUnoFailure_not_repeatable (g g2 : GameState) (pid : Nat)
    (h : catchUnoFailure g pid = .ok g2) :
    (g.drawPile ≠ [] → catchUnoFailure g2 pid = .error .noUnoFailure) ∧
    (g.drawPile = [] → g2 = g ∧ catchUnoFailure g2 pid = .ok g2) := by
  obtain ⟨hf, player, hp, hlen, huno, hg2⟩ := catchUnoFailure_ok h
  rw [penaltyLoop_eq] at hg2
  simp only [List.nil_append] at hg2
  constructor
  · intro hne
    obtain ⟨hidx, hp2⟩ := penalty_player g g2 pid player
      { player with hand := player.hand ++ g.drawPile.take 2 } hp rfl (by rw [hg2])
    have htake : 1 ≤ (g.drawPile.take 2).length := by
      cases hd : g.drawPile with
      | nil => exact absurd hd hne
      | cons c pile => simp [List.take]
    unfold catchUnoFailure
    simp only [hidx, hf, if_false, hp2]
    have hl : (player.hand ++ List.take 2 g.drawPile).length ≠ 1 := by
      rw [List.length_append]; omega
    rw [if_pos (Or.inl hl)]
  · intro hempty
    have hself : g2 = g := by
      rw [hg2, hempty]
      simp only [List.take_nil, List.drop_nil, List.append_nil]
      rw [players_set_self _ _ player (playerAt_eq hp).2]
      rw [← hempty]
    exact ⟨hself, by rw [hself]; rw [hself] at h; exact h⟩

theorem catchUnoFailure_not_repeatable_witness :
    catchUnoFailure uncalledGame 1 = .ok (stored uncalledGame (catchUnoFailure uncalledGame 1)) ∧
    uncalledGame.drawPile ≠ [] ∧
    catchUnoFailure (stored uncalledGame (catchUnoFailure uncalledGame 1)) 1 =
      .error .noUnoFailure :=
  ⟨by decide, by decide,
    (catchUnoFailure_not_repeatable uncalledGame
      (stored uncalledGame (catchUnoFailure uncalledGame 1)) 1 (by decide)).1 (by decide)⟩

/-! ## Challenge -/

theorem lastWildDrawFour_none (discardPile : List Card)
    (h : ∀ c ∈ discardPile, c.type ≠ .wildDrawFour) : lastWildDrawFour discardPile = none := by
  unfold lastWildDrawFour
  rw [List.find?_eq_none]
  intro c hc
  simpa using h c (List.mem_reverse.mp hc)

theorem lastWildDrawFour_some (discardPile : List Card)
    (h : ∃ c ∈ discardPile, c.type = .wildDrawFour) :
    ∃ c, lastWildDrawFour discardPile = some c := by
  obtain ⟨c, hc, hty⟩ := h
  cases hl : lastWildDrawFour discardPile with
  | some d => exact ⟨d, rfl⟩
  | none =>
    unfold lastWildDrawFour at hl
    rw [List.find?_eq_none] at hl
    have := hl c (List.mem_reverse.mpr hc)
    simp [hty] at this

/-- C15: challenge resolution.  `challengeWildDrawFour` fails with
ChallengeDisabled when `challengeEnabled` is false; otherwise it fails with
NoChallengeable when the discard pile holds no wild draw four; otherwise, for a
challenger who is a player, both values of `isChallenging` store the same game:
the challenger's hand gains the first `min 4 |drawPile|` cards of the draw
pile, the draw pile loses them, and discard pile (no reshuffle), turn,
direction, `cardsToDraw`, stacking flag, wild colour, status, scores and every
other player are unchanged. -/
theorem challengeWildDrawFour_resolution (g : GameState) (pid : Nat) (isCh : Bool) :
    (g.houseRules.challengeEnabled = false →
      challengeWildDrawFour g pid isCh = .error .challengeDisabled) ∧
    (g.houseRules.challengeEnabled = true →
      (∀ c ∈ g.discardPile, c.type ≠ .wildDrawFour) →
      challengeWildDrawFour g pid isCh = .error .noChallengeable) ∧
    (g.houseRules.challengeEnabled = true →
      (∃ c ∈ g.discardPile, c.type = .wildDrawFour) →
      findIndex g.players pid ≠ -1 →
      ∃ g2, challengeWildDrawFour g pid true = .ok g2 ∧
        challengeWildDrawFour g pid false = .ok g2 ∧
        handOf g2 pid = handOf g pid ++ g.drawPile.take 4 ∧
        (g.drawPile.take 4).length = min 4 g.drawPile.length ∧
        g2.drawPile = g.drawPile.drop 4 ∧ g2.discardPile = g.discardPile ∧
        g2.currentPlayerIndex = g.currentPlayerIndex ∧ g2.direction = g.direction ∧
        g2.cardsToDraw = g.cardsToDraw ∧ g2.isStackingActive = g.isStackingActive ∧
        g2.currentWildColor = g.currentWildColor ∧ g2.status = g.status ∧
        g2.playerScores = g.playerScores ∧ g2.winnerId = g.winnerId ∧
        g2.players.length = g.players.length ∧
        (∀ i : Nat, (i : Int) ≠ findIndex g.players pid → g2.players[i]? = g.players[i]?)) := by
  refine ⟨?_, ?_, ?_⟩
  · intro hdis
    unfold challengeWildDrawFour
    simp [hdis]
  · intro hen hno
    unfold challengeWildDrawFour
    simp [hen, lastWildDrawFour_none _ hno]
  · intro hen hex hf
    obtain ⟨c, hc⟩ := lastWildDrawFour_some _ hex
    obtain ⟨player, hp, _⟩ := playerAt_found _ _ hf
    obtain ⟨h0, _⟩ := playerAt_lt hp
    have hpen : _applyCardPenalty g pid 4 = .ok { g with
        drawPile := g.drawPile.drop 4
        players := g.players.set (findIndex g.players pid).toNat
          { player with hand := player.hand ++ g.drawPile.take 4 } } := by
      unfold _applyCardPenalty
      simp only [hf, if_false, hp, penaltyLoop_eq, List.nil_append]
    refine ⟨{ g with
        drawPile := g.drawPile.drop 4
        players := g.players.set (findIndex g.players pid).toNat
          { player with hand := player.hand ++ g.drawPile.take 4 } },
      ?_, ?_, ?_, by simp, rfl, rfl, rfl, rfl, rfl, rfl, rfl, rfl, rfl, rfl, by simp, ?_⟩
    · unfold challengeWildDrawFour
      simp only [hen, Bool.true_eq_false, if_false, hc]
      exact hpen
    · unfold challengeWildDrawFour
      simp only [hen, Bool.true_eq_false, if_false, hc, if_true]
      exact hpen
    · rw [handOf_eq hp]
      exact handOf_set g _ pid player
        { player with hand := player.hand ++ g.drawPile.take 4 } hp rfl rfl
    · intro i hi
      exact players_set_other _ _ _ _ h0 hi

theorem challengeWildDrawFour_resolution_witness :
    ∃ g2, challengeWildDrawFour challengeGame 2 true = .ok g2 ∧
      challengeWildDrawFour challengeGame 2 false = .ok g2 ∧
      handOf g2 2 = handOf challengeGame 2 ++ challengeGame.drawPile.take 4 ∧
      (challengeGame.drawPile.take 4).length = min 4 challengeGame.drawPile.length :=
  match (challengeWildDrawFour_resolution challengeGame 2 true).2.2 (by decide)
    ⟨wildDrawFourCard, by decide, rfl⟩ (by decide) with
  | ⟨g2, h1, h2, h3, h4, _⟩ => ⟨g2, h1, h2, h3, h4⟩

/-! ## Deck composition -/

theorem assignIds_face (uuid : Nat → Nat) (k : Nat) (fs : List Face) :
    (assignIds uuid k fs).map Card.face = fs := by
  induction fs generalizing k with
  | nil => rfl
  | cons f fs ih => simp only [assignIds, List.map_cons, ih]; rfl

theorem createDeck_countP (uuid : Nat → Nat) (P : Face → Bool) :
    (createDeck uuid).countP (fun c => P c.face) = deckFaces.countP P := by
  have h := assignIds_face uuid 0 deckFaces
  unfold createDeck
  conv_rhs => rw [← h]
  rw [List.countP_map]
  rfl

theorem createDeck_forall (uuid : Nat → Nat) (P : Face → Prop)
    (h : ∀ f ∈ deckFaces, P f) : ∀ c ∈ createDeck uuid, P c.face := by
  intro c hc
  apply h
  have hm := assignIds_face uuid 0 deckFaces
  rw [← hm]
  exact List.mem_map_of_mem Card.face hc

set_option maxRecDepth 100000 in
/-- C16: deck composition.  Whatever the ids, `createDeck` returns 112 cards, 100
of them coloured; for each of red, blue, green and yellow: 25 cards, one number
0, two of each number 1 to 9, two skip, two reverse, two drawTwo; 12 cards of
colour wild: four wild, four wildDrawFour, four blankWild; a number card
carries a number from 0 to 9 equal to its point value, skip, reverse and
drawTwo are coloured and worth 20, the three wild types have colour wild and
are worth 50, and no other card than a number card has a number. -/
theorem createDeck_composition (uuid : Nat → Nat) :
    (createDeck uuid).length = 112 ∧
    (createDeck uuid).countP (fun c => decide (c.color ≠ .wild)) = 100 ∧
    (∀ color : CardColor, color ≠ .wild →
      (createDeck uuid).countP (fun c => decide (c.color = color)) = 25 ∧
      (createDeck uuid).countP
        (fun c => decide (c.color = color ∧ c.type = .number ∧ c.number = some 0)) = 1 ∧
      (∀ n, 1 ≤ n → n ≤ 9 → (createDeck uuid).countP
        (fun c => decide (c.color = color ∧ c.type = .number ∧ c.number = some n)) = 2) ∧
      (createDeck uuid).countP (fun c => decide (c.color = color ∧ c.type = .skip)) = 2 ∧
      (createDeck uuid).countP (fun c => decide (c.color = color ∧ c.type = .reverse)) = 2 ∧
      (createDeck uuid).countP (fun c => decide (c.color = color ∧ c.type = .drawTwo)) = 2) ∧
    (createDeck uuid).countP (fun c => decide (c.color = .wild)) = 12 ∧
    (createDeck uuid).countP (fun c => decide (c.color = .wild ∧ c.type = .wild)) = 4 ∧
    (createDeck uuid).countP
      (fun c => decide (c.color = .wild ∧ c.type = .wildDrawFour)) = 4 ∧
    (createDeck uuid).countP (fun c => decide (c.color = .wild ∧ c.type = .blankWild)) = 4 ∧
    (∀ c ∈ createDeck uuid,
      (c.type = .number → c.number = some c.pointValue ∧ c.pointValue ≤ 9) ∧
      (c.type = .skip ∨ c.type = .reverse ∨ c.type = .drawTwo →
        c.pointValue = 20 ∧ c.color ≠ .wild) ∧
      (c.type = .wild ∨ c.type = .wildDrawFour ∨ c.type = .blankWild →
        c.pointValue = 50 ∧ c.color = .wild) ∧
      (c.type ≠ .number → c.number = none)) := by
  refine ⟨?_, ?_, ?_, ?_, ?_, ?_, ?_, ?_⟩
  · have := congrArg List.length (assignIds_face uuid 0 deckFaces)
    rw [List.length_map] at this
    rw [createDeck, this, deckFaces_length]
  · exact (createDeck_countP uuid (fun f => decide (f.color ≠ .wild))).trans (by decide)
  · intro color hcol
    refine ⟨?_, ?_, ?_, ?_, ?_, ?_⟩
    · exact (createDeck_countP uuid (fun f => decide (f.color = color))).trans
        (by cases color <;> first | exact absurd rfl hcol | decide)
    · exact (createDeck_countP uuid
        (fun f => decide (f.color = color ∧ f.type = .number ∧ f.number = some 0))).trans
        (by cases color <;> first | exact absurd rfl hcol | decide)
    · intro n h1 h9
      exact (createDeck_countP uuid
        (fun f => decide (f.color = color ∧ f.type = .number ∧ f.number = some n))).trans
        (by cases color <;> first
          | exact absurd rfl hcol
          | (interval_cases n <;> decide))
    · exact (createDeck_countP uuid
        (fun f => decide (f.color = color ∧ f.type = .skip))).trans
        (by cases color <;> first | exact absurd rfl hcol | decide)
    · exact (createDeck_countP uuid
        (fun f => decide (f.color = color ∧ f.type = .reverse))).trans
        (by cases color <;> first | exact absurd rfl hcol | decide)
    · exact (createDeck_countP uuid
        (fun f => decide (f.color = color ∧ f.type = .drawTwo))).trans
        (by cases color <;> first | exact absurd rfl hcol | decide)
  · exact (createDeck_countP uuid (fun f => decide (f.color = .wild))).trans (by decide)
  · exact (createDeck_countP uuid
      (fun f => decide (f.color = .wild ∧ f.type = .wild))).trans (by decide)
  · exact (createDeck_countP uuid
      (fun f => decide (f.color = .wild ∧ f.type = .wildDrawFour))).trans (by decide)
  · exact (createDeck_countP uuid
      (fun f => decide (f.color = .wild ∧ f.type = .blankWild))).trans (by decide)
  · exact createDeck_forall uuid
      (fun f =>
        (f.type = .number → f.number = some f.pointValue ∧ f.pointValue ≤ 9) ∧
        (f.type = .skip ∨ f.type = .reverse ∨ f.type = .drawTwo →
          f.pointValue = 20 ∧ f.color ≠ .wild) ∧
        (f.type = .wild ∨ f.type = .wildDrawFour ∨ f.type = .blankWild →
          f.pointValue = 50 ∧ f.color = .wild) ∧
        (f.type ≠ .number → f.number = none))
      (by decide)

/-! ## Shuffle -/

/-- C17: shuffle is a permutation.  For every deck and every random source
`shuffleDeck` returns a list that is a permutation of the deck: same length,
same ids with the same multiplicities, every card occurring as often as in the
input.  (`shuffleDeck` works on the copy `[...deck]`; the argument is a value
and stays what it was.) -/
theorem shuffleDeck_permutation (deck : List Card) (rng : Nat → Nat) :
    (shuffleDeck deck rng).Perm deck ∧
    (shuffleDeck deck rng).length = deck.length ∧
    ((shuffleDeck deck rng).map (·.id)).Perm (deck.map (·.id)) ∧
    (∀ c : Card, (shuffleDeck deck rng).count c = deck.count c) ∧
    (∀ c : Card, c ∈ shuffleDeck deck rng ↔ c ∈ deck) := by
  have h := shuffleDeck_perm deck rng
  exact ⟨h, h.length_eq, h.map _, fun c => h.count_eq c, fun c => h.mem_iff⟩

/-! ## Dealing -/

theorem flatten_set_push (hs : List (List Card)) (j : Nat) (c : Card) (hj : j < hs.length) :
    (hs.set j (hs.getD j [] ++ [c])).flatten.Perm (c :: hs.flatten) := by
  induction hs generalizing j with
  | nil => simp at hj
  | cons h t ih =>
    cases j with
    | zero =>
      simp only [List.set_cons_zero, List.getD_cons_zero, List.flatten_cons, List.append_assoc,
        List.singleton_append]
      exact List.perm_middle
    | succ j =>
      simp only [List.set_cons_succ, List.getD_cons_succ, List.flatten_cons]
      simp only [List.length_cons, Nat.add_lt_add_iff_right] at hj
      exact ((ih j hj).append_left h).trans List.perm_middle

theorem dealOne_perm (hs : List (List Card)) (deck : List Card) (j : Nat)
    (hj : j < hs.length) :
    ((dealOne hs deck j).1.flatten ++ (dealOne hs deck j).2).Perm (hs.flatten ++ deck) ∧
      (dealOne hs deck j).1.length = hs.length := by
  cases deck with
  | nil => simp [dealOne]
  | cons c rest =>
    simp only [dealOne, List.length_set, and_true]
    exact ((flatten_set_push hs j c hj).append_right rest).trans List.perm_middle.symm

theorem dealRow_perm (k j : Nat) (hs : List (List Card)) (deck : List Card)
    (hj : j + k ≤ hs.length) :
    ((dealRow k j hs deck).1.flatten ++ (dealRow k j hs deck).2).Perm (hs.flatten ++ deck) ∧
      (dealRow k j hs deck).1.length = hs.length := by
  induction k generalizing j hs deck with
  | zero => simp [dealRow]
  | succ k ih =>
    obtain ⟨h1, h2⟩ := dealOne_perm hs deck j (by omega)
    obtain ⟨h3, h4⟩ := ih (j + 1) (dealOne hs deck j).1 (dealOne hs deck j).2 (by omega)
    simp only [dealRow]
    exact ⟨h3.trans h1, by rw [h4, h2]⟩

theorem dealRounds_perm (n m : Nat) (hs : List (List Card)) (deck : List Card)
    (hn : n ≤ hs.length) :
    ((dealRounds n m hs deck).1.flatten ++ (dealRounds n m hs deck).2).Perm
        (hs.flatten ++ deck) ∧
      (dealRounds n m hs deck).1.length = hs.length := by
  induction m generalizing hs deck with
  | zero => simp [dealRounds]
  | succ m ih =>
    obtain ⟨h1, h2⟩ := dealRow_perm n 0 hs deck (by omega)
    obtain ⟨h3, h4⟩ := ih (dealRow n 0 hs deck).1 (dealRow n 0 hs deck).2 (by omega)
    simp only [dealRounds]
    exact ⟨h3.trans h1, by rw [h4, h2]⟩

theorem dealCards_perm (deck : List Card) (n m : Nat) :
    ((dealCards deck n m).1.flatten ++ (dealCards deck n m).2).Perm deck := by
  have h := (dealRounds_perm n m (List.replicate n []) deck (by simp)).1
  have hnil : (List.replicate n ([] : List Card)).flatten = [] := by
    induction n with
    | zero => rfl
    | succ n ih => simp [List.replicate_succ, ih]
  rw [hnil, List.nil_append] at h
  exact h

/-- The cards of hand `j` after `r` full rounds over `n` hands. -/
theorem range_filterMap_succ (deck : List Card) (n r j : Nat) :
    (List.range (r + 1)).filterMap (fun i => deck[i * n + j]?) =
      (List.range r).filterMap (fun i => deck[i * n + j]?) ++ (deck[r * n + j]?).toList := by
  rw [List.range_succ, List.filterMap_append]
  cases h : deck[r * n + j]? <;> simp [List.filterMap, h]

theorem dealOne_closed (deck : List Card) (n r j0 : Nat) (hs : List (List Card))
    (rem : List Card) (hj0 : j0 < n) (hlen : hs.length = n)
    (hhands : ∀ j, j < n → hs[j]? = some
      ((List.range (if j < j0 then r + 1 else r)).filterMap (fun i => deck[i * n + j]?)))
    (hrem : rem = deck.drop (r * n + j0)) :
    (dealOne hs rem j0).1.length = n ∧
    (∀ j, j < n → (dealOne hs rem j0).1[j]? = some
      ((List.range (if j < j0 + 1 then r + 1 else r)).filterMap
        (fun i => deck[i * n + j]?))) ∧
    (dealOne hs rem j0).2 = deck.drop (r * n + (j0 + 1)) := by
  have hj0' := hhands j0 hj0
  simp only [lt_self_iff_false, if_false] at hj0'
  cases hr : rem with
  | nil =>
    rw [hr] at hrem
    have hge : deck.length ≤ r * n + j0 := by
      have := congrArg List.length hrem
      simp only [List.length_nil, List.length_drop] at this
      omega
    have hnone : deck[r * n + j0]? = none := List.getElem?_eq_none (by omega)
    simp only [dealOne]
    refine ⟨hlen, ?_, ?_⟩
    · intro j hj
      rw [hhands j hj]
      by_cases hlt : j < j0
      · have : j < j0 + 1 := by omega
        simp [hlt, this]
      · by_cases heq : j = j0
        · subst heq
          simp only [lt_self_iff_false, if_false, Nat.lt_succ_self, if_true]
          rw [range_filterMap_succ, hnone]
          simp
        · have : ¬ j < j0 + 1 := by omega
          simp [hlt, this]
    · symm
      apply List.drop_eq_nil_of_le
      omega
  | cons c rest =>
    rw [hr] at hrem
    have hlt : r * n + j0 < deck.length := by
      by_contra hge
      rw [List.drop_eq_nil_of_le (by omega)] at hrem
      cases hrem
    have hsplit := List.drop_eq_getElem_cons hlt
    rw [← hrem] at hsplit
    injection hsplit with hc hrest
    have hsome : deck[r * n + j0]? = some c := by
      rw [List.getElem?_eq_getElem hlt, hc]
    simp only [dealOne]
    refine ⟨by simp [hlen], ?_, ?_⟩
    · intro j hj
      by_cases heq : j = j0
      · subst heq
        have hget : hs.getD j [] =
            (List.range r).filterMap (fun i => deck[i * n + j]?) := by
          rw [List.getD_eq_getElem?_getD, hj0']
          rfl
        rw [List.getElem?_set_self (by omega), hget]
        simp only [Nat.lt_succ_self, if_true]
        rw [range_filterMap_succ, hsome]
        rfl
      · rw [List.getElem?_set_ne (fun h => heq h.symm), hhands j hj]
        by_cases hlt2 : j < j0
        · have : j < j0 + 1 := by omega
          simp [hlt2, this]
        · have : ¬ j < j0 + 1 := by omega
          simp [hlt2, this]
    · rw [hrest]
      rfl

theorem dealRow_closed (deck : List Card) (n r : Nat) (k j0 : Nat) (hs : List (List Card))
    (rem : List Card) (hk : j0 + k = n) (hlen : hs.length = n)
    (hhands : ∀ j, j < n → hs[j]? = some
      ((List.range (if j < j0 then r + 1 else r)).filterMap (fun i => deck[i * n + j]?)))
    (hrem : rem = deck.drop (r * n + j0)) :
    (dealRow k j0 hs rem).1.length = n ∧
    (∀ j, j < n → (dealRow k j0 hs rem).1[j]? = some
      ((List.range (r + 1)).filterMap (fun i => deck[i * n + j]?))) ∧
    (dealRow k j0 hs rem).2 = deck.drop ((r + 1) * n) := by
  induction k generalizing j0 hs rem with
  | zero =>
    simp only [dealRow]
    refine ⟨hlen, ?_, ?_⟩
    · intro j hj
      rw [hhands j hj]
      have : j < j0 := by omega
      simp [this]
    · rw [hrem]
      congr 1
      rw [Nat.add_mul]
      omega
  | succ k ih =>
    obtain ⟨h1, h2, h3⟩ := dealOne_closed deck n r j0 hs rem (by omega) hlen hhands hrem
    simp only [dealRow]
    exact ih (j0 + 1) _ _ (by omega) h1 h2 h3

theorem dealRounds_closed (deck : List Card) (n : Nat) (m r : Nat) (hs : List (List Card))
    (rem : List Card) (hlen : hs.length = n)
    (hhands : ∀ j, j < n → hs[j]? = some
      ((List.range r).filterMap (fun i => deck[i * n + j]?)))
    (hrem : rem = deck.drop (r * n)) :
    (dealRounds n m hs rem).1.length = n ∧
    (∀ j, j < n → (dealRounds n m hs rem).1[j]? = some
      ((List.range (r + m)).filterMap (fun i => deck[i * n + j]?))) ∧
    (dealRounds n m hs rem).2 = deck.drop ((r + m) * n) := by
  induction m generalizing r hs rem with
  | zero =>
    simp only [dealRounds]
    exact ⟨hlen, hhands, hrem⟩
  | succ m ih =>
    obtain ⟨h1, h2, h3⟩ := dealRow_closed deck n r n 0 hs rem (by omega) hlen
      (by intro j hj; simpa using hhands j hj) (by simpa using hrem)
    simp only [dealRounds]
    have := ih (r + 1) _ _ h1 h2 h3
    rw [show r + 1 + m = r + (m + 1) by omega] at this
    exact this

/-- Closed form of `dealCards`: hand `j` holds the cards `deck[i * n + j]` for
the rounds `i < m` that the deck reaches, and the rest of the deck remains. -/
theorem dealCards_closed (deck : List Card) (n m : Nat) :
    (dealCards deck n m).1.length = n ∧
    (∀ j, j < n → (dealCards deck n m).1[j]? = some
      ((List.range m).filterMap (fun i => deck[i * n + j]?))) ∧
    (dealCards deck n m).2 = deck.drop (m * n) := by
  have h := dealRounds_closed deck n m 0 (List.replicate n []) deck (by simp)
    (by
      intro j hj
      simp [List.getElem?_replicate, hj])
    (by simp)
  simpa using h

/-- C18: round-robin deal.  `dealCards` returns `numPlayers` hands.  When the
deck has at least `numPlayers * perPlayerCount` cards, every hand `j` has
exactly `perPlayerCount` cards, its i-th card being `deck[i * numPlayers + j]`,
and the remaining deck is the deck without its first
`numPlayers * perPlayerCount` cards.  In general hand `j` holds the cards
`deck[i * numPlayers + j]` of the rounds `i < perPlayerCount` that the deck
reaches, the remaining deck is `deck.drop (numPlayers * perPlayerCount)`, and
hands and remaining deck together are a permutation of the deck (no card lost
or duplicated). -/
theorem dealCards_round_robin (deck : List Card) (numPlayers perPlayerCount : Nat) :
    (dealCards deck numPlayers perPlayerCount).1.length = numPlayers ∧
    (numPlayers * perPlayerCount ≤ deck.length →
      (∀ j, j < numPlayers →
        ∃ hand, (dealCards deck numPlayers perPlayerCount).1[j]? = some hand ∧
          hand.length = perPlayerCount ∧
          ∀ i, i < perPlayerCount → hand[i]? = deck[i * numPlayers + j]?) ∧
      (dealCards deck numPlayers perPlayerCount).2 =
        deck.drop (numPlayers * perPlayerCount)) ∧
    (∀ j, j < numPlayers → (dealCards deck numPlayers perPlayerCount).1[j]? = some
      ((List.range perPlayerCount).filterMap (fun i => deck[i * numPlayers + j]?))) ∧
    (dealCards deck numPlayers perPlayerCount).2 = deck.drop (numPlayers * perPlayerCount) ∧
    ((dealCards deck numPlayers perPlayerCount).1.flatten ++
      (dealCards deck numPlayers perPlayerCount).2).Perm deck := by
  obtain ⟨hlen, hhands, hrem⟩ := dealCards_closed deck numPlayers perPlayerCount
  rw [Nat.mul_comm perPlayerCount numPlayers] at hrem
  refine ⟨hlen, ?_, hhands, hrem, dealCards_perm _ _ _⟩
  intro hle
  refine ⟨?_, hrem⟩
  intro j hj
  have hall : ∀ i, i < perPlayerCount → i * numPlayers + j < deck.length := by
    intro i hi
    have h1 : i * numPlayers + numPlayers ≤ perPlayerCount * numPlayers := by
      rw [← Nat.succ_mul]
      exact Nat.mul_le_mul_right _ hi
    rw [Nat.mul_comm perPlayerCount numPlayers] at h1
    omega
  have hmap : (List.range perPlayerCount).filterMap (fun i => deck[i * numPlayers + j]?) =
      (List.range perPlayerCount).map (fun i => deck.getD (i * numPlayers + j) default) := by
    rw [← List.filterMap_eq_map]
    apply List.filterMap_congr
    intro i hi
    have hlt := hall i (List.mem_range.mp hi)
    simp [List.getD_eq_getElem?_getD, List.getElem?_eq_getElem hlt]
  refine ⟨_, hhands j hj, ?_, ?_⟩
  · rw [hmap]
    simp
  · intro i hi
    rw [hmap, List.getElem?_map, List.getElem?_range hi]
    have hlt := hall i hi
    simp [List.getD_eq_getElem?_getD, List.getElem?_eq_getElem hlt]

theorem dealCards_round_robin_witness :
    2 * 2 ≤ [redSkip, redFive, greenNine, yellowOne, blueThree].length ∧
    (dealCards [redSkip, redFive, greenNine, yellowOne, blueThree] 2 2).2 =
      [redSkip, redFive, greenNine, yellowOne, blueThree].drop (2 * 2) ∧
    (dealCards [redSkip, redFive, greenNine, yellowOne, blueThree] 2 2).1 =
      [[redSkip, greenNine], [redFive, yellowOne]] :=
  ⟨by decide,
    ((dealCards_round_robin [redSkip, redFive, greenNine, yellowOne, blueThree] 2 2).2.1
      (by decide)).2,
    by decide⟩

/-! ## Initial discard -/

theorem findFirstDiscard_some (l : List Card) (d : Card) (r : List Card)
    (h : findFirstDiscard l = some (d, r)) :
    ∃ pre post, l = pre ++ d :: post ∧ r = pre ++ post ∧ d.color ≠ .wild ∧
      ∀ c ∈ pre, c.color = .wild := by
  induction l generalizing r with
  | nil => simp [findFirstDiscard] at h
  | cons c rest ih =>
    unfold findFirstDiscard at h
    by_cases hc : c.color ≠ .wild
    · rw [if_pos hc] at h
      injection h with h
      injection h with h1 h2
      subst h1; subst h2
      exact ⟨[], rest, rfl, rfl, hc, by simp⟩
    · rw [if_neg hc] at h
      cases hf : findFirstDiscard rest with
      | none => simp [hf] at h
      | some dr =>
        obtain ⟨d2, r2⟩ := dr
        simp only [hf] at h
        injection h with h
        injection h with h1 h2
        subst h1; subst h2
        obtain ⟨pre, post, hl, hr, hd, hpre⟩ := ih r2 hf
        refine ⟨c :: pre, post, by rw [hl]; rfl, by rw [hr]; rfl, hd, ?_⟩
        intro x hx
        rcases List.mem_cons.mp hx with rfl | hx
        · exact not_not.mp hc
        · exact hpre x hx

theorem findFirstDiscard_none (l : List Card) (h : findFirstDiscard l = none) :
    ∀ c ∈ l, c.color = .wild := by
  induction l with
  | nil => simp
  | cons c rest ih =>
    unfold findFirstDiscard at h
    by_cases hc : c.color ≠ .wild
    · rw [if_pos hc] at h
      cases h
    · rw [if_neg hc] at h
      cases hf : findFirstDiscard rest with
      | some dr => simp [hf] at h
      | none =>
        intro x hx
        rcases List.mem_cons.mp hx with rfl | hx
        · exact not_not.mp hc
        · exact ih hf x hx

/-- The selection made by `createGame` on a non-empty remaining deck. -/
theorem pickFirstDiscard_spec (l : List Card) (hne : l ≠ []) :
    ∃ d pre post, pickFirstDiscard l = some (d, pre ++ post) ∧ l = pre ++ d :: post ∧
      ((d.color ≠ .wild ∧ ∀ c ∈ pre, c.color = .wild) ∨
        ((∀ c ∈ l, c.color = .wild) ∧ pre = [])) := by
  unfold pickFirstDiscard
  cases hf : findFirstDiscard l with
  | some dr =>
    obtain ⟨d, r⟩ := dr
    obtain ⟨pre, post, hl, hr, hd, hpre⟩ := findFirstDiscard_some l d r hf
    exact ⟨d, pre, post, by simp [hr], hl, Or.inl ⟨hd, hpre⟩⟩
  | none =>
    cases l with
    | nil => exact absurd rfl hne
    | cons c rest =>
      exact ⟨c, [], rest, rfl, rfl, Or.inr ⟨findFirstDiscard_none _ hf, rfl⟩⟩

/-- C19: initial discard selection in `createGame`.  When the deck remaining
after the deal is not empty, the game is created, its discard pile is the
single card `d` and its draw pile is `pre ++ post`, where the remaining deck is
`pre ++ d :: post` and either `d` is not wild and every card of `pre` is wild
(`d` is the first non-wild card), or every remaining card is wild and `pre` is
empty (`d` is the first card). -/
theorem createGame_initial_discard (uuid rng : Nat → Nat) (players : List Nat)
    (rules : Option HouseRules) (hne : remainingDeckOf uuid rng players ≠ []) :
    ∃ g0 d pre post, createGame uuid rng players rules = .ok g0 ∧
      remainingDeckOf uuid rng players = pre ++ d :: post ∧
      g0.discardPile = [d] ∧ g0.drawPile = pre ++ post ∧
      ((d.color ≠ .wild ∧ ∀ c ∈ pre, c.color = .wild) ∨
        ((∀ c ∈ remainingDeckOf uuid rng players, c.color = .wild) ∧ pre = [])) := by
  obtain ⟨d, pre, post, hpick, hl, hcase⟩ := pickFirstDiscard_spec _ hne
  have hpick2 : pickFirstDiscard
      (dealCards (shuffleDeck (createDeck (fun k => uuid (k + 1))) rng) players.length 7).2 =
        some (d, pre ++ post) := hpick
  unfold createGame
  simp only [hpick2]
  exact ⟨_, d, pre, post, rfl, hl, rfl, rfl, hcase⟩

set_option maxRecDepth 100000 in
theorem createGame_initial_discard_witness :
    remainingDeckOf countingUuid openingDrawTwoRng [1, 2] ≠ [] ∧
    ∃ g0 d pre post, createGame countingUuid openingDrawTwoRng [1, 2] none = .ok g0 ∧
      remainingDeckOf countingUuid openingDrawTwoRng [1, 2] = pre ++ d :: post ∧
      g0.discardPile = [d] ∧ g0.drawPile = pre ++ post :=
  ⟨by decide,
    match createGame_initial_discard countingUuid openingDrawTwoRng [1, 2] none (by decide) with
    | ⟨g0, d, pre, post, h1, h2, h3, h4, _⟩ => ⟨g0, d, pre, post, h1, h2, h3, h4⟩⟩

/-! ## Wild colour -/

/-- C20: wild colour binding persists.  For every accepted play: a card of
colour wild played with a selected colour binds `currentWildColor` to that
colour; a coloured card, or a card played without selected colour (which, if
wild, is a blankWild), leaves `currentWildColor` as it was; so after a coloured
card is played on a bound wild colour `w` the new top card is that card and
the effective target colour is still `w`. -/
theorem playCard_wild_color (g g2 : GameState) (pid : Nat) (card : Card)
    (sel : Option CardColor) (h : playCard g pid card sel = .ok g2) :
    (∀ c, card.color = .wild → sel = some c → g2.currentWildColor = some c) ∧
    (card.color ≠ .wild ∨ sel = none → g2.currentWildColor = g.currentWildColor) ∧
    (card.color = .wild → sel = none → card.type = .blankWild) ∧
    (card.color ≠ .wild → ∀ w, g.currentWildColor = some w →
      topCard g2 = some card ∧ targetColor g2 = some w) := by
  obtain ⟨hv, player, hp, hg2⟩ := playCard_ok h
  obtain ⟨_, _, _, _, _, _, _, _, hsel⟩ := validatePlay_ok hv
  have hcwc : g2.currentWildColor =
      (if card.color = .wild ∧ sel ≠ none then sel else g.currentWildColor) := by
    rw [hg2]; simp only [applyPlay, checkGameEnd_currentWildColor]
  have htop : topCard g2 = some card := by
    unfold topCard
    rw [hg2]; simp only [applyPlay, checkGameEnd_discardPile]
    simp
  refine ⟨?_, ?_, ?_, ?_⟩
  · intro c hc hs
    rw [hcwc, hs]
    simp [hc]
  · intro hor
    rw [hcwc]
    rcases hor with hc | hs
    · simp [hc]
    · simp [hs]
  · intro hc hs
    unfold checkColorSelection at hsel
    by_contra hty
    simp [hc, hs, hty] at hsel
  · intro hc w hw
    refine ⟨htop, ?_⟩
    unfold targetColor
    rw [hcwc]
    simp [hc, hw]

theorem playCard_wild_color_witness :
    playCard boundColorGame 1 blueFive none =
      .ok (stored boundColorGame (playCard boundColorGame 1 blueFive none)) ∧
    blueFive.color ≠ .wild ∧ boundColorGame.currentWildColor = some .red ∧
    topCard (stored boundColorGame (playCard boundColorGame 1 blueFive none)) = some blueFive ∧
    targetColor (stored boundColorGame (playCard boundColorGame 1 blueFive none)) = some .red :=
  ⟨by decide, by decide, rfl,
    (playCard_wild_color boundColorGame
      (stored boundColorGame (playCard boundColorGame 1 blueFive none)) 1 blueFive none
      (by decide)).2.2.2 (by decide) .red rfl⟩

/-! ## Order of the checks of `validatePlay` -/

theorem targetColor_of_topCard {g : GameState} {t : Card} (ht : topCard g = some t) :
    ∃ c, targetColor g = some c := by
  unfold targetColor
  cases g.currentWildColor with
  | some c => exact ⟨c, rfl⟩
  | none => exact ⟨t.color, by simp [ht]⟩

theorem checkWildDrawFour_error_kind (g : GameState) (player : Player) (card t : Card)
    (e : Err) (ht : topCard g = some t) (h : checkWildDrawFour g player card = .error e) :
    e = .illegalWildDrawFour := by
  obtain ⟨c, hc⟩ := targetColor_of_topCard ht
  unfold checkWildDrawFour hasMatchingColor at h
  simp only [hc] at h
  split_ifs at h
  split at h <;> simp_all

theorem checkStacking_error_kind (g : GameState) (card t : Card) (e : Err)
    (ht : topCard g = some t) (h : checkStacking g card = .error e) :
    e.specKind = some .MustDrawFirst := by
  rcases checkStacking_error g card e h with rfl | rfl | rfl
  · rfl
  · rfl
  · exfalso
    unfold checkStacking validStack at h
    simp only [ht] at h
    split_ifs at h
    all_goals first
      | (simp at h; done)
      | (split at h <;> simp_all)

theorem checkPlayable_error_kind (g : GameState) (card t : Card) (e : Err)
    (ht : topCard g = some t) (h : checkPlayable g card = .error e) :
    e = .cardNotPlayable := by
  obtain ⟨c, hc⟩ := targetColor_of_topCard ht
  unfold checkPlayable at h
  simp only [hc, ht] at h
  split_ifs at h
  simp_all

theorem checkColorSelection_iff (card : Card) (sel : Option CardColor) :
    (checkColorSelection card sel = .error .colorSelectionRequired ↔
      (card.color = .wild ∧ card.type ≠ .blankWild ∧ sel = none)) ∧
    (checkColorSelection card sel = .ok () ↔
      ¬ (card.color = .wild ∧ card.type ≠ .blankWild ∧ sel = none)) := by
  unfold checkColorSelection
  by_cases h : card.color = .wild ∧ sel = none ∧ card.type ≠ .blankWild
  · rw [if_pos h]
    simp only [true_iff, reduceCtorEq, false_iff, not_not]
    exact ⟨⟨h.1, h.2.2, h.2.1⟩, ⟨h.1, h.2.2, h.2.1⟩⟩
  · rw [if_neg h]
    simp only [reduceCtorEq, false_iff, true_iff]
    have : ¬ (card.color = .wild ∧ card.type ≠ .blankWild ∧ sel = none) :=
      fun h2 => h ⟨h2.1, h2.2.2, h2.2.1⟩
    exact ⟨this, this⟩

theorem playCard_error_of_validatePlay (g : GameState) (pid : Nat) (card : Card)
    (sel : Option CardColor) (e : Err) (h : validatePlay g pid card sel = .error e) :
    playCard g pid card sel = .error e := by
  unfold playCard
  rw [h]

/-- C22: first failure wins in `validatePlay`.  An unknown player gives
PlayerNotFound; a known player who is not at `currentPlayerIndex` gives
NotYourTurn; then a card id that is not in the hand gives CardNotOwned; then an
error of check (3) is returned, else an error of check (4), else an error of
check (5), else the result of check (6); with a top discard card the errors of
checks (3), (4), (5) are IllegalWildDrawFour, MustDrawFirst ('Invalid stack' or
'You must draw cards first') and CardNotPlayable; check (6) fails, with
ColorSelectionRequired, exactly for a card of colour wild that is not a
blankWild and comes without selected colour; `validatePlay` succeeds iff no
check fails; and a play refused by `validatePlay` is refused by `playCard` with
the same error, nothing being stored. -/
theorem validatePlay_first_failure (g : GameState) (pid : Nat) (card : Card)
    (sel : Option CardColor) :
    (findIndex g.players pid = -1 → validatePlay g pid card sel = .error .playerNotFound) ∧
    (findIndex g.players pid ≠ -1 → g.currentPlayerIndex ≠ findIndex g.players pid →
      validatePlay g pid card sel = .error .notYourTurn) ∧
    (findIndex g.players pid ≠ -1 → g.currentPlayerIndex = findIndex g.players pid →
      ∃ player, playerAt g.players (findIndex g.players pid) = some player ∧
        (player.hand.any (fun c => c.id == card.id) = false →
          validatePlay g pid card sel = .error .cardNotOwned) ∧
        (player.hand.any (fun c => c.id == card.id) = true →
          (∀ e, checkWildDrawFour g player card = .error e →
            validatePlay g pid card sel = .error e) ∧
          (checkWildDrawFour g player card = .ok () →
            (∀ e, checkStacking g card = .error e →
              validatePlay g pid card sel = .error e) ∧
            (checkStacking g card = .ok () →
              (∀ e, checkPlayable g card = .error e →
                validatePlay g pid card sel = .error e) ∧
              (checkPlayable g card = .ok () →
                validatePlay g pid card sel = checkColorSelection card sel)))) ∧
        (∀ t, topCard g = some t →
          (∀ e, checkWildDrawFour g player card = .error e → e = .illegalWildDrawFour) ∧
          (∀ e, checkStacking g card = .error e → e.specKind = some .MustDrawFirst) ∧
          (∀ e, checkPlayable g card = .error e → e = .cardNotPlayable))) ∧
    (checkColorSelection card sel = .error .colorSelectionRequired ↔
      (card.color = .wild ∧ card.type ≠ .blankWild ∧ sel = none)) ∧
    (checkColorSelection card sel = .ok () ↔
      ¬ (card.color = .wild ∧ card.type ≠ .blankWild ∧ sel = none)) ∧
    (validatePlay g pid card sel = .ok () ↔
      (findIndex g.players pid ≠ -1 ∧ g.currentPlayerIndex = findIndex g.players pid ∧
        ∃ player, playerAt g.players (findIndex g.players pid) = some player ∧
          player.hand.any (fun c => c.id == card.id) = true ∧
          checkWildDrawFour g player card = .ok () ∧ checkStacking g card = .ok () ∧
          checkPlayable g card = .ok () ∧ checkColorSelection card sel = .ok ())) ∧
    (∀ e, validatePlay g pid card sel = .error e → playCard g pid card sel = .error e) := by
  refine ⟨?_, ?_, ?_, (checkColorSelection_iff card sel).1, (checkColorSelection_iff card sel).2,
    ?_, playCard_error_of_validatePlay g pid card sel⟩
  · intro h
    unfold validatePlay
    simp [h]
  · intro h1 h2
    unfold validatePlay
    simp [h1, h2]
  · intro h1 h2
    obtain ⟨player, hp, _⟩ := playerAt_found _ _ h1
    refine ⟨player, hp, ?_, ?_, ?_⟩
    · intro hnot
      unfold validatePlay
      simp only [h1, h2, hp, hnot, if_false, ne_eq, not_true_eq_false, if_true]
    · intro hhas
      have hv := validatePlay_unfold g pid card sel player h1 h2 hp hhas
      refine ⟨?_, ?_⟩
      · intro e he
        rw [hv, he]
      · intro h3
        rw [h3] at hv
        refine ⟨?_, ?_⟩
        · intro e he
          rw [hv, he]
        · intro h4
          rw [h4] at hv
          refine ⟨?_, ?_⟩
          · intro e he
            rw [hv, he]
          · intro h5
            rw [h5] at hv
            exact hv
    · intro t ht
      exact ⟨fun e he => checkWildDrawFour_error_kind g player card t e ht he,
        fun e he => checkStacking_error_kind g card t e ht he,
        fun e he => checkPlayable_error_kind g card t e ht he⟩
  · constructor
    · exact validatePlay_ok
    · rintro ⟨h1, h2, player, hp, hhas, h3, h4, h5, h6⟩
      rw [validatePlay_unfold g pid card sel player h1 h2 hp hhas, h3, h4, h5]
      exact h6

theorem validatePlay_first_failure_witness :
    findIndex wildGame.players 1 ≠ -1 ∧
    wildGame.currentPlayerIndex = findIndex wildGame.players 1 ∧
    checkColorSelection wildDrawFourCard none = .error .colorSelectionRequired ∧
    validatePlay wildGame 1 wildDrawFourCard none = .error .illegalWildDrawFour ∧
    validatePlay wildGame 2 wildDrawFourCard none = .error .notYourTurn :=
  ⟨by decide, by decide, by decide,
    match (validatePlay_first_failure wildGame 1 wildDrawFourCard none).2.2.1
      (by decide) (by decide) with
    | ⟨player, hp, _, h, _⟩ =>
      (h (by
        have : player = ⟨1, [wildDrawFourCard, blueThree], false⟩ :=
          Option.some.inj (hp.symm.trans (by decide))
        rw [this]; decide)).1 _ (by
        have : player = ⟨1, [wildDrawFourCard, blueThree], false⟩ :=
          Option.some.inj (hp.symm.trans (by decide))
        rw [this]; decide),
    (validatePlay_first_failure wildGame 2 wildDrawFourCard none).2.1 (by decide) (by decide)⟩

/-! ## Unknown challenger -/

theorem findIndex_none (ps : List Player) (pid : Nat) (h : ∀ p ∈ ps, p.id ≠ pid) :
    findIndex ps pid = -1 := by
  induction ps with
  | nil => rfl
  | cons p ps ih =>
    have hp : p.id ≠ pid := h p (List.mem_cons_self _ _)
    have hrest := ih (fun q hq => h q (List.mem_cons_of_mem _ hq))
    simp [findIndex, hp, hrest]

/-- C23 (counterexample): with challenges enabled and a wild draw four in the
discard pile, a challenge by id 99, which is no player of the game, returns the
game unchanged as a success, for both values of `isChallenging`. -/
theorem challengeWildDrawFour_silent_on_stranger :
    challengeGame.houseRules.challengeEnabled = true ∧
    wildDrawFourCard ∈ challengeGame.discardPile ∧
    wildDrawFourCard.type = .wildDrawFour ∧
    (∀ p ∈ challengeGame.players, p.id ≠ 99) ∧
    challengeWildDrawFour challengeGame 99 true = .ok challengeGame ∧
    challengeWildDrawFour challengeGame 99 false = .ok challengeGame := by
  decide

/-- C23 (amended): with challenges enabled and a wild draw four in the discard
pile, `challengeWildDrawFour` submitted with a challenger id that matches no
player returns the unchanged game as a success: `_applyCardPenalty` returns the
game for an unknown player, no error is raised and no card is drawn. -/
theorem challengeWildDrawFour_unknown_challenger (g : GameState) (challengerId : Nat)
    (isChallenging : Bool) (hen : g.houseRules.challengeEnabled = true)
    (hex : ∃ c ∈ g.discardPile, c.type = .wildDrawFour)
    (hno : ∀ p ∈ g.players, p.id ≠ challengerId) :
    challengeWildDrawFour g challengerId isChallenging = .ok g := by
  obtain ⟨c, hc⟩ := lastWildDrawFour_some _ hex
  have hf := findIndex_none g.players challengerId hno
  unfold challengeWildDrawFour _applyCardPenalty
  simp [hen, hc, hf]

theorem challengeWildDrawFour_unknown_challenger_witness :
    challengeGame.houseRules.challengeEnabled = true ∧
    (∃ c ∈ challengeGame.discardPile, c.type = .wildDrawFour) ∧
    (∀ p ∈ challengeGame.players, p.id ≠ 99) ∧
    challengeWildDrawFour challengeGame 99 true = .ok challengeGame :=
  ⟨by decide, ⟨wildDrawFourCard, by decide, rfl⟩, by decide,
    challengeWildDrawFour_unknown_challenger challengeGame 99 true (by decide)
      ⟨wildDrawFourCard, by decide, rfl⟩ (by decide)⟩

/-! ## The card object of a play -/

/-- What `playCard` does with the card object it is sent: the object itself goes
on top of the discard pile, and the hand loses every card with its id. -/
theorem playCard_card_object (g g2 : GameState) (pid : Nat) (card : Card)
    (sel : Option CardColor) (h : playCard g pid card sel = .ok g2) :
    g2.discardPile = g.discardPile ++ [card] ∧
    handOf g2 pid = (handOf g pid).filter (fun c => c.id != card.id) ∧
    ∃ held ∈ handOf g pid, held.id = card.id := by
  obtain ⟨hv, player, hp, hg2⟩ := playCard_ok h
  obtain ⟨_, _, p2, hp2, hhas, _⟩ := validatePlay_ok hv
  rw [hp] at hp2
  injection hp2 with hp2
  subst hp2
  obtain ⟨hidx, player2, hp3, hp4⟩ := applyPlay_player g g2 pid card sel h
  rw [hp] at hp3
  injection hp3 with hp3
  subst hp3
  refine ⟨?_, ?_, ?_⟩
  · rw [hg2]; simp only [applyPlay, checkGameEnd_discardPile]
  · rw [handOf_eq hp]
    unfold handOf
    rw [hidx, hp4]
  · rw [handOf_eq hp]
    obtain ⟨c, hc, hid⟩ := List.any_eq_true.mp hhas
    exact ⟨c, hc, by simpa using hid⟩

/-- C24 (evaluation at the failing input): player 1 holds a red skip and a red
five, on a blue reverse; the red five itself is refused as not playable; a card
object with the id of the red five and the face of a blue three passes
`validatePlay`, `playCard` puts that object on top of the discard pile, and the
hand loses the red five: the card played is not the card that was held. -/
theorem playCard_accepts_forged_card :
    handOf twoPlayerGame 1 = [redSkip, redFive] ∧
    forgedBlueThree.id = redFive.id ∧
    forgedBlueThree.color ≠ redFive.color ∧ forgedBlueThree.number ≠ redFive.number ∧
    forgedBlueThree.pointValue ≠ redFive.pointValue ∧
    validatePlay twoPlayerGame 1 redFive none = .error .cardNotPlayable ∧
    validatePlay twoPlayerGame 1 forgedBlueThree none = .ok () ∧
    ∃ g2, playCard twoPlayerGame 1 forgedBlueThree none = .ok g2 ∧
      topCard g2 = some forgedBlueThree ∧ handOf g2 1 = [redSkip] :=
  ⟨by decide, by decide, by decide, by decide, by decide, by decide, by decide,
    stored twoPlayerGame (playCard twoPlayerGame 1 forgedBlueThree none),
    by decide, by decide, by decide⟩

/-! ## Concurrent submissions -/

/-- C21 (counterexample): in `raceGame` the draw of player 1 and the UNO call of
player 2 are both accepted; when both invocations read the game before either
writes it and the draw writes first, the stored document is neither the result
of draw-then-call nor of call-then-draw: it is what the UNO call computed from
the game as first stored, and the card drawn by player 1 is not in the stored
hand. -/
theorem race_loses_update :
    raceDraw.run raceGame = .ok (stored raceGame (raceDraw.run raceGame)) ∧
    raceUno.run raceGame = .ok (stored raceGame (raceUno.run raceGame)) ∧
    racedDoc ≠ inSequence raceDraw raceUno raceGame ∧
    racedDoc ≠ inSequence raceUno raceDraw raceGame ∧
    racedDoc = stored raceGame (raceUno.run raceGame) ∧
    handOf racedDoc 1 = handOf raceGame 1 ∧
    handOf (stored raceGame (raceDraw.run raceGame)) 1 = handOf raceGame 1 ++ [redSeven] := by
  decide

theorem updateDoc_self (s g2 : GameState)
    (h : g2.winnerId = s.winnerId ∨ ∃ w, g2.winnerId = some w) : updateDoc s g2 = g2 := by
  unfold updateDoc
  rcases h with h | ⟨w, h⟩
  · cases hw : g2.winnerId with
    | none =>
      rw [hw] at h
      simp only [← h]
      rw [← hw]
    | some w =>
      simp only
      rw [← hw]
  · rw [h]
    simp only
    rw [← h]

theorem checkGameEnd_winnerId (g : GameState) (pid : Nat) (hand : List Card) :
    (checkGameEnd g pid hand).winnerId = g.winnerId ∨
      ∃ w, (checkGameEnd g pid hand).winnerId = some w := by
  simp only [checkGameEnd]
  split_ifs
  · exact Or.inr ⟨pid, rfl⟩
  · exact Or.inr ⟨pid, rfl⟩
  · exact Or.inl rfl
  · exact Or.inl rfl

theorem Step_winnerId {g g2 : GameState} (h : Step g g2) :
    g2.winnerId = g.winnerId ∨ ∃ w, g2.winnerId = some w := by
  cases h with
  | play pid card sel h =>
    obtain ⟨_, player, _, rfl⟩ := playCard_ok h
    simp only [applyPlay]
    exact checkGameEnd_winnerId _ _ _
  | draw pid rng h =>
    obtain ⟨_, _, _, rfl⟩ := drawCard_ok h
    exact Or.inl rfl
  | uno pid h =>
    obtain ⟨_, _, _, _, rfl⟩ := callUno_ok h
    exact Or.inl rfl
  | catchUno pid h =>
    obtain ⟨_, _, _, _, _, rfl⟩ := catchUnoFailure_ok h
    exact Or.inl rfl
  | challenge pid isCh h =>
    rcases _applyCardPenalty_ok (challengeWildDrawFour_ok h).2.2 with
      ⟨_, rfl⟩ | ⟨_, _, _, rfl⟩ <;> exact Or.inl rfl

theorem Step_of_run {a : Action} {g g2 : GameState} (h : a.run g = .ok g2) : Step g g2 := by
  cases a with
  | play pid card sel => exact Step.play _ _ pid card sel h
  | draw pid rng => exact Step.draw _ _ pid rng h
  | uno pid => exact Step.uno _ _ pid h
  | catchUno pid => exact Step.catchUno _ _ pid h
  | challenge pid isCh => exact Step.challenge _ _ pid isCh h

theorem updateDoc_run {a : Action} {s g2 : GameState} (h : a.run s = .ok g2) :
    updateDoc s g2 = g2 :=
  updateDoc_self s g2 (Step_winnerId (Step_of_run h))

theorem challenge_blocked (g : GameState) (cid : Nat) (isCh : Bool)
    (h : challengePasses g = false) :
    ∃ e, challengeWildDrawFour g cid isCh = .error e := by
  unfold challengePasses at h
  unfold challengeWildDrawFour
  cases hen : g.houseRules.challengeEnabled with
  | false => exact ⟨.challengeDisabled, by simp⟩
  | true =>
    simp only [hen, Bool.true_and] at h
    cases hl : lastWildDrawFour g.discardPile with
    | none => exact ⟨.noChallengeable, by simp⟩
    | some c => simp [hl] at h

theorem challenge_passed (g : GameState) (cid : Nat) (isCh : Bool)
    (h : challengePasses g = true) :
    challengeWildDrawFour g cid isCh = _applyCardPenalty g cid 4 := by
  unfold challengePasses at h
  simp only [Bool.and_eq_true] at h
  obtain ⟨hen, hl⟩ := h
  obtain ⟨c, hc⟩ := Option.isSome_iff_exists.mp hl
  unfold challengeWildDrawFour
  simp only [hen, Bool.true_eq_false, if_false, hc]
  split_ifs <;> rfl

/-- An invocation that runs alone stores what the action computes as a function
of the stored game. -/
theorem advance_alone (a : Action) (s : GameState) :
    advance a (advance a (advance a s .submitted).1 (advance a s .submitted).2).1
        (advance a (advance a s .submitted).1 (advance a s .submitted).2).2 =
      (stored s (a.run s), .done) := by
  cases a with
  | challenge cid isCh =>
    cases hpass : challengePasses s with
    | false =>
      obtain ⟨e, he⟩ := challenge_blocked s cid isCh hpass
      simp [advance, hpass, Action.run, he, stored]
    | true =>
      have hrun := challenge_passed s cid isCh hpass
      by_cases hf : findIndex s.players cid = -1
      · have hpen : _applyCardPenalty s cid 4 = .ok s := by
          unfold _applyCardPenalty
          simp [hf]
        simp [advance, hpass, Action.run, hrun, hpen, hf, stored]
      · cases hpen : _applyCardPenalty s cid 4 with
        | error e => simp [advance, hpass, Action.run, hrun, hpen, hf, stored]
        | ok g2 =>
          have hu : updateDoc s g2 = g2 :=
            updateDoc_run (a := .challenge cid isCh) (by simp [Action.run, hrun, hpen])
          simp [advance, hpass, Action.run, hrun, hpen, hf, stored, hu]
  | play pid card sel =>
    cases hrun : playCard s pid card sel with
    | error e => simp [advance, Action.run, hrun, stored]
    | ok g2 =>
      have hu : updateDoc s g2 = g2 := updateDoc_run (a := .play pid card sel) hrun
      simp [advance, Action.run, hrun, stored, hu]
  | draw pid rng =>
    cases hrun : drawCard s pid rng with
    | error e => simp [advance, Action.run, hrun, stored]
    | ok g2 =>
      have hu : updateDoc s g2 = g2 := updateDoc_run (a := .draw pid rng) hrun
      simp [advance, Action.run, hrun, stored, hu]
  | uno pid =>
    cases hrun : callUno s pid with
    | error e => simp [advance, Action.run, hrun, stored]
    | ok g2 =>
      have hu : updateDoc s g2 = g2 := updateDoc_run (a := .uno pid) hrun
      simp [advance, Action.run, hrun, stored, hu]
  | catchUno pid =>
    cases hrun : catchUnoFailure s pid with
    | error e => simp [advance, Action.run, hrun, stored]
    | ok g2 =>
      have hu : updateDoc s g2 = g2 := updateDoc_run (a := .catchUno pid) hrun
      simp [advance, Action.run, hrun, stored, hu]

theorem runSchedule_first_alone (a b : Action) (s : GameState) (p2 : Progress) :
    runSchedule a b [.first, .first, .first] ⟨s, .submitted, p2⟩ =
      ⟨stored s (a.run s), .done, p2⟩ := by
  have h := advance_alone a s
  simp only [runSchedule]
  rw [h]

theorem runSchedule_second_alone (a b : Action) (s : GameState) (p1 : Progress) :
    runSchedule a b [.second, .second, .second] ⟨s, p1, .submitted⟩ =
      ⟨stored s (b.run s), p1, .done⟩ := by
  have h := advance_alone b s
  simp only [runSchedule]
  rw [h]

theorem runSchedule_append (a b : Action) (l1 l2 : List Who) (r : Race) :
    runSchedule a b (l1 ++ l2) r = runSchedule a b l2 (runSchedule a b l1 r) := by
  induction l1 generalizing r with
  | nil => rfl
  | cons w rest ih =>
    cases w
    · exact ih _
    · exact ih _

/-- C21 (amended): the engine does not serialize two invocations; each reads the
stored game, works on its copy and writes it back.  When the second invocation
starts after the first has returned, the stored game is the sequential
execution of the two actions.  When two accepted actions among playCard,
drawCard, callUno and catchUnoFailure both read the stored game before either
writes, the stored game is the one that the last writer computed from the game
as first stored, keeping of the first writer only a `winnerId` that the last
writer does not set: the update of the first writer is lost. -/
theorem race_outcomes (a b : Action) (s : GameState) :
    (runSchedule a b [.first, .first, .first, .second, .second, .second]
        ⟨s, .submitted, .submitted⟩).doc = inSequence a b s ∧
    (∀ ga gb, (∀ c i, a ≠ .challenge c i) → (∀ c i, b ≠ .challenge c i) →
      a.run s = .ok ga → b.run s = .ok gb →
      (runSchedule a b [.first, .second, .first, .second]
          ⟨s, .submitted, .submitted⟩).doc =
        { gb with
          winnerId :=
            match gb.winnerId with
            | some w => some w
            | none => ga.winnerId }) := by
  constructor
  · have hsplit : [Who.first, .first, .first, .second, .second, .second] =
        [Who.first, .first, .first] ++ [Who.second, .second, .second] := rfl
    rw [hsplit, runSchedule_append, runSchedule_first_alone, runSchedule_second_alone]
    rfl
  · intro ga gb hna hnb ha hb
    have hua : updateDoc s ga = ga := updateDoc_run ha
    cases a with
    | challenge c i => exact absurd rfl (hna c i)
    | _ =>
      cases b with
      | challenge c i => exact absurd rfl (hnb c i)
      | _ =>
        simp only [runSchedule, advance, ha, hb, hua]
        rfl

theorem race_outcomes_witness :
    (∀ c i, raceDraw ≠ .challenge c i) ∧ (∀ c i, raceUno ≠ .challenge c i) ∧
    raceDraw.run raceGame = .ok (stored raceGame (raceDraw.run raceGame)) ∧
    raceUno.run raceGame = .ok (stored raceGame (raceUno.run raceGame)) ∧
    racedDoc =
      { stored raceGame (raceUno.run raceGame) with
        winnerId :=
          match (stored raceGame (raceUno.run raceGame)).winnerId with
          | some w => some w
          | none => (stored raceGame (raceDraw.run raceGame)).winnerId } :=
  ⟨fun _ _ h => Action.noConfusion h, fun _ _ h => Action.noConfusion h, by decide, by decide,
    (race_outcomes raceDraw raceUno raceGame).2 _ _ (fun _ _ h => Action.noConfusion h)
      (fun _ _ h => Action.noConfusion h) (by decide) (by decide)⟩

end CardVerse
